import Mathlib

/-!
# Verification development for the `cc` coherence simulator

Shallow embedding of the simulator's primitives (`src/src/primitives.h`), of
the MOESI cache-controller protocol (`src/src/moesi_cc.cc`) and its dispatcher
(`src/libcc/ccntrl.cc`), of the MOESI L2 protocol
(`src/libcc/moesi/moesi_l2.cc`), of the interface of the L1 cache
(`src/src/l1cache.h`), of the memory controller (`src/src/mem.cc`), and of the
protocol registry and configuration builder (`src/src/protocol.cc`,
`src/driver/builder.cc`), followed by the theorems about them.

Conventions of the embedding:

* C++ objects become structures, member functions become functions that take
  the object and return the updated object next to the C++ return value;
* a notification on a `kernel::Event` is recorded in the list of notifications
  the call returns;
* nullable pointers (`Transaction*`, `Agent*`) become `Option`.
-/

namespace cc

/-! ## `Queue<T>` (src/src/primitives.h, lines 64-175) -/

/-- The four kernel events owned by a `Queue`. -/
inductive QueueEvent where
  | enqueue_event
  | dequeue_event
  | non_empty_event
  | non_full_event
  deriving DecidableEq, Repr

/-- State of a `Queue<T>`: the occupancy flags, the write and read pointers,
the occupancy count and the backing vector `ts_`. -/
structure Queue (T : Type) where
  full_ : Bool
  empty_ : Bool
  wr_ptr_ : Nat
  rd_ptr_ : Nat
  size_ : Nat
  ts_ : List T
  deriving DecidableEq, Repr

namespace Queue

variable {T : Type}

/-- The capacity of the queue: `ts_.size()`. -/
def n (q : Queue T) : Nat := q.ts_.length

/-- The occupancy of the queue. -/
def size (q : Queue T) : Nat := q.size_

/-- The number of free entries in the queue. -/
def free (q : Queue T) : Nat := q.n - q.size

/-- Flag denoting full status of the queue. -/
def full (q : Queue T) : Bool := q.full_

/-- Flag denoting empty status of the queue. -/
def empty (q : Queue T) : Bool := q.empty_

/-- The private `reset_state()`: flags, pointers and count go back to their
initial values; the backing vector is left alone. -/
def reset_state (q : Queue T) : Queue T :=
  { q with empty_ := true, full_ := false, wr_ptr_ := 0, rd_ptr_ := 0, size_ := 0 }

/-- The constructor `Queue(k, name, n)`: `ts_.resize(n)` (value-initialised
slots) followed by `reset_state()`. -/
def new [Inhabited T] (n : Nat) : Queue T :=
  reset_state
    { full_ := false, empty_ := true, wr_ptr_ := 0, rd_ptr_ := 0, size_ := 0,
      ts_ := List.replicate n default }

/-- The member `resize(n)`: `ts_.resize(n)` followed by `reset_state()`. -/
def resize [Inhabited T] (q : Queue T) (n : Nat) : Queue T :=
  reset_state { q with ts_ := q.ts_.take n ++ List.replicate (n - q.ts_.length) default }

/-- The member `enqueue(t)`. Returns the C++ return value, the updated queue and the
notifications raised, in program order.

The store `ts_[wr_ptr_] = t` is a plain vector subscript.  A subscript past the
end (which happens only for a queue built with capacity 0) has no defined
behaviour in the source; here it leaves `ts_` as it is and the statements after
it run as written. -/
def enqueue (q : Queue T) (t : T) : Bool × Queue T × List QueueEvent :=
  if q.full then (false, q, [])
  else
    let ts := q.ts_.set q.wr_ptr_ t
    let wr := if q.wr_ptr_ + 1 = q.n then 0 else q.wr_ptr_ + 1
    let ev := if q.empty then [QueueEvent.non_empty_event] else []
    let sz := q.size_ + 1
    (true,
     { q with ts_ := ts, wr_ptr_ := wr, empty_ := false, size_ := sz,
              full_ := decide (sz = q.n) },
     ev ++ [QueueEvent.enqueue_event])

/-- The member `peek(t)`: `none` stands for the return value `false` (the out
parameter is not written), `some x` for `true` with `x` stored in it. -/
def peek [Inhabited T] (q : Queue T) : Option T :=
  if q.empty then none else some (q.ts_.getD q.rd_ptr_ default)

/-- The member `dequeue(t)`: `none` stands for the return value `false` (the out
parameter is not written), `some x` for `true` with `x` stored in it.

`--size_` is written as truncated subtraction: the branch is entered with
`empty_` false, and on every state built from the constructor by
`enqueue`/`dequeue` that means `size_` is positive. -/
def dequeue [Inhabited T] (q : Queue T) : Option T × Queue T × List QueueEvent :=
  if q.empty then (none, q, [])
  else
    let t := q.ts_.getD q.rd_ptr_ default
    let ev := if q.full then [QueueEvent.non_full_event] else []
    let rd := if q.rd_ptr_ + 1 = q.n then 0 else q.rd_ptr_ + 1
    let sz := q.size_ - 1
    (some t,
     { q with rd_ptr_ := rd, size_ := sz, empty_ := decide (sz = 0), full_ := false },
     ev ++ [QueueEvent.dequeue_event])

end Queue

/-- One call made by a client of a queue. -/
inductive QueueOp (T : Type) where
  | enqueue (t : T)
  | dequeue
  deriving DecidableEq, Repr

/-- A queue together with what its clients have observed so far: the values
whose `enqueue` returned true, and the values handed out by the `dequeue`
calls that returned true, both in call order. -/
structure QueueRun (T : Type) where
  q : Queue T
  accepted : List T
  returned : List T
  deriving DecidableEq, Repr

namespace QueueRun

variable {T : Type}

/-- Perform one client call and record its observable outcome. -/
def step [Inhabited T] (r : QueueRun T) : QueueOp T → QueueRun T
  | QueueOp.enqueue t =>
    let res := r.q.enqueue t
    { q := res.2.1,
      accepted := if res.1 then r.accepted ++ [t] else r.accepted,
      returned := r.returned }
  | QueueOp.dequeue =>
    let res := r.q.dequeue
    { q := res.2.1,
      accepted := r.accepted,
      returned :=
        match res.1 with
        | some x => r.returned ++ [x]
        | none => r.returned }

/-- Perform a finite sequence of client calls, left to right. -/
def run [Inhabited T] (r : QueueRun T) (ops : List (QueueOp T)) : QueueRun T :=
  ops.foldl step r

/-- A freshly constructed queue of capacity `n` on which no call has been made. -/
def fresh [Inhabited T] (n : Nat) : QueueRun T :=
  { q := Queue.new n, accepted := [], returned := [] }

end QueueRun

/-! ## Logging -/

/-- Severity of a log message. -/
inductive Level where
  | Debug
  | Info
  | Warning
  | Error
  | Fatal
  deriving DecidableEq, Repr

/-- A message handed to the logger of a module; `level` is `none` when the
code sets no level on it. -/
structure LogMessage where
  msg : String
  level : Option Level
  deriving DecidableEq, Repr

/-! ## `Arbiter<T>` (src/src/primitives.h, lines 179-289) -/

/-- What an arbiter reads of a requester `T`: the values of `has_req()` and
`blocked()` at the time of the tournament. -/
structure Requester where
  has_req : Bool
  blocked : Bool
  deriving DecidableEq, Repr, Inhabited

/-- State of an `Arbiter<T>`: the current arbitration index and the vector of
requesters, in the order of the `add_requester` calls. -/
structure Arbiter where
  idx_ : Nat
  ts_ : List Requester
  deriving DecidableEq, Repr

/-- State of an `Arbiter<T>::Tournament`. The winner pointer
`parent_->ts_[idx_]` is represented by the slot it was read from; `none` is
`nullptr`. The arbiter itself (`parent_`) is passed to the member functions. -/
structure Tournament where
  deadlock_ : Bool
  winner_ : Option Nat
  idx_ : Nat
  deriving DecidableEq, Repr

namespace Arbiter

/-- The number of requesting agents. -/
def n (a : Arbiter) : Nat := a.ts_.length

/-- The freshly built arbiter: index 0 and no requesters. -/
def new : Arbiter := { idx_ := 0, ts_ := [] }

/-- The member `add_requester(t)`. -/
def add_requester (a : Arbiter) (r : Requester) : Arbiter :=
  { a with ts_ := a.ts_ ++ [r] }

/-- The requester stored in slot `p` of `ts_`. Every slot the tournament reads
is a remainder modulo `n()`, hence inside the vector. -/
def at_ (a : Arbiter) (p : Nat) : Requester := a.ts_.getD p default

end Arbiter

namespace Tournament

/-- The default-constructed tournament: the member initialisers. -/
def init : Tournament := { deadlock_ := false, winner_ := none, idx_ := 0 }

/-- Return the winning requester interface. -/
def winner (t : Tournament) : Option Nat := t.winner_

/-- Whether the tournament nominated a requester: `winner_ != nullptr`. -/
def has_requester (t : Tournament) : Bool := t.winner_.isSome

/-- Whether the tournament found all requesters stuck. -/
def deadlock (t : Tournament) : Bool := t.deadlock_

/-- The loop of `execute()`: `execute_loop a k i requesters t` performs the `k`
iterations `i, i+1, ..., i+k-1` of `for (i = 0; i < n(); i++)` and then the
statement after the loop. A `return` inside the loop leaves `deadlock_` as it
was. -/
def execute_loop (a : Arbiter) : Nat → Nat → Nat → Tournament → Tournament
  | 0, _, requesters, t => { t with deadlock_ := decide (requesters = a.n) }
  | k + 1, i, requesters, t =>
    let idx := (a.idx_ + i) % a.n
    let t1 := { t with idx_ := idx }
    let cur := a.at_ idx
    if !cur.has_req then execute_loop a k (i + 1) requesters t1
    else
      let requesters1 := requesters + 1
      if !cur.blocked then { t1 with winner_ := some idx }
      else execute_loop a k (i + 1) requesters1 t1

/-- The private `execute()`, run by the constructor `Tournament(parent)` on a
tournament holding the member initialisers. -/
def execute (a : Arbiter) : Tournament :=
  execute_loop a a.n 0 0 { init with winner_ := none }

/-- The member `advance()`: move the arbiter to the slot after the winner, if
there is a winner. Returns the updated arbiter. -/
def advance (t : Tournament) (a : Arbiter) : Arbiter :=
  if t.winner_.isSome then { a with idx_ := (t.idx_ + 1) % a.n } else a

end Tournament

namespace Arbiter

/-- The member `tournament()`: run one arbitration round; a deadlock is logged
as fatal. Returns the tournament, the arbiter after the call and the log. -/
def tournament (a : Arbiter) : Tournament × Arbiter × List LogMessage :=
  let t := Tournament.execute a
  (t, a,
   if t.deadlock then [{ msg := "A protocol deadlock has been detected.", level := some Level.Fatal }]
   else [])

/-- A requester is eligible when it has a request and is not blocked. -/
def eligible (a : Arbiter) (p : Nat) : Bool :=
  (a.at_ p).has_req && !(a.at_ p).blocked

end Arbiter

/-! ## Messages (src/src/protocol.h and the message classes used by moesi_cc.cc) -/

/-- Identity of a `Transaction` object. -/
abbrev Transaction := Nat

/-- Identity of an `Agent` object. -/
abbrev Agent := Nat

/-- A line address, `addr_t`. -/
abbrev addr_t := Nat

/-- A time offset in ticks, as used for the context cursor and issue delays. -/
abbrev time_t := Nat

/-- The message classes the cache controller handles or emits. -/
inductive MessageClass where
  | Invalid
  | AceCmd
  | AceCmdRsp
  | AceSnoop
  | AceSnoopRsp
  | CohSrt
  | CohCmd
  | CohCmdRsp
  | CohEnd
  | CohSnp
  | CohSnpRsp
  | Dt
  | DtRsp
  | L2Cmd
  | L2CmdRsp
  | L1Cmd
  | L1CmdRsp
  | Noc
  deriving DecidableEq, Repr

/-- Opcodes of an ACE command. -/
inductive AceCmdOpcode where
  | ReadShared
  | ReadUnique
  | CleanUnique
  | Invalid
  deriving DecidableEq, Repr

/-- The enumeration `L1CmdOpcode` (src/src/l1cache.h): the opcodes of a command
from a CPU to its L1. -/
inductive L1CmdOpcode where
  | CpuLoad
  | CpuStore
  | Invalid
  deriving DecidableEq, Repr

/-- Opcodes of a command from an L1 to its L2. -/
inductive L2CmdOpcode where
  | L1GetS
  | L1GetE
  | Invalid
  deriving DecidableEq, Repr

/-- Opcodes of an ACE snoop. -/
inductive AceSnpOpcode where
  | ReadShared
  | ReadUnique
  | CleanInvalid
  | MakeInvalid
  | Invalid
  deriving DecidableEq, Repr

/-- The class-specific fields of a message, one constructor per message class. -/
inductive MessageBody where
  | AceCmd (opcode : AceCmdOpcode) (addr : addr_t)
  | AceCmdRsp (pd : Bool) (is_ : Bool)
  | AceSnoop (opcode : AceSnpOpcode) (addr : addr_t)
  | AceSnoopRsp (dt pd is_ wu : Bool)
  | CohSrt (addr : addr_t)
  | CohCmd (opcode : AceCmdOpcode) (agent : Option Agent) (addr : addr_t)
  | CohCmdRsp
  | CohEnd (is_ pd : Bool) (dt_n : Nat)
  | CohSnp (opcode : AceSnpOpcode) (agent : Option Agent) (addr : addr_t)
  | CohSnpRsp (dt pd is_ wu : Bool)
  | Dt
  | DtRsp
  | L2Cmd (opcode : L2CmdOpcode) (addr : addr_t) (l1cache : Option Agent)
  | L2CmdRsp (is_ : Bool)
  | L1Cmd (opcode : L1CmdOpcode) (addr : addr_t)
  | L1CmdRsp
  deriving DecidableEq, Repr

/-- A message other than the NOC envelope: the fields of the `Message` base
class (transaction and originating agent) and the fields of its class. -/
structure Message where
  t : Option Transaction
  origin : Option Agent
  body : MessageBody
  deriving DecidableEq, Repr

/-- The class of a message, fixed by the constructor of its class. -/
def Message.cls (m : Message) : MessageClass :=
  match m.body with
  | MessageBody.AceCmd _ _ => MessageClass.AceCmd
  | MessageBody.AceCmdRsp _ _ => MessageClass.AceCmdRsp
  | MessageBody.AceSnoop _ _ => MessageClass.AceSnoop
  | MessageBody.AceSnoopRsp _ _ _ _ => MessageClass.AceSnoopRsp
  | MessageBody.CohSrt _ => MessageClass.CohSrt
  | MessageBody.CohCmd _ _ _ => MessageClass.CohCmd
  | MessageBody.CohCmdRsp => MessageClass.CohCmdRsp
  | MessageBody.CohEnd _ _ _ => MessageClass.CohEnd
  | MessageBody.CohSnp _ _ _ => MessageClass.CohSnp
  | MessageBody.CohSnpRsp _ _ _ _ => MessageClass.CohSnpRsp
  | MessageBody.Dt => MessageClass.Dt
  | MessageBody.DtRsp => MessageClass.DtRsp
  | MessageBody.L2Cmd _ _ _ => MessageClass.L2Cmd
  | MessageBody.L2CmdRsp _ => MessageClass.L2CmdRsp
  | MessageBody.L1Cmd _ _ => MessageClass.L1Cmd
  | MessageBody.L1CmdRsp => MessageClass.L1CmdRsp

/-- The NOC transport envelope `NocMsg`: payload, origin and destination. -/
structure NocMsg where
  t : Option Transaction
  origin : Option Agent
  payload : Message
  dest : Option Agent
  deriving DecidableEq, Repr

/-- The two message tables `to_epoch_cost` and `to_cmd_type`. Both functions are
declared in the message header, whose source is absent from the tree, so they
are parameters of the development. -/
structure MsgTables where
  to_epoch_cost : MessageClass → Nat
  to_cmd_type : MessageClass → MessageClass

/-! ## The MOESI cache-controller protocol (src/src/moesi_cc.cc) -/

namespace moesi_cc

/-- The per-transaction line of the cache controller, with the member
initialisers of the class as defaults. `dt_n_` and `dt_i_` are `std::size_t`
counters of data transfers of one transaction, far below the word size. -/
structure Line where
  t_ : Option Transaction := none
  is_ : Bool := false
  pd_ : Bool := false
  dt_n_ : Nat := 0
  dt_i_ : Nat := 0
  awaiting_cohend_ : Bool := false
  awaiting_cohcmdrsp_ : Bool := false
  deriving DecidableEq, Repr

namespace Line

/-- Accessor for the transaction. -/
def t (l : Line) : Option Transaction := l.t_
/-- Accessor for the is-shared flag. -/
def is (l : Line) : Bool := l.is_
/-- Accessor for the pass-dirty flag. -/
def pd (l : Line) : Bool := l.pd_
/-- Accessor for the expected number of data transfers. -/
def dt_n (l : Line) : Nat := l.dt_n_
/-- Accessor for the received number of data transfers. -/
def dt_i (l : Line) : Nat := l.dt_i_
/-- Accessor for the awaiting-CohEnd flag. -/
def awaiting_cohend (l : Line) : Bool := l.awaiting_cohend_
/-- Accessor for the awaiting-CohCmdRsp flag. -/
def awaiting_cohcmdrsp (l : Line) : Bool := l.awaiting_cohcmdrsp_

/-- Setter for the transaction. -/
def set_t (l : Line) (t : Option Transaction) : Line := { l with t_ := t }
/-- Setter for the is-shared flag. -/
def set_is (l : Line) (b : Bool) : Line := { l with is_ := b }
/-- Setter for the pass-dirty flag. -/
def set_pd (l : Line) (b : Bool) : Line := { l with pd_ := b }
/-- Setter for the expected number of data transfers. -/
def set_dt_n (l : Line) (k : Nat) : Line := { l with dt_n_ := k }
/-- Setter for the received number of data transfers. -/
def set_dt_i (l : Line) (k : Nat) : Line := { l with dt_i_ := k }
/-- Setter for the awaiting-CohEnd flag. -/
def set_awaiting_cohend (l : Line) (b : Bool) : Line := { l with awaiting_cohend_ := b }
/-- Setter for the awaiting-CohCmdRsp flag. -/
def set_awaiting_cohcmdrsp (l : Line) (b : Bool) : Line :=
  { l with awaiting_cohcmdrsp_ := b }

/-- The member `is_complete()`. -/
def is_complete (l : Line) : Bool :=
  if l.awaiting_cohend then false
  else if l.awaiting_cohcmdrsp then false
  else decide (l.dt_n = l.dt_i)

end Line

/-- The updates a `LineUpdateAction` can carry. -/
inductive LineUpdate where
  | SetAwaitingCohEnd
  | SetAwaitingCohCmdRsp
  | Invalid
  deriving DecidableEq, Repr

/-- Destination egress queue definition. -/
inductive CCEgressQueue where
  | L2RspQ
  | L2CmdQ
  | Invalid
  deriving DecidableEq, Repr

/-- Identity of a `CreditCounter` object. -/
abbrev CreditCounterId := Nat

/-- The coherence actions built by the protocol. An action object keeps
pointers to the line of the context, to the destination queue or NOC port and
to the cache controller; here these are the line, queues and port of the state
the action is executed on, and the action keeps its remaining operands. -/
inductive CCCoherenceAction where
  | ApplyMsgAction (msg : Message)
  | LineUpdateAction (update : LineUpdate)
  | AddCreditAction (cc : CreditCounterId)
  | EmitMessageActionProxy (eq : CCEgressQueue) (msg : Message)
  | EmitMessageToNocAction (msg : NocMsg) (delay : time_t)
  deriving DecidableEq, Repr

/-- Modelled from the spec: the commands of a cache-controller command list.
The class `CCCommand` and the opcode list live in the controller's header
`ccntrl.h`, which is absent from the tree; the commands are those the protocol
pushes: a coherence action (`push_back(action)`), the start of the transaction
of the current message (`push_back(CCOpcode::TransactionStart)`), the end of a
transaction (`push_transaction_end(t)`), and the two commands behind
`next_and_do_consume`: consume the head message, and wait for the next epoch
(the spec's opcodes "start/end transaction", "consume the head message" and
"wait_epoch"). -/
inductive CCCommand where
  | InvokeCoherenceAction (action : CCCoherenceAction)
  | TransactionStart
  | TransactionEnd (t : Option Transaction)
  | MsgConsume
  | WaitNextEpoch
  deriving DecidableEq, Repr

/-- A command list: the commands in the order they were pushed. -/
abbrev CCCommandList := List CCCommand

namespace CCCommandList

/-- The member `push_back(action)`: wrap the action in a command and append it. -/
def push_back_action (cl : CCCommandList) (a : CCCoherenceAction) : CCCommandList :=
  cl ++ [CCCommand.InvokeCoherenceAction a]

/-- The member `push_back(cmd)`. -/
def push_back (cl : CCCommandList) (c : CCCommand) : CCCommandList := cl ++ [c]

/-- Modelled from the spec: `push_transaction_end(t)`, a member of the command
list whose definition is absent from the tree, appends the command that ends
transaction `t`. -/
def push_transaction_end (cl : CCCommandList) (t : Option Transaction) : CCCommandList :=
  cl ++ [CCCommand.TransactionEnd t]

/-- Modelled from the spec: `next_and_do_consume(do_consume)`, a member of the
command list whose definition is absent from the tree: consume the current
message when asked to, and advance the agent to its next epoch. -/
def next_and_do_consume (cl : CCCommandList) (do_consume : Bool) : CCCommandList :=
  (if do_consume then cl ++ [CCCommand.MsgConsume] else cl) ++ [CCCommand.WaitNextEpoch]

end CCCommandList

/-- What the protocol reads of the cache-controller agent `ctxt.cc()`: its
identity (the value of the pointer), the directory mapper `dm()->lookup`, and
the credit counters registered per message class and destination agent. -/
structure CCAgent where
  id : Agent
  dm_lookup : addr_t → Option Agent
  ccntrs_map : MessageClass → Option Agent → Option CreditCounterId
  noc_ingress_cc : CreditCounterId

/-- Modelled from the spec: `cc_by_cls_agent(cls, agent)`, a member of the
controller whose definition is absent from the tree, is the credit counter kept
for the edge towards `agent` for messages of class `cls`, or null. -/
def CCAgent.cc_by_cls_agent (cc : CCAgent) (cls : MessageClass) (agent : Option Agent) :
    Option CreditCounterId :=
  cc.ccntrs_map cls agent

/-- The context the protocol works on: the head message of the nominated queue,
the line of the transaction, the cache controller, the epoch of the running
process and the time cursor. -/
structure CCContext where
  msg : Message
  line : Line
  cc : CCAgent
  epoch : Nat
  cursor : time_t

/-- The member `advance_cursor(d)` of the context. -/
def CCContext.advance_cursor (ctxt : CCContext) (d : time_t) : CCContext :=
  { ctxt with cursor := ctxt.cursor + d }

/-- The state a command list is executed on: the line of the context and what
the controller has handed to its surroundings. Message queues, the NOC port and
credit counters are classes whose source is absent from the tree; they are
represented by the sequence of operations performed on them. -/
structure CCState where
  line : Line
  noc_ingress : List (NocMsg × time_t)
  cc_l2__cmd_q : List Message
  cc_l2__rsp_q : List Message
  debits : List CreditCounterId
  credits : List CreditCounterId
  tt : List (Option Transaction)
  consumed : Nat
  epochs : Nat
  deriving DecidableEq, Repr

/-- The state holding line `l` on which nothing has been emitted yet. -/
def CCState.init (l : Line) : CCState :=
  { line := l, noc_ingress := [], cc_l2__cmd_q := [], cc_l2__rsp_q := [],
    debits := [], credits := [], tt := [], consumed := 0, epochs := 0 }

namespace ApplyMsgAction

/-- The overload `execute_apply(const AceCmdMsg*)`. -/
def execute_apply_AceCmdMsg (line : Line) (msg : Message) : Bool × Line :=
  (true, line.set_t msg.t)

/-- The overload `execute_apply(const CohEndMsg*)`; `is_`, `pd` and `dt_n` are
the fields of the message. -/
def execute_apply_CohEndMsg (line : Line) (is_ pd : Bool) (dt_n : Nat) : Bool × Line :=
  (true, (((line.set_is is_).set_pd pd).set_dt_n dt_n).set_awaiting_cohend false)

/-- The overload `execute_apply(const CohCmdRspMsg*)`. -/
def execute_apply_CohCmdRspMsg (line : Line) : Bool × Line :=
  (true, line.set_awaiting_cohcmdrsp false)

/-- The overload `execute_apply(const DtMsg*)`. -/
def execute_apply_DtMsg (line : Line) : Bool × Line :=
  (true, line.set_dt_i (line.dt_i + 1))

/-- The member `execute()`: dispatch on the class of the message. -/
def execute (msg : Message) (line : Line) : Bool × Line :=
  match msg.body with
  | MessageBody.AceCmd _ _ => execute_apply_AceCmdMsg line msg
  | MessageBody.CohEnd is_ pd dt_n => execute_apply_CohEndMsg line is_ pd dt_n
  | MessageBody.CohCmdRsp => execute_apply_CohCmdRspMsg line
  | MessageBody.Dt => execute_apply_DtMsg line
  | _ => (false, line)

end ApplyMsgAction

/-- The member `LineUpdateAction::execute()`. -/
def LineUpdateAction.execute (update : LineUpdate) (line : Line) : Bool × Line :=
  match update with
  | LineUpdate.SetAwaitingCohEnd => (true, line.set_awaiting_cohend true)
  | LineUpdate.SetAwaitingCohCmdRsp => (true, line.set_awaiting_cohcmdrsp true)
  | LineUpdate.Invalid => (true, line)

/-- The member `execute()` of each action class, on the state of the controller.
`mq_->issue(msg_)` appends to the destination queue and `debit()`/`credit()`
are recorded per counter. An `EmitMessageActionProxy` built for the `Invalid`
destination holds a null queue; the protocol never builds one, and here it
leaves the state as it is. -/
def CCCoherenceAction.execute (cc : CCAgent) (st : CCState) : CCCoherenceAction → CCState
  | CCCoherenceAction.ApplyMsgAction msg =>
    { st with line := (ApplyMsgAction.execute msg st.line).2 }
  | CCCoherenceAction.LineUpdateAction update =>
    { st with line := (LineUpdateAction.execute update st.line).2 }
  | CCCoherenceAction.AddCreditAction c => { st with credits := st.credits ++ [c] }
  | CCCoherenceAction.EmitMessageActionProxy eq msg =>
    match eq with
    | CCEgressQueue.L2CmdQ => { st with cc_l2__cmd_q := st.cc_l2__cmd_q ++ [msg] }
    | CCEgressQueue.L2RspQ => { st with cc_l2__rsp_q := st.cc_l2__rsp_q ++ [msg] }
    | CCEgressQueue.Invalid => st
  | CCCoherenceAction.EmitMessageToNocAction msg delay =>
    let edge : List CreditCounterId :=
      match cc.ccntrs_map msg.payload.cls msg.dest with
      | some c => [c]
      | none => []
    { st with debits := st.debits ++ edge ++ [cc.noc_ingress_cc],
              noc_ingress := st.noc_ingress ++ [(msg, delay)] }

namespace CCCommandInterpreter

/-- Modelled from the spec: the interpreter of this version of the controller's
command list is absent from the tree. A coherence action is executed
(`action->execute()`); the start of a transaction enters the transaction of the
current message in the transaction table and its end removes it; consuming
dequeues the head message of the nominated queue; waiting lets one epoch
elapse. -/
def execute (ctxt : CCContext) (st : CCState) : CCCommand → CCState
  | CCCommand.InvokeCoherenceAction a => a.execute ctxt.cc st
  | CCCommand.TransactionStart => { st with tt := st.tt ++ [ctxt.msg.t] }
  | CCCommand.TransactionEnd t => { st with tt := st.tt.erase t }
  | CCCommand.MsgConsume => { st with consumed := st.consumed + 1 }
  | CCCommand.WaitNextEpoch => { st with epochs := st.epochs + 1 }

/-- Execute a command list front to back. -/
def execute_list (ctxt : CCContext) (st : CCState) (cl : CCCommandList) : CCState :=
  cl.foldl (execute ctxt) st

end CCCommandInterpreter

/-- The name of a message class, as rendered in diagnostics. -/
def to_string : MessageClass → String
  | MessageClass.Invalid => "Invalid"
  | MessageClass.AceCmd => "AceCmd"
  | MessageClass.AceCmdRsp => "AceCmdRsp"
  | MessageClass.AceSnoop => "AceSnoop"
  | MessageClass.AceSnoopRsp => "AceSnoopRsp"
  | MessageClass.CohSrt => "CohSrt"
  | MessageClass.CohCmd => "CohCmd"
  | MessageClass.CohCmdRsp => "CohCmdRsp"
  | MessageClass.CohEnd => "CohEnd"
  | MessageClass.CohSnp => "CohSnp"
  | MessageClass.CohSnpRsp => "CohSnpRsp"
  | MessageClass.Dt => "Dt"
  | MessageClass.DtRsp => "DtRsp"
  | MessageClass.L2Cmd => "L2Cmd"
  | MessageClass.L2CmdRsp => "L2CmdRsp"
  | MessageClass.L1Cmd => "L1Cmd"
  | MessageClass.L1CmdRsp => "L1CmdRsp"
  | MessageClass.Noc => "Noc"

namespace MOESICCProtocol

/-- The helper `issue_apply_msg`. -/
def issue_apply_msg (_ctxt : CCContext) (cl : CCCommandList) (msg : Message) : CCCommandList :=
  cl.push_back_action (CCCoherenceAction.ApplyMsgAction msg)

/-- The helper `issue_line_update`. -/
def issue_line_update (_ctxt : CCContext) (cl : CCCommandList) (update : LineUpdate) :
    CCCommandList :=
  cl.push_back_action (CCCoherenceAction.LineUpdateAction update)

/-- The helper `issue_add_credit`: push a credit update when a counter exists
for the edge to the origin of the current message. -/
def issue_add_credit (ctxt : CCContext) (cl : CCCommandList) (cls : MessageClass) :
    CCCommandList :=
  match ctxt.cc.cc_by_cls_agent cls ctxt.msg.origin with
  | some c => cl.push_back_action (CCCoherenceAction.AddCreditAction c)
  | none => cl

/-- The helper `issue_msg_to_queue`: push the emission of `msg` to the egress
queue `eq`; an unknown destination is logged. -/
def issue_msg_to_queue (eq : CCEgressQueue) (_ctxt : CCContext) (cl : CCCommandList)
    (msg : Message) : CCCommandList × List LogMessage :=
  let log : List LogMessage :=
    match eq with
    | CCEgressQueue.L2CmdQ => []
    | CCEgressQueue.L2RspQ => []
    | CCEgressQueue.Invalid =>
      [{ msg := "Unknown destination message queue: Invalid", level := none }]
  (cl.push_back_action (CCCoherenceAction.EmitMessageActionProxy eq msg), log)

/-- The helper `issue_msg_to_noc`: wrap `msg` in a NOC envelope from this
controller to `dest`, push its emission with the current cursor as delay, and
advance the cursor by the cost of the message. -/
def issue_msg_to_noc (tb : MsgTables) (ctxt : CCContext) (cl : CCCommandList) (msg : Message)
    (dest : Option Agent) : CCContext × CCCommandList :=
  let nocmsg : NocMsg :=
    { t := msg.t, payload := msg, origin := some ctxt.cc.id, dest := dest }
  let cl1 := cl.push_back_action (CCCoherenceAction.EmitMessageToNocAction nocmsg ctxt.cursor)
  (ctxt.advance_cursor (ctxt.epoch * tb.to_epoch_cost msg.cls), cl1)

/-- The overload `eval_msg(ctxt, cl, const CohCmdRspMsg*)`. -/
def eval_msg_CohCmdRspMsg (tb : MsgTables) (ctxt : CCContext) (cl : CCCommandList)
    (msg : Message) : CCContext × CCCommandList :=
  let cl1 := issue_apply_msg ctxt cl msg
  let cl2 := issue_add_credit ctxt cl1 (tb.to_cmd_type msg.cls)
  (ctxt, cl2.next_and_do_consume true)

/-- The overload `eval_msg(ctxt, cl, const AceCmdMsg*)`; `opcode` and `addr` are
the fields of the message. -/
def eval_msg_AceCmdMsg (tb : MsgTables) (ctxt : CCContext) (cl : CCCommandList)
    (msg : Message) (opcode : AceCmdOpcode) (addr : addr_t) : CCContext × CCCommandList :=
  let cl1 := issue_apply_msg ctxt cl msg
  let dm := ctxt.cc.dm_lookup
  let cohsrt : Message :=
    { t := msg.t, origin := some ctxt.cc.id, body := MessageBody.CohSrt addr }
  let r1 := issue_msg_to_noc tb ctxt cl1 cohsrt (dm addr)
  let cohcmd : Message :=
    { t := msg.t, origin := some r1.1.cc.id, body := MessageBody.CohCmd opcode none addr }
  let r2 := issue_msg_to_noc tb r1.1 r1.2 cohcmd (dm addr)
  let cl3 := issue_line_update r2.1 r2.2 LineUpdate.SetAwaitingCohEnd
  let cl4 := issue_line_update r2.1 cl3 LineUpdate.SetAwaitingCohCmdRsp
  let cl5 := cl4.push_back CCCommand.TransactionStart
  (r2.1, cl5.next_and_do_consume true)

/-- The overload `eval_msg(ctxt, cl, const CohEndMsg*)`. -/
def eval_msg_CohEndMsg (tb : MsgTables) (ctxt : CCContext) (cl : CCCommandList)
    (msg : Message) : CCContext × CCCommandList :=
  let cl1 := issue_apply_msg ctxt cl msg
  let cl2 := issue_add_credit ctxt cl1 (tb.to_cmd_type msg.cls)
  (ctxt, cl2.next_and_do_consume true)

/-- The overload `eval_msg(ctxt, cl, const DtMsg*)`. -/
def eval_msg_DtMsg (tb : MsgTables) (ctxt : CCContext) (cl : CCCommandList)
    (msg : Message) : CCContext × CCCommandList :=
  let cl1 := issue_apply_msg ctxt cl msg
  let rsp : Message := { t := msg.t, origin := some ctxt.cc.id, body := MessageBody.DtRsp }
  let r1 := issue_msg_to_noc tb ctxt cl1 rsp msg.origin
  (r1.1, r1.2.next_and_do_consume true)

/-- The overload `eval_msg(ctxt, cl, const DtRspMsg*)`. -/
def eval_msg_DtRspMsg (tb : MsgTables) (ctxt : CCContext) (cl : CCCommandList)
    (msg : Message) : CCContext × CCCommandList :=
  let cl1 := issue_add_credit ctxt cl (tb.to_cmd_type msg.cls)
  (ctxt, cl1.next_and_do_consume true)

/-- The member `apply(CCContext&, CCCommandList&)`: dispatch on the class of the
current message; any other class is a fatal diagnostic. Returns the context and
command list after the call, and the log. -/
def apply (tb : MsgTables) (ctxt : CCContext) (cl : CCCommandList) :
    CCContext × CCCommandList × List LogMessage :=
  match ctxt.msg.body with
  | MessageBody.AceCmd opcode addr =>
    let r := eval_msg_AceCmdMsg tb ctxt cl ctxt.msg opcode addr
    (r.1, r.2, [])
  | MessageBody.CohEnd _ _ _ =>
    let r := eval_msg_CohEndMsg tb ctxt cl ctxt.msg
    (r.1, r.2, [])
  | MessageBody.CohCmdRsp =>
    let r := eval_msg_CohCmdRspMsg tb ctxt cl ctxt.msg
    (r.1, r.2, [])
  | MessageBody.Dt =>
    let r := eval_msg_DtMsg tb ctxt cl ctxt.msg
    (r.1, r.2, [])
  | MessageBody.DtRsp =>
    let r := eval_msg_DtRspMsg tb ctxt cl ctxt.msg
    (r.1, r.2, [])
  | _ =>
    (ctxt, cl,
     [{ msg := "Invalid message class received: " ++ to_string ctxt.msg.cls,
        level := some Level.Fatal }])

/-- The member `is_complete(CCContext&, CCCommandList&)`. Returns the C++ return
value, the command list after the call and the log. -/
def is_complete (ctxt : CCContext) (cl : CCCommandList) :
    Bool × CCCommandList × List LogMessage :=
  let line := ctxt.line
  if !line.is_complete then (false, cl, [])
  else
    let rsp : Message :=
      { t := line.t, origin := some ctxt.cc.id, body := MessageBody.AceCmdRsp line.pd line.is }
    let r := issue_msg_to_queue CCEgressQueue.L2RspQ ctxt cl rsp
    (true, r.1.push_transaction_end line.t, r.2)

end MOESICCProtocol

end moesi_cc

/-! ## Abstraction of the ring buffer -/

namespace Queue

variable {T : Type}

/-- The elements held by the queue, oldest first: the `size_` slots of `ts_`
starting at `rd_ptr_` and wrapping around at the capacity. -/
def contents [Inhabited T] (q : Queue T) : List T :=
  (List.range q.size_).map (fun i => q.ts_.getD ((q.rd_ptr_ + i) % q.n) default)

/-- Consistency of the flags, pointers and count of a queue of capacity at
least one. -/
def Inv (q : Queue T) : Prop :=
  0 < q.n ∧ q.rd_ptr_ < q.n ∧ q.size_ ≤ q.n ∧ q.wr_ptr_ = (q.rd_ptr_ + q.size_) % q.n ∧
    q.full_ = decide (q.size_ = q.n) ∧ q.empty_ = decide (q.size_ = 0)

end Queue

namespace QueueRun

variable {T : Type}

/-- What a run keeps true: the queue is consistent, its capacity is `n`, and
the accepted values are the returned values followed by the held ones. -/
def Good [Inhabited T] (n : Nat) (r : QueueRun T) : Prop :=
  r.q.Inv ∧ r.q.n = n ∧ r.accepted = r.returned ++ r.q.contents

end QueueRun

/-! ## The snoop side of the cache-controller protocol (src/src/moesi_cc.cc) -/

namespace moesi_cc

/-- The per-snoop line of the cache controller, with the member initialisers of
the class as defaults: the originating directory and the agent the data is to
be forwarded to. -/
structure SnpLine where
  origin_ : Option Agent := none
  agent_ : Option Agent := none
  deriving DecidableEq, Repr

namespace SnpLine

/-- Accessor for the originating directory. -/
def origin (l : SnpLine) : Option Agent := l.origin_
/-- Accessor for the requesting agent. -/
def agent (l : SnpLine) : Option Agent := l.agent_
/-- Setter for the originating directory. -/
def set_origin (l : SnpLine) (a : Option Agent) : SnpLine := { l with origin_ := a }
/-- Setter for the requesting agent. -/
def set_agent (l : SnpLine) (a : Option Agent) : SnpLine := { l with agent_ := a }

end SnpLine

/-- Modelled from the spec: the state the controller keeps per snoop
transaction (`CCSnpTState`, declared in the absent header `ccntrl.h`): the line
address and the snoop line. -/
structure CCSnpTState where
  addr : addr_t
  line : SnpLine
  deriving DecidableEq, Repr

/-- Modelled from the spec: the commands of a snoop command list (`CCSnpCommand`
and `CCSnpOpcode` are declared in the absent header `ccntrl.h`): a coherence
action, the start and the end of the snoop transaction of the current message,
and the two commands behind `next_and_do_consume`. -/
inductive CCSnpCommand where
  | InvokeCoherenceAction (action : CCCoherenceAction)
  | TransactionStart
  | TransactionEnd
  | MsgConsume
  | WaitNextEpoch
  deriving DecidableEq, Repr

/-- A snoop command list: the commands in the order they were pushed. -/
abbrev CCSnpCommandList := List CCSnpCommand

namespace CCSnpCommandList

/-- The member `push_back(action)`: wrap the action in a command and append it. -/
def push_back_action (cl : CCSnpCommandList) (a : CCCoherenceAction) : CCSnpCommandList :=
  cl ++ [CCSnpCommand.InvokeCoherenceAction a]

/-- The member `push_back(cmd)`. -/
def push_back (cl : CCSnpCommandList) (c : CCSnpCommand) : CCSnpCommandList := cl ++ [c]

/-- Modelled from the spec: `next_and_do_consume(do_consume)`, a member of the
snoop command list whose definition is absent from the tree: consume the
current message when asked to, and advance the agent to its next epoch. -/
def next_and_do_consume (cl : CCSnpCommandList) (do_consume : Bool) : CCSnpCommandList :=
  (if do_consume then cl ++ [CCSnpCommand.MsgConsume] else cl) ++ [CCSnpCommand.WaitNextEpoch]

end CCSnpCommandList

/-- The context of the snoop side: the head message of the nominated queue, the
state of the snoop transaction, the cache controller, the epoch of the running
process and the time cursor. -/
structure CCSnpContext where
  msg : Message
  tstate : CCSnpTState
  cc : CCAgent
  epoch : Nat
  cursor : time_t

/-- The member `advance_cursor(d)` of the snoop context. -/
def CCSnpContext.advance_cursor (ctxt : CCSnpContext) (d : time_t) : CCSnpContext :=
  { ctxt with cursor := ctxt.cursor + d }

namespace CCSnpCommandInterpreter

/-- Modelled from the spec: the interpreter of the snoop command list is absent
from the tree. A coherence action is executed; the start of a snoop transaction
enters the transaction of the current message in the table and its end removes
it; consuming dequeues the head message; waiting lets one epoch elapse. -/
def execute (ctxt : CCSnpContext) (st : CCState) : CCSnpCommand → CCState
  | CCSnpCommand.InvokeCoherenceAction a => a.execute ctxt.cc st
  | CCSnpCommand.TransactionStart => { st with tt := st.tt ++ [ctxt.msg.t] }
  | CCSnpCommand.TransactionEnd => { st with tt := st.tt.erase ctxt.msg.t }
  | CCSnpCommand.MsgConsume => { st with consumed := st.consumed + 1 }
  | CCSnpCommand.WaitNextEpoch => { st with epochs := st.epochs + 1 }

/-- Execute a snoop command list front to back. -/
def execute_list (ctxt : CCSnpContext) (st : CCState) (cl : CCSnpCommandList) : CCState :=
  cl.foldl (execute ctxt) st

end CCSnpCommandInterpreter

namespace MOESICCProtocol

/-- The helper template `issue_msg_to_queue`, instantiated for the snoop context
and list. -/
def issue_msg_to_queue_snp (eq : CCEgressQueue) (_ctxt : CCSnpContext) (cl : CCSnpCommandList)
    (msg : Message) : CCSnpCommandList × List LogMessage :=
  let log : List LogMessage :=
    match eq with
    | CCEgressQueue.L2CmdQ => []
    | CCEgressQueue.L2RspQ => []
    | CCEgressQueue.Invalid =>
      [{ msg := "Unknown destination message queue: Invalid", level := none }]
  (cl.push_back_action (CCCoherenceAction.EmitMessageActionProxy eq msg), log)

/-- The helper template `issue_msg_to_noc`, instantiated for the snoop context
and list. -/
def issue_msg_to_noc_snp (tb : MsgTables) (ctxt : CCSnpContext) (cl : CCSnpCommandList)
    (msg : Message) (dest : Option Agent) : CCSnpContext × CCSnpCommandList :=
  let nocmsg : NocMsg :=
    { t := msg.t, payload := msg, origin := some ctxt.cc.id, dest := dest }
  let cl1 := cl.push_back_action (CCCoherenceAction.EmitMessageToNocAction nocmsg ctxt.cursor)
  (ctxt.advance_cursor (ctxt.epoch * tb.to_epoch_cost msg.cls), cl1)

/-- The overload `eval_msg(CCSnpContext&, CCSnpCommandList&, const CohSnpMsg*)`;
`opcode`, `agent` and `addr` are the fields of the message. The transaction
state and the snoop line are written when the list is built. -/
def eval_msg_CohSnpMsg (ctxt : CCSnpContext) (cl : CCSnpCommandList) (msg : Message)
    (opcode : AceSnpOpcode) (agent : Option Agent) (addr : addr_t) :
    CCSnpContext × CCSnpCommandList × List LogMessage :=
  let acesnp : Message := { t := msg.t, origin := none, body := MessageBody.AceSnoop opcode addr }
  let r := issue_msg_to_queue_snp CCEgressQueue.L2CmdQ ctxt cl acesnp
  let tstate1 : CCSnpTState := { ctxt.tstate with addr := addr }
  let snpline := (tstate1.line.set_origin msg.origin).set_agent agent
  let ctxt1 : CCSnpContext := { ctxt with tstate := { tstate1 with line := snpline } }
  let cl2 := r.1.push_back CCSnpCommand.TransactionStart
  (ctxt1, cl2.next_and_do_consume true, r.2)

/-- The overload `eval_msg(CCSnpContext&, CCSnpCommandList&, const AceSnpRspMsg*)`;
`dt`, `pd`, `is_` and `wu` are the fields of the message. -/
def eval_msg_AceSnpRspMsg (tb : MsgTables) (ctxt : CCSnpContext) (cl : CCSnpCommandList)
    (msg : Message) (dt pd is_ wu : Bool) : CCSnpContext × CCSnpCommandList :=
  let snpline := ctxt.tstate.line
  let do_emit_rsp0 := !dt
  let r1 : (CCSnpContext × CCSnpCommandList) × Bool :=
    if dt then
      let has_agent := snpline.agent.isSome
      if has_agent then
        let dtmsg : Message := { t := msg.t, origin := some ctxt.cc.id, body := MessageBody.Dt }
        (issue_msg_to_noc_snp tb ctxt cl dtmsg snpline.agent, true)
      else
        ((ctxt, cl), true)
    else ((ctxt, cl), do_emit_rsp0)
  let r2 : CCSnpContext × CCSnpCommandList :=
    if r1.2 then
      let rsp : Message :=
        { t := msg.t, origin := some r1.1.1.cc.id, body := MessageBody.CohSnpRsp dt pd is_ wu }
      issue_msg_to_noc_snp tb r1.1.1 r1.1.2 rsp snpline.origin
    else r1.1
  (r2.1, r2.2.next_and_do_consume true)

/-- The overload `eval_msg(CCSnpContext&, CCSnpCommandList&, const DtRspMsg*)`. -/
def eval_msg_snp_DtRspMsg (ctxt : CCSnpContext) (cl : CCSnpCommandList) (_msg : Message) :
    CCSnpContext × CCSnpCommandList :=
  let cl1 := cl.push_back CCSnpCommand.TransactionEnd
  (ctxt, cl1.next_and_do_consume true)

/-- The member `apply(CCSnpContext&, CCSnpCommandList&)`: dispatch on the class
of the current message; any other class is a fatal diagnostic. Returns the
context and command list after the call, and the log. -/
def apply_snp (tb : MsgTables) (ctxt : CCSnpContext) (cl : CCSnpCommandList) :
    CCSnpContext × CCSnpCommandList × List LogMessage :=
  match ctxt.msg.body with
  | MessageBody.CohSnp opcode agent addr =>
    eval_msg_CohSnpMsg ctxt cl ctxt.msg opcode agent addr
  | MessageBody.AceSnoopRsp dt pd is_ wu =>
    let r := eval_msg_AceSnpRspMsg tb ctxt cl ctxt.msg dt pd is_ wu
    (r.1, r.2, [])
  | MessageBody.DtRsp =>
    let r := eval_msg_snp_DtRspMsg ctxt cl ctxt.msg
    (r.1, r.2, [])
  | _ =>
    (ctxt, cl,
     [{ msg := "Invalid message class received: " ++ to_string ctxt.msg.cls,
        level := some Level.Fatal }])

end MOESICCProtocol

end moesi_cc

/-! ## The MOESI L2 protocol (src/libcc/moesi/moesi_l2.cc) -/

namespace moesi_l2

/-- The states of an L2 line. -/
inductive State where
  | X
  | I
  | IS
  | IE
  | S
  | E
  | M
  | O
  | OE
  deriving DecidableEq, Repr

/-- The function `is_stable(State)`. -/
def is_stable : State → Bool
  | State.I => true
  | State.S => true
  | State.E => true
  | State.M => true
  | State.O => true
  | _ => false

/-- The class `LineState` with its member initialisers as defaults: the state,
the owning agent and the set of sharers. -/
structure LineState where
  state_ : State := State.I
  owner_ : Option Agent := none
  sharers_ : Finset (Option Agent) := ∅
  deriving DecidableEq

namespace LineState

/-- Accessor for the state. -/
def state (l : LineState) : State := l.state_
/-- Accessor for the owning agent. -/
def owner (l : LineState) : Option Agent := l.owner_
/-- Accessor for the sharers. -/
def sharers (l : LineState) : Finset (Option Agent) := l.sharers_

/-- Set current line state. -/
def set_state (l : LineState) (s : State) : LineState := { l with state_ := s }

/-- Set owning agent. -/
def set_owner (l : LineState) (a : Option Agent) : LineState := { l with owner_ := a }

/-- Add agent to sharer list; the flag tells whether it was inserted. -/
def add_sharer (l : LineState) (a : Option Agent) : Bool × LineState :=
  (decide (a ∉ l.sharers_), { l with sharers_ := insert a l.sharers_ })

/-- Delete agent from sharer list; the flag tells whether it was present. -/
def del_sharer (l : LineState) (a : Option Agent) : Bool × LineState :=
  if a ∈ l.sharers_ then (true, { l with sharers_ := l.sharers_.erase a }) else (false, l)

end LineState

/-- The kinds of update a `LineUpdateAction` performs. -/
inductive LineUpdate where
  | SetState
  | SetOwner
  | DelOwner
  | AddSharer
  | DelSharer
  | Invalid
  deriving DecidableEq, Repr

/-- The operands of a `LineUpdateAction`, with the member initialisers of the
class as defaults; the line it points to is the line of the state it is
executed on. -/
structure LineUpdateAction where
  update_ : LineUpdate := LineUpdate.Invalid
  state_ : State := State.X
  agent_ : Option Agent := none
  deriving DecidableEq, Repr

/-- The member `LineUpdateAction::execute()`. -/
def LineUpdateAction.execute (a : LineUpdateAction) (line : LineState) : Bool × LineState :=
  match a.update_ with
  | LineUpdate.SetState => (true, line.set_state a.state_)
  | LineUpdate.SetOwner => (true, line.set_owner a.agent_)
  | LineUpdate.DelOwner => (true, line.set_owner none)
  | LineUpdate.AddSharer => (true, (line.add_sharer a.agent_).2)
  | LineUpdate.DelSharer => (true, (line.del_sharer a.agent_).2)
  | LineUpdate.Invalid => (true, line)

/-- The message queues an L2 issues to. `l2_l1__rsp_q l1` is the response queue
towards the L1 `l1` (`l2cache->l2_l1__rsp_q(l1cache)`), `l2_l1__rsp_q_index i`
the one selected by a number (`l2cache->l2_l1__rsp_q(0)`). -/
inductive L2MessageQueue where
  | l2_cc__cmd_q
  | l2_cc__snprsp_q
  | l2_l1__rsp_q (l1cache : Option Agent)
  | l2_l1__rsp_q_index (i : Nat)
  deriving DecidableEq, Repr

/-- The coherence actions of an L2 command list: a line update, or the emission
of a message to a queue (`EmitMessageActionProxy` of protocol.cc). -/
inductive L2CoherenceAction where
  | LineUpdateAction (a : LineUpdateAction)
  | EmitMessageActionProxy (mq : L2MessageQueue) (msg : Message)
  deriving DecidableEq, Repr

/-- Modelled from the spec: the opcodes of the L2 command interpreter
(`L2Opcode`, declared in the absent header `l2cache.h`), as far as the protocol
uses them: start and end of a transaction, consume the head message, remove the
line, demote or invalidate the copies in the L1 caches (the write-through back
door), invoke a coherence action, and wait for the next epoch. -/
inductive L2Opcode where
  | StartTransaction
  | EndTransaction
  | MsgConsume
  | RemoveLine
  | SetL1LinesShared
  | SetL1LinesInvalid
  | InvokeCoherenceAction
  | WaitNextEpoch
  deriving DecidableEq, Repr

/-- A command of an L2 command list: an opcode and, for
`InvokeCoherenceAction`, the action. -/
structure L2Command where
  opcode : L2Opcode
  action : Option L2CoherenceAction
  deriving DecidableEq, Repr

namespace L2CommandBuilder

/-- Build a command from an opcode. -/
def from_opcode (opcode : L2Opcode) : L2Command := { opcode := opcode, action := none }

/-- Build a command from an action. -/
def from_action (action : L2CoherenceAction) : L2Command :=
  { opcode := L2Opcode.InvokeCoherenceAction, action := some action }

end L2CommandBuilder

/-- A command list: the commands in the order they were pushed. -/
abbrev L2CommandList := List L2Command

/-- The member `push_back(cmd)`. -/
def L2CommandList.push_back (cl : L2CommandList) (c : L2Command) : L2CommandList := cl ++ [c]

/-- Modelled from the spec: the state the L2 keeps per transaction (`L2TState`,
declared in the absent header `l2cache.h`), as far as the protocol reads it: the
L1 cache that made the request. -/
structure L2TState where
  l1cache : Option Agent
  deriving DecidableEq, Repr

/-- The context the L2 protocol works on: the head message of the nominated
queue, the line, the transaction state, the current address and the flag
telling that the snooped line has been silently evicted. -/
structure L2CacheContext where
  msg : Message
  line : LineState
  tstate : L2TState
  addr : addr_t
  silently_evicted : Bool

/-- The member `set_addr(addr)` of the context. -/
def L2CacheContext.set_addr (ctxt : L2CacheContext) (addr : addr_t) : L2CacheContext :=
  { ctxt with addr := addr }

/-- Modelled from the spec: the member initialiser of `L2CmdRspMsg` (declared in
the absent header `l2cache.h`): a response is not shared until `set_is` says
so. -/
def L2CmdRspMsg_is_default : Bool := false

/-- Modelled from the spec: the member initialiser of the opcode of `AceCmdMsg`
(declared in the absent header `amba.h`): the placeholder opcode. -/
def AceCmdMsg_opcode_default : AceCmdOpcode := AceCmdOpcode.Invalid

/-- Modelled from the spec: the member initialisers of `AceSnpRspMsg` (declared
in the absent header `amba.h`): no data transfer, not dirty, not shared, not
unique, as for the class `CohSnpRspMsg` of protocol.h into which the controller
copies these flags; the handling of MakeInvalid ("never transfer data") sets no
flag and relies on it. -/
structure AceSnpRspFlags where
  dt : Bool := false
  pd : Bool := false
  is_ : Bool := false
  wu : Bool := false
  deriving DecidableEq, Repr

/-- The snoop response message carrying transaction `t` and the given flags. -/
def AceSnpRspFlags.toMessage (f : AceSnpRspFlags) (t : Option Transaction) : Message :=
  { t := t, origin := none, body := MessageBody.AceSnoopRsp f.dt f.pd f.is_ f.wu }

namespace MOESIL2CacheProtocol

/-- Modelled from the spec: the helper `issue_msg(cl, mq, msg)`, whose definition
is absent from the tree, pushes the action that issues `msg` to the queue `mq`.
The action keeps the pointer to the message, so a field of the message set
after the call is part of what is issued. -/
def issue_msg (cl : L2CommandList) (mq : L2MessageQueue) (msg : Message) : L2CommandList :=
  cl.push_back (L2CommandBuilder.from_action (L2CoherenceAction.EmitMessageActionProxy mq msg))

/-- The helper `issue_update_state`. -/
def issue_update_state (_ctxt : L2CacheContext) (cl : L2CommandList) (state : State) :
    L2CommandList :=
  cl.push_back (L2CommandBuilder.from_action
    (L2CoherenceAction.LineUpdateAction { update_ := LineUpdate.SetState, state_ := state }))

/-- The helper `issue_del_owner`. -/
def issue_del_owner (cl : L2CommandList) : L2CommandList :=
  cl.push_back (L2CommandBuilder.from_action
    (L2CoherenceAction.LineUpdateAction { update_ := LineUpdate.DelOwner }))

/-- The helper `issue_add_sharer`. -/
def issue_add_sharer (cl : L2CommandList) (agent : Option Agent) : L2CommandList :=
  cl.push_back (L2CommandBuilder.from_action
    (L2CoherenceAction.LineUpdateAction { update_ := LineUpdate.AddSharer, agent_ := agent }))

/-- The helper `issue_set_owner`. -/
def issue_set_owner (cl : L2CommandList) (agent : Option Agent) : L2CommandList :=
  cl.push_back (L2CommandBuilder.from_action
    (L2CoherenceAction.LineUpdateAction { update_ := LineUpdate.SetOwner, agent_ := agent }))

/-- The overload `apply(ctxt, cl, line, const L2CmdMsg*)`; `opcode` and `addr`
are the fields of the command. -/
def apply_L2CmdMsg (ctxt : L2CacheContext) (cl : L2CommandList) (line : LineState)
    (cmd : Message) (opcode : L2CmdOpcode) (addr : addr_t) : L2CommandList :=
  let tstate := ctxt.tstate
  let l2_l1__rsp_q := L2MessageQueue.l2_l1__rsp_q tstate.l1cache
  match line.state with
  | State.I =>
    let r : AceCmdOpcode × L2CommandList :=
      match opcode with
      | L2CmdOpcode.L1GetS => (AceCmdOpcode.ReadShared, issue_update_state ctxt cl State.IS)
      | L2CmdOpcode.L1GetE => (AceCmdOpcode.ReadUnique, issue_update_state ctxt cl State.IE)
      | L2CmdOpcode.Invalid => (AceCmdMsg_opcode_default, cl)
    let msg : Message := { t := cmd.t, origin := none, body := MessageBody.AceCmd r.1 addr }
    let cl1 := issue_msg r.2 L2MessageQueue.l2_cc__cmd_q msg
    let cl2 := cl1.push_back (L2CommandBuilder.from_opcode L2Opcode.StartTransaction)
    let cl3 := cl2.push_back (L2CommandBuilder.from_opcode L2Opcode.MsgConsume)
    cl3.push_back (L2CommandBuilder.from_opcode L2Opcode.WaitNextEpoch)
  | State.S =>
    match opcode with
    | L2CmdOpcode.L1GetS =>
      let msg : Message :=
        { t := cmd.t, origin := none, body := MessageBody.L2CmdRsp L2CmdRspMsg_is_default }
      let cl1 := issue_msg cl (L2MessageQueue.l2_l1__rsp_q_index 0) msg
      let cl2 := cl1.push_back (L2CommandBuilder.from_opcode L2Opcode.MsgConsume)
      cl2.push_back (L2CommandBuilder.from_opcode L2Opcode.WaitNextEpoch)
    | _ => cl
  | State.O =>
    match opcode with
    | L2CmdOpcode.L1GetS => cl
    | L2CmdOpcode.L1GetE =>
      let msg : Message :=
        { t := cmd.t, origin := none, body := MessageBody.AceCmd AceCmdOpcode.CleanUnique addr }
      let cl1 := issue_msg cl L2MessageQueue.l2_cc__cmd_q msg
      let cl2 := issue_update_state ctxt cl1 State.OE
      let cl3 := cl2.push_back (L2CommandBuilder.from_opcode L2Opcode.StartTransaction)
      let cl4 := cl3.push_back (L2CommandBuilder.from_opcode L2Opcode.MsgConsume)
      cl4.push_back (L2CommandBuilder.from_opcode L2Opcode.WaitNextEpoch)
    | L2CmdOpcode.Invalid => cl
  | State.E =>
    let requester_is_owner := false
    if !requester_is_owner then
      let r : Bool × L2CommandList :=
        match opcode with
        | L2CmdOpcode.L1GetS =>
          let cl1 := cl.push_back (L2CommandBuilder.from_opcode L2Opcode.SetL1LinesShared)
          let cl2 := issue_del_owner cl1
          let cl3 := issue_add_sharer cl2 tstate.l1cache
          (true, issue_update_state ctxt cl3 State.S)
        | L2CmdOpcode.L1GetE =>
          let cl1 := cl.push_back (L2CommandBuilder.from_opcode L2Opcode.SetL1LinesInvalid)
          (false, issue_set_owner cl1 tstate.l1cache)
        | L2CmdOpcode.Invalid => (L2CmdRspMsg_is_default, cl)
      let msg : Message := { t := cmd.t, origin := none, body := MessageBody.L2CmdRsp r.1 }
      let cl1 := issue_msg r.2 l2_l1__rsp_q msg
      let cl2 := cl1.push_back (L2CommandBuilder.from_opcode L2Opcode.MsgConsume)
      cl2.push_back (L2CommandBuilder.from_opcode L2Opcode.WaitNextEpoch)
    else
      let msg : Message :=
        { t := cmd.t, origin := none, body := MessageBody.L2CmdRsp L2CmdRspMsg_is_default }
      let cl1 := issue_msg cl l2_l1__rsp_q msg
      let cl2 := cl1.push_back (L2CommandBuilder.from_opcode L2Opcode.MsgConsume)
      cl2.push_back (L2CommandBuilder.from_opcode L2Opcode.WaitNextEpoch)
  | _ => cl

/-- The overload `apply(ctxt, cl, line, const AceCmdRspMsg*)`; `is_` and `pd` are
the fields of the response. The response to the L1 is pushed first and its
shared flag is set afterwards, through the pointer the pushed action keeps. -/
def apply_AceCmdRspMsg (ctxt : L2CacheContext) (cl : L2CommandList) (line : LineState)
    (msg : Message) (is_ pd : Bool) : L2CommandList :=
  let tstate := ctxt.tstate
  let l2_l1__rsp_q := L2MessageQueue.l2_l1__rsp_q tstate.l1cache
  match line.state with
  | State.IS =>
    let r : Bool × State :=
      if is_ && pd then (false, State.O)
      else if !is_ && !pd then (false, State.E)
      else (true, State.S)
    let rsp : Message := { t := msg.t, origin := none, body := MessageBody.L2CmdRsp r.1 }
    let cl1 := issue_msg cl l2_l1__rsp_q rsp
    let cl2 := issue_update_state ctxt cl1 r.2
    let cl3 := cl2.push_back (L2CommandBuilder.from_opcode L2Opcode.EndTransaction)
    let cl4 := cl3.push_back (L2CommandBuilder.from_opcode L2Opcode.MsgConsume)
    cl4.push_back (L2CommandBuilder.from_opcode L2Opcode.WaitNextEpoch)
  | State.IE =>
    let rsp : Message := { t := msg.t, origin := none, body := MessageBody.L2CmdRsp false }
    let cl1 := issue_msg cl l2_l1__rsp_q rsp
    let next_state := if pd then State.O else State.E
    let cl2 := issue_update_state ctxt cl1 next_state
    let cl3 := cl2.push_back (L2CommandBuilder.from_opcode L2Opcode.EndTransaction)
    let cl4 := cl3.push_back (L2CommandBuilder.from_opcode L2Opcode.MsgConsume)
    cl4.push_back (L2CommandBuilder.from_opcode L2Opcode.WaitNextEpoch)
  | State.OE =>
    let rsp : Message :=
      { t := msg.t, origin := none, body := MessageBody.L2CmdRsp L2CmdRspMsg_is_default }
    let cl1 := issue_msg cl l2_l1__rsp_q rsp
    let cl2 := issue_update_state ctxt cl1 State.E
    let cl3 := cl2.push_back (L2CommandBuilder.from_opcode L2Opcode.EndTransaction)
    let cl4 := cl3.push_back (L2CommandBuilder.from_opcode L2Opcode.MsgConsume)
    cl4.push_back (L2CommandBuilder.from_opcode L2Opcode.WaitNextEpoch)
  | _ => cl

/-- The name of a snoop opcode, as rendered in diagnostics. -/
def to_string : AceSnpOpcode → String
  | AceSnpOpcode.ReadShared => "ReadShared"
  | AceSnpOpcode.ReadUnique => "ReadUnique"
  | AceSnpOpcode.CleanInvalid => "CleanInvalid"
  | AceSnpOpcode.MakeInvalid => "MakeInvalid"
  | AceSnpOpcode.Invalid => "Invalid"

/-- The overload `apply(ctxt, cl, line, const AceSnpMsg*)`; `opcode` and `addr`
are the fields of the snoop. Returns the context and the command list after the
call, and the log. The flags of the response are those set by the branch taken,
the others keep their initial value. -/
def apply_AceSnpMsg (ctxt : L2CacheContext) (cl : L2CommandList) (line : LineState)
    (msg : Message) (opcode : AceSnpOpcode) (addr : addr_t) :
    L2CacheContext × L2CommandList × List LogMessage :=
  let ctxt1 := ctxt.set_addr addr
  match opcode with
  | AceSnpOpcode.ReadShared =>
    let rsp0 : AceSnpRspFlags := {}
    let state := if ctxt1.silently_evicted then State.I else line.state
    let r : AceSnpRspFlags × L2CommandList :=
      match state with
      | State.I => ({ rsp0 with dt := false }, cl)
      | State.E =>
        let retain := true
        let dt := true
        if retain then
          ({ rsp0 with dt := dt, pd := false, is_ := true, wu := true },
           issue_update_state ctxt1 cl State.S)
        else
          ({ rsp0 with dt := true, pd := false, is_ := false, wu := true },
           (issue_update_state ctxt1 cl State.I).push_back
             (L2CommandBuilder.from_opcode L2Opcode.RemoveLine))
      | State.S => (rsp0, cl)
      | State.M =>
        let retain_as_owner := true
        if retain_as_owner then
          ({ rsp0 with dt := true, pd := false, is_ := true, wu := true },
           (issue_update_state ctxt1 cl State.O).push_back
             (L2CommandBuilder.from_opcode L2Opcode.SetL1LinesShared))
        else
          ({ rsp0 with dt := true, pd := true, is_ := false, wu := true },
           ((issue_update_state ctxt1 cl State.I).push_back
              (L2CommandBuilder.from_opcode L2Opcode.RemoveLine)).push_back
             (L2CommandBuilder.from_opcode L2Opcode.SetL1LinesInvalid))
      | _ => (rsp0, cl)
    let cl1 := issue_msg r.2 L2MessageQueue.l2_cc__snprsp_q (r.1.toMessage msg.t)
    let cl2 := cl1.push_back (L2CommandBuilder.from_opcode L2Opcode.MsgConsume)
    (ctxt1, cl2.push_back (L2CommandBuilder.from_opcode L2Opcode.WaitNextEpoch), [])
  | AceSnpOpcode.ReadUnique =>
    let rsp0 : AceSnpRspFlags := {}
    let rsp : AceSnpRspFlags :=
      match line.state with
      | State.I => { rsp0 with dt := true, pd := false, is_ := false, wu := true }
      | State.S => { rsp0 with dt := true, pd := false, is_ := false, wu := true }
      | State.E => { rsp0 with dt := true, pd := false, is_ := false, wu := true }
      | State.O => { rsp0 with dt := true, pd := true, is_ := false, wu := true }
      | State.M => { rsp0 with dt := true, pd := true, is_ := false, wu := true }
      | _ => rsp0
    let cl1 := issue_msg cl L2MessageQueue.l2_cc__snprsp_q (rsp.toMessage msg.t)
    let cl2 := issue_update_state ctxt1 cl1 State.I
    let cl3 := cl2.push_back (L2CommandBuilder.from_opcode L2Opcode.RemoveLine)
    let cl4 := cl3.push_back (L2CommandBuilder.from_opcode L2Opcode.SetL1LinesInvalid)
    let cl5 := cl4.push_back (L2CommandBuilder.from_opcode L2Opcode.MsgConsume)
    (ctxt1, cl5.push_back (L2CommandBuilder.from_opcode L2Opcode.WaitNextEpoch), [])
  | AceSnpOpcode.Invalid =>
    (ctxt1, cl,
     [{ msg := "Unknown opcode received: " ++ to_string opcode, level := some Level.Fatal }])
  | AceSnpOpcode.MakeInvalid | AceSnpOpcode.CleanInvalid =>
    let rsp0 : AceSnpRspFlags := {}
    let dirty : AceSnpRspFlags :=
      if opcode ≠ AceSnpOpcode.MakeInvalid then { rsp0 with dt := true, pd := true } else rsp0
    let r : AceSnpRspFlags × L2CommandList :=
      match line.state with
      | State.O => (dirty, issue_update_state ctxt1 cl State.I)
      | State.M => (dirty, issue_update_state ctxt1 cl State.I)
      | State.I => (rsp0, issue_update_state ctxt1 cl State.I)
      | State.S => (rsp0, issue_update_state ctxt1 cl State.I)
      | State.E => (rsp0, issue_update_state ctxt1 cl State.I)
      | _ => (rsp0, cl)
    let cl1 := issue_msg r.2 L2MessageQueue.l2_cc__snprsp_q (r.1.toMessage msg.t)
    let cl2 := issue_update_state ctxt1 cl1 State.I
    let cl3 := cl2.push_back (L2CommandBuilder.from_opcode L2Opcode.RemoveLine)
    let cl4 := cl3.push_back (L2CommandBuilder.from_opcode L2Opcode.SetL1LinesInvalid)
    let cl5 := cl4.push_back (L2CommandBuilder.from_opcode L2Opcode.MsgConsume)
    (ctxt1, cl5.push_back (L2CommandBuilder.from_opcode L2Opcode.WaitNextEpoch), [])

/-- The member `apply(L2CacheContext&, L2CommandList&)`: dispatch on the class of
the current message; for any other class nothing is done. -/
def apply (ctxt : L2CacheContext) (cl : L2CommandList) :
    L2CacheContext × L2CommandList × List LogMessage :=
  let line := ctxt.line
  match ctxt.msg.body with
  | MessageBody.L2Cmd opcode addr _ => (ctxt, apply_L2CmdMsg ctxt cl line ctxt.msg opcode addr, [])
  | MessageBody.AceCmdRsp pd is_ => (ctxt, apply_AceCmdRspMsg ctxt cl line ctxt.msg is_ pd, [])
  | MessageBody.AceSnoop opcode addr => apply_AceSnpMsg ctxt cl line ctxt.msg opcode addr
  | _ => (ctxt, cl, [])

end MOESIL2CacheProtocol

/-- The state an L2 command list is executed on: the line, the messages issued
to each queue and the interpreter opcodes performed, both in order. -/
structure L2State where
  line : LineState
  issued : List (L2MessageQueue × Message)
  ops : List L2Opcode
  deriving DecidableEq

/-- The state holding line `l` on which nothing has been executed yet. -/
def L2State.init (l : LineState) : L2State := { line := l, issued := [], ops := [] }

namespace L2CommandInterpreter

/-- Modelled from the spec: the interpreter of the L2 command list is absent
from the tree. A coherence action is executed: a line update acts on the line,
an emission issues the message to its queue. Every other opcode is performed by
the agent (transaction table, head message, cache and L1 back door) and is
recorded by name. -/
def execute (st : L2State) (c : L2Command) : L2State :=
  match c.opcode with
  | L2Opcode.InvokeCoherenceAction =>
    match c.action with
    | some (L2CoherenceAction.LineUpdateAction a) => { st with line := (a.execute st.line).2 }
    | some (L2CoherenceAction.EmitMessageActionProxy mq msg) =>
      { st with issued := st.issued ++ [(mq, msg)] }
    | none => st
  | op => { st with ops := st.ops ++ [op] }

/-- Execute a command list front to back. -/
def execute_list (st : L2State) (cl : L2CommandList) : L2State :=
  cl.foldl execute st

end L2CommandInterpreter

end moesi_l2

/-! ## `Table<K, V>` (src/src/primitives.h, lines 293-350) -/

/-- The kernel event owned by a `Table`. -/
inductive TableEvent where
  | non_full_event
  deriving DecidableEq, Repr

/-- The number of values of a `std::size_t`. -/
def SIZE_T_MOD : Nat := 2 ^ 64

/-- State of a `Table<K, V>`: the declared size `n_` and the map `m_`, held as
its entries, one per key (the order of iteration of the map is not
represented). -/
structure Table (K V : Type) where
  n_ : Nat
  m_ : List (K × V)
  deriving DecidableEq, Repr

namespace Table

variable {K V : Type}

/-- The constructor `Table(k, name, n)`: an empty map of declared size `n`. -/
def new (n : Nat) : Table K V := { n_ := n, m_ := [] }

/-- The declared size of the table. -/
def n (t : Table K V) : Nat := t.n_

/-- The number of entries of the table. -/
def size (t : Table K V) : Nat := t.m_.length

/-- The member `full()`: `size() == n()`. -/
def full (t : Table K V) : Bool := decide (t.size = t.n)

/-- The member `has_at_least(i)`: `n() - size() >= i`, in `std::size_t`
arithmetic. -/
def has_at_least (t : Table K V) (i : Nat) : Bool :=
  decide (i ≤ (t.n + SIZE_T_MOD - t.size) % SIZE_T_MOD)

/-- Whether the map holds an entry for the key: `m_.find(k) != m_.end()`. -/
def contains [DecidableEq K] (t : Table K V) (k : K) : Bool :=
  t.m_.any (fun e => decide (e.1 = k))

/-- The member `find(k)`: the value stored for the key, `none` for `end()`. -/
def find [DecidableEq K] (t : Table K V) (k : K) : Option V :=
  (t.m_.find? (fun e => decide (e.1 = k))).map (fun e => e.2)

/-- The member `install(k, v)`: `m_.insert_or_assign(k, v)`. -/
def install [DecidableEq K] (t : Table K V) (k : K) (v : V) : Table K V :=
  { t with
    m_ := if t.contains k then t.m_.map (fun e => if e.1 = k then (k, v) else e)
          else t.m_ ++ [(k, v)] }

/-- The member `remove(k)`: erase the entry of the key if there is one, and
notify the non-full event if the table was full before. Returns the table after
the call and the notifications raised. -/
def remove [DecidableEq K] (t : Table K V) (k : K) : Table K V × List TableEvent :=
  let was_full := t.full
  if t.contains k then
    ({ t with m_ := t.m_.eraseP (fun e => decide (e.1 = k)) },
     if was_full then [TableEvent.non_full_event] else [])
  else (t, [])

end Table

/-- One call made by a client of a table. -/
inductive TableOp (K V : Type) where
  | install (k : K) (v : V)
  | remove (k : K)
  deriving DecidableEq, Repr

namespace Table

variable {K V : Type}

/-- Perform one client call. -/
def step [DecidableEq K] (t : Table K V) : TableOp K V → Table K V
  | TableOp.install k v => t.install k v
  | TableOp.remove k => (t.remove k).1

/-- Perform a finite sequence of client calls, left to right. -/
def run [DecidableEq K] (t : Table K V) (ops : List (TableOp K V)) : Table K V :=
  ops.foldl step t

/-- A call sequence in which every `install` of a key the table does not hold is
made while `full()` is false. -/
def Checked [DecidableEq K] (t : Table K V) : List (TableOp K V) → Prop
  | [] => True
  | TableOp.install k v :: ops =>
    (t.contains k = true ∨ t.full = false) ∧ Checked (t.install k v) ops
  | TableOp.remove k :: ops => Checked (t.remove k).1 ops

end Table

/-! ## Resources of the cache controller (src/src/moesi_cc.cc, `set_resources`) -/

namespace moesi_cc

/-- Modelled from the spec: the resource summary of a command list
(`CCResources`, declared in the absent header `ccntrl.h`), as far as the actions
of the protocol write it: the NOC credits, the entries of the two queues to the
L2, and per destination agent the CohSrt, CohCmd and Dt credits. -/
structure CCResources where
  noc_credit_n : Nat := 0
  cmd_q_n : Nat := 0
  rsp_q_n : Nat := 0
  coh_srt_n : Option Agent → Nat := fun _ => 0
  coh_cmd_n : Option Agent → Nat := fun _ => 0
  dt_n : Option Agent → Nat := fun _ => 0

namespace CCResources

/-- Setter for the NOC credits. -/
def set_noc_credit_n (r : CCResources) (k : Nat) : CCResources := { r with noc_credit_n := k }
/-- Setter for the entries of the command queue to the L2. -/
def set_cmd_q_n (r : CCResources) (k : Nat) : CCResources := { r with cmd_q_n := k }
/-- Setter for the entries of the response queue to the L2. -/
def set_rsp_q_n (r : CCResources) (k : Nat) : CCResources := { r with rsp_q_n := k }
/-- Setter for the CohSrt credits towards an agent. -/
def set_coh_srt_n (r : CCResources) (dest : Option Agent) (k : Nat) : CCResources :=
  { r with coh_srt_n := Function.update r.coh_srt_n dest k }
/-- Setter for the CohCmd credits towards an agent. -/
def set_coh_cmd_n (r : CCResources) (dest : Option Agent) (k : Nat) : CCResources :=
  { r with coh_cmd_n := Function.update r.coh_cmd_n dest k }
/-- Setter for the Dt credits towards an agent. -/
def set_dt_n (r : CCResources) (dest : Option Agent) (k : Nat) : CCResources :=
  { r with dt_n := Function.update r.dt_n dest k }

end CCResources

/-- The member `set_resources(r)` of each action class. The actions that do not
override it (message application, line update, credit return) require
nothing. -/
def CCCoherenceAction.set_resources (r : CCResources) : CCCoherenceAction → CCResources
  | CCCoherenceAction.ApplyMsgAction _ => r
  | CCCoherenceAction.LineUpdateAction _ => r
  | CCCoherenceAction.AddCreditAction _ => r
  | CCCoherenceAction.EmitMessageActionProxy eq _ =>
    match eq with
    | CCEgressQueue.L2CmdQ => r.set_cmd_q_n (r.cmd_q_n + 1)
    | CCEgressQueue.L2RspQ => r.set_rsp_q_n (r.rsp_q_n + 1)
    | CCEgressQueue.Invalid => r
  | CCCoherenceAction.EmitMessageToNocAction msg _ =>
    let r1 := r.set_noc_credit_n (r.noc_credit_n + 1)
    let dest := msg.dest
    match msg.payload.cls with
    | MessageClass.CohSrt => r1.set_coh_srt_n dest (r1.coh_srt_n dest + 1)
    | MessageClass.CohCmd => r1.set_coh_cmd_n dest (r1.coh_cmd_n dest + 1)
    | MessageClass.Dt => r1.set_dt_n dest (r1.dt_n dest + 1)
    | _ => r1

end moesi_cc

/-! ## The dispatcher of the cache controller (src/libcc/ccntrl.cc) -/

namespace CCModel

/-- The declared size of the transaction table built by `CCModel::build`. -/
def tt_n : Nat := 16

namespace RdisProcess

/-- The member `can_execute(cl)`. -/
def can_execute (_cl : moesi_cc.CCCommandList) : Bool := true

/-- The member `eval()`. The tournament of the arbiter is given by its outcome
`head`: the head message of the nominated queue, or `none` when no queue is
nominated, in which case the process only waits for a message. `tt_line` is the
lookup of the line of a transaction in the transaction table; a failed lookup
is a fatal diagnostic and nothing is built. The commands are built by the
protocol on an empty list and executed when `can_execute` allows it. Returns
the state after the call and the log. -/
def eval (tb : MsgTables) (cc : moesi_cc.CCAgent) (epoch : Nat) (head : Option Message)
    (tt_line : Option Transaction → Option moesi_cc.Line) (st : moesi_cc.CCState) :
    moesi_cc.CCState × List LogMessage :=
  match head with
  | none => (st, [])
  | some msg =>
    let built : Option (moesi_cc.CCContext × moesi_cc.CCCommandList × List LogMessage) :=
      match msg.cls with
      | MessageClass.AceCmd =>
        some (moesi_cc.MOESICCProtocol.apply tb
          { msg := msg, line := {}, cc := cc, epoch := epoch, cursor := 0 } [])
      | MessageClass.CohEnd =>
        match tt_line msg.t with
        | some line =>
          some (moesi_cc.MOESICCProtocol.apply tb
            { msg := msg, line := line, cc := cc, epoch := epoch, cursor := 0 } [])
        | none => none
      | _ =>
        some ({ msg := msg, line := st.line, cc := cc, epoch := epoch, cursor := 0 }, [],
          [{ msg := "Invalid message class received: " ++ moesi_cc.to_string msg.cls,
             level := some Level.Error }])
    match built with
    | none => (st, [{ msg := "Transaction not found in table.", level := some Level.Fatal }])
    | some r =>
      if can_execute r.2.1 then
        (moesi_cc.CCCommandInterpreter.execute_list r.1 { st with line := r.1.line } r.2.1,
         r.2.2)
      else (st, r.2.2)

end RdisProcess

end CCModel

/-! ## Arbitration rounds -/

namespace Arbiter

/-- One arbitration round as the agents run it: `tournament()`, then `advance()`
on the tournament. Returns the nominated slot and the arbiter afterwards. -/
def round (a : Arbiter) : Option Nat × Arbiter :=
  (a.tournament.1.winner, a.tournament.1.advance a.tournament.2.1)

/-- The arbiter after `k` rounds. -/
def rounds (a : Arbiter) : Nat → Arbiter
  | 0 => a
  | k + 1 => (rounds a k).round.2

/-- The arbiter built by `add_requester` calls, in the order of the list, on a
freshly built arbiter. -/
def build (rs : List Requester) : Arbiter := rs.foldl add_requester Arbiter.new

end Arbiter

/-! ## Handling of one message by the cache controller -/

namespace moesi_cc

/-- The line of a transaction after the controller has handled the message `m`
for it: the protocol builds the command list for the context holding the message
and the line, and the interpreter executes it. -/
def handle (tb : MsgTables) (cc : CCAgent) (epoch : Nat) (l : Line) (m : Message) : Line :=
  (CCCommandInterpreter.execute_list
      (MOESICCProtocol.apply tb
        { msg := m, line := l, cc := cc, epoch := epoch, cursor := 0 } []).1
      (CCState.init l)
      (MOESICCProtocol.apply tb
        { msg := m, line := l, cc := cc, epoch := epoch, cursor := 0 } []).2.1).line

end moesi_cc

/-! ## The memory controller (src/src/mem.cc) -/

/-- Modelled from the spec: the opcodes of a memory command (`MemCmdOpcode`,
declared in the absent header `mem.h`), under the names `to_string` gives
them. -/
inductive MemCmdOpcode where
  | Read
  | Write
  | Invalid
  deriving DecidableEq, Repr

/-- Modelled from the spec: the opcodes of a memory response (`MemRspOpcode`,
declared in the absent header `mem.h`), under the names `to_string` gives
them. -/
inductive MemRspOpcode where
  | ReadOkay
  | WriteOkay
  | Invalid
  deriving DecidableEq, Repr

/-- The function `to_string(MemCmdOpcode)`. -/
def MemCmdOpcode.to_string : MemCmdOpcode → String
  | MemCmdOpcode.Read => "Read"
  | MemCmdOpcode.Write => "Write"
  | MemCmdOpcode.Invalid => "Invalid"

/-- The function `to_string(MemRspOpcode)`. -/
def MemRspOpcode.to_string : MemRspOpcode → String
  | MemRspOpcode.ReadOkay => "ReadOkay"
  | MemRspOpcode.WriteOkay => "WriteOkay"
  | MemRspOpcode.Invalid => "Invalid"

/-- A memory command `MemCmdMsg`: the transaction and origin of the `Message`
base class and the opcode. -/
structure MemCmdMsg where
  t : Option Transaction
  origin : Option Agent
  opcode : MemCmdOpcode
  deriving DecidableEq, Repr

/-- A memory response `MemRspMsg`: the transaction and origin of the `Message`
base class and the opcode. Modelled from the spec: the member initialiser of the
opcode (declared in the absent header `mem.h`) is the placeholder opcode. -/
structure MemRspMsg where
  t : Option Transaction := none
  origin : Option Agent := none
  opcode : MemRspOpcode := MemRspOpcode.Invalid
  deriving DecidableEq, Repr

/-- The NOC envelope around a memory response: payload, origin and
destination. -/
structure MemNocMsg where
  payload : MemRspMsg
  origin : Option Agent
  dest : Option Agent
  deriving DecidableEq, Repr

/-- Modelled from the spec: `CreditCounter`, whose source is absent from the
tree: a non-negative integer with `debit`, `credit` and `empty`. -/
structure CreditCounter where
  i_ : Nat
  deriving DecidableEq, Repr

namespace CreditCounter

/-- No credit is left. -/
def empty (c : CreditCounter) : Bool := decide (c.i_ = 0)
/-- Take one credit. -/
def debit (c : CreditCounter) : CreditCounter := { i_ := c.i_ - 1 }
/-- Return one credit. -/
def credit (c : CreditCounter) : CreditCounter := { i_ := c.i_ + 1 }

end CreditCounter

/-- Modelled from the spec: what the memory controller and its arbiter use of a
`MessageQueue`, whose source is absent from the tree: the held commands, oldest
first, and the blocked flag. -/
structure MemMessageQueue where
  msgs : List MemCmdMsg
  blocked : Bool
  deriving DecidableEq, Repr, Inhabited

namespace MemMessageQueue

/-- The queue has a message at its head. -/
def has_req (q : MemMessageQueue) : Bool := !q.msgs.isEmpty

/-- Remove and return the head message; `none` on an empty queue. -/
def dequeue (q : MemMessageQueue) : Option MemCmdMsg × MemMessageQueue :=
  match q.msgs with
  | [] => (none, q)
  | m :: rest => (some m, { q with msgs := rest })

/-- What the arbiter reads of the queue. -/
def requester (q : MemMessageQueue) : Requester :=
  { has_req := q.has_req, blocked := q.blocked }

end MemMessageQueue

/-- The event or delay a process waits for after `eval()`. -/
inductive MemWait where
  | request_arrival_event
  | credit_event
  | epoch
  deriving DecidableEq, Repr

/-- State of a `MemCntrlAgent` as its request dispatcher sees it: the agent
itself, the request queues in the order they were added to the arbiter
`rdis_arb_`, the index of that arbiter, and of the NOC port `mem_noc__port_` the
ingress credit counter and the messages issued to its ingress queue. -/
structure MemCntrlAgent where
  id : Agent
  rdis_mq : List MemMessageQueue
  rdis_arb_idx : Nat
  ingress_cc : CreditCounter
  ingress : List MemNocMsg
  deriving DecidableEq, Repr

namespace MemCntrlAgent

/-- The arbiter `rdis_arb()` over the request queues. -/
def rdis_arb (m : MemCntrlAgent) : Arbiter :=
  { idx_ := m.rdis_arb_idx, ts_ := m.rdis_mq.map MemMessageQueue.requester }

namespace RequestDispatcherProcess

/-- The member `issue_emit_to_noc(dest, msg)`: envelope the message, take one
credit of the port and issue the envelope to the ingress queue of the port. -/
def issue_emit_to_noc (m : MemCntrlAgent) (dest : Option Agent) (msg : MemRspMsg) :
    MemCntrlAgent :=
  let nocmsg : MemNocMsg := { payload := msg, origin := some m.id, dest := dest }
  { m with ingress_cc := m.ingress_cc.debit, ingress := m.ingress ++ [nocmsg] }

/-- The member `eval()`. `render` is `MemCmdMsg::to_string`, whose renderer is
absent from the tree. Returns the agent after the call, the log and what the
process waits for. A tournament with a requester has a winner, and the
nominated queue has a request, so its `dequeue` yields a message; in the two
branches that stand for the contrary the model leaves the agent as it is. -/
def eval (render : MemCmdMsg → String) (m : MemCntrlAgent) :
    MemCntrlAgent × List LogMessage × MemWait :=
  let r := m.rdis_arb.tournament
  let t := r.1
  if !t.has_requester then (m, r.2.2, MemWait.request_arrival_event)
  else if m.ingress_cc.empty then (m, r.2.2, MemWait.credit_event)
  else
    match t.winner with
    | none => (m, r.2.2, MemWait.request_arrival_event)
    | some w =>
      match (m.rdis_mq.getD w default).dequeue with
      | (none, _) => (m, r.2.2, MemWait.request_arrival_event)
      | (some cmdmsg, q) =>
        let m1 := { m with rdis_mq := m.rdis_mq.set w q }
        let lm : LogMessage :=
          { msg := "Execute message: " ++ render cmdmsg, level := some Level.Debug }
        let rsp0 : MemRspMsg := { t := cmdmsg.t }
        let rl : MemRspMsg × List LogMessage :=
          match cmdmsg.opcode with
          | MemCmdOpcode.Read => ({ rsp0 with opcode := MemRspOpcode.ReadOkay }, [])
          | MemCmdOpcode.Write => ({ rsp0 with opcode := MemRspOpcode.WriteOkay }, [])
          | MemCmdOpcode.Invalid =>
            (rsp0,
             [{ msg := "Invalid message opcode received: " ++ cmdmsg.opcode.to_string,
                level := some Level.Fatal }])
        let m2 := issue_emit_to_noc m1 cmdmsg.origin rl.1
        let m3 := { m2 with rdis_arb_idx := (t.advance m2.rdis_arb).idx_ }
        let r2 := m3.rdis_arb.tournament
        (m3, r.2.2 ++ [lm] ++ rl.2 ++ r2.2.2,
         if r2.1.has_requester then MemWait.epoch else MemWait.request_arrival_event)

end RequestDispatcherProcess

end MemCntrlAgent

/-! ## The protocol registry (src/src/protocol.h, src/src/protocol.cc) -/

/-- The class `ProtocolBuilderRegistry`: its static map `m_` from protocol name
to factory, as the partial function it represents. `F` is the type of the
factories. -/
structure ProtocolBuilderRegistry (F : Type) where
  m_ : String → Option F

namespace ProtocolBuilderRegistry

variable {F B : Type}

/-- The map before any registration. -/
def empty : ProtocolBuilderRegistry F := { m_ := fun _ => none }

/-- The member `register_protocol(name, f)`: `m_[name] = f`. -/
def register_protocol (r : ProtocolBuilderRegistry F) (name : String) (f : F) :
    ProtocolBuilderRegistry F :=
  { m_ := fun k => if k = name then some f else r.m_ k }

/-- The member `build(name)`: the builder constructed by the factory found under
`name`, or `nullptr`. `construct` is the virtual `construct()` of the
factories. -/
def build (construct : F → B) (r : ProtocolBuilderRegistry F) (name : String) : Option B :=
  match r.m_ name with
  | some factory => some (construct factory)
  | none => none

/-- The registry after the calls `register_protocol(name, f)` for the pairs of
the list, in order. -/
def registered (regs : List (String × F)) : ProtocolBuilderRegistry F :=
  regs.foldl (fun r e => r.register_protocol e.1 e.2) empty

end ProtocolBuilderRegistry

/-- The protocol builders defined in the tree (src/src/moesi.cc). -/
inductive ProtocolBuilder where
  | MOESIProtocolBuilder
  deriving DecidableEq, Repr

/-- The factories declared through `CC_DECLARE_PROTOCOL_BUILDER`. -/
inductive ProtocolBuilderFactory where
  | MOESIProtocolBuilderFactory
  deriving DecidableEq, Repr

/-- The member `construct()` of a factory: a new builder of its class. -/
def ProtocolBuilderFactory.construct : ProtocolBuilderFactory → ProtocolBuilder
  | ProtocolBuilderFactory.MOESIProtocolBuilderFactory => ProtocolBuilder.MOESIProtocolBuilder

/-- The registry after static initialisation: the one declaration
`CC_DECLARE_PROTOCOL_BUILDER("moesi", MOESIProtocolBuilder)`. -/
def static_registry : ProtocolBuilderRegistry ProtocolBuilderFactory :=
  ProtocolBuilderRegistry.empty.register_protocol "moesi"
    ProtocolBuilderFactory.MOESIProtocolBuilderFactory

/-- Modelled from the spec: `construct_protocol_builder(name)`, whose definition
is absent from the tree: the request to the registry for the builder of that
name. -/
def construct_protocol_builder (name : String) : Option ProtocolBuilder :=
  static_registry.build ProtocolBuilderFactory.construct name

/-! ## The configuration builder (src/driver/builder.cc) -/

/-- A JSON value as the builder reads it (the JSON library is not part of the
tree). -/
inductive Json where
  | null
  | bool (b : Bool)
  | num (n : Int)
  | str (s : String)
  | arr (items : List Json)
  | obj (members : List (String × Json))

namespace Json

/-- The member `contains(key)`: whether an object has a member of that name. -/
def contains : Json → String → Bool
  | obj members, key => members.any (fun e => decide (e.1 = key))
  | _, _ => false

/-- The subscript `j[key]` on an object that has the member. -/
def get : Json → String → Json
  | obj members, key =>
    match members.find? (fun e => decide (e.1 = key)) with
    | some e => e.2
    | none => null
  | _, _ => null

/-- The elements a range-based `for` visits. -/
def items : Json → List Json
  | arr l => l
  | obj members => members.map (fun e => e.2)
  | _ => []

/-- Conversion to `std::string`; `none` when the library throws. -/
def as_string : Json → Option String
  | str s => some s
  | _ => none

/-- Conversion to `bool`; `none` when the library throws. -/
def as_bool : Json → Option Bool
  | bool b => some b
  | _ => none

end Json

/-- What leaves the builder by `throw`: a `BuilderException` with its text, or
an exception of the JSON library. -/
inductive BuildError where
  | BuilderException (what : String)
  | JsonException
  deriving DecidableEq, Repr

/-- The record `SocConfig` (declared in the absent header `cc/cfgs.h`) as far as
`build(SocConfig&, json)` writes it. The records of the clusters, directories,
memories, stimulus and NOC are parameters. -/
structure SocConfig (CCL DCFG MCFG SCFG NOC : Type) where
  name : String
  enable_verif : Bool
  enable_stats : Bool
  ccls : List CCL
  dcfgs : List DCFG
  mcfgs : List MCFG
  scfg : SCFG
  noccfg : NOC

/-- The overloads of `build` for the parts of a `SocConfig`. For the list
members the overload fills a fresh record from an item, or throws; for the
stimulus and the NOC it writes the record in place, and may throw. -/
structure SocConfigBuilders (CCL DCFG MCFG SCFG NOC : Type) where
  build_ccl : Json → Except BuildError CCL
  build_dcfg : Json → Except BuildError DCFG
  build_mcfg : Json → Except BuildError MCFG
  build_scfg : SCFG → Json → SCFG × Option BuildError
  build_noccfg : NOC → Json → NOC × Option BuildError

namespace SocConfigBuilderJson

variable {CCL DCFG MCFG SCFG NOC X : Type}

/-- The text of the exception thrown by `CHECK` and `CHECK_AND_SET`. -/
def required (name : String) : BuildError :=
  BuildError.BuilderException ("Required argument not found: " ++ name)

/-- The loop `for (item : j[key]) { X x; build(x, item); xs.push_back(x); }`:
the list after the loop, and the exception that ended it, if any. -/
def build_items (f : Json → Except BuildError X) : List Json → List X → List X × Option BuildError
  | [], acc => (acc, none)
  | item :: rest, acc =>
    match f item with
    | Except.error e => (acc, some e)
    | Except.ok x => build_items f rest (acc ++ [x])

/-- The member `build(SocConfig& c, json j)`. Returns the record as the call
leaves it, the member `pb_`, and the exception thrown, if any. -/
def build (sub : SocConfigBuilders CCL DCFG MCFG SCFG NOC)
    (c : SocConfig CCL DCFG MCFG SCFG NOC) (j : Json) :
    SocConfig CCL DCFG MCFG SCFG NOC × Option ProtocolBuilder × Option BuildError :=
  if !j.contains "name" then (c, none, some (required "name")) else
  match (j.get "name").as_string with
  | none => (c, none, some BuildError.JsonException)
  | some name =>
  let c1 := { c with name := name }
  if !j.contains "protocol" then (c1, none, some (required "protocol")) else
  if !j.contains "enable_verif" then (c1, none, some (required "enable_verif")) else
  match (j.get "enable_verif").as_bool with
  | none => (c1, none, some BuildError.JsonException)
  | some enable_verif =>
  let c2 := { c1 with enable_verif := enable_verif }
  if !j.contains "enable_stats" then (c2, none, some (required "enable_stats")) else
  match (j.get "enable_stats").as_bool with
  | none => (c2, none, some BuildError.JsonException)
  | some enable_stats =>
  let c3 := { c2 with enable_stats := enable_stats }
  match (j.get "protocol").as_string with
  | none => (c3, none, some BuildError.JsonException)
  | some protocol =>
  match construct_protocol_builder protocol with
  | none => (c3, none, some (BuildError.BuilderException ("Invalid protocol: " ++ protocol)))
  | some pb =>
  if !j.contains "ccls" then (c3, some pb, some (required "ccls")) else
  let r4 := build_items sub.build_ccl (j.get "ccls").items c3.ccls
  let c4 := { c3 with ccls := r4.1 }
  match r4.2 with
  | some e => (c4, some pb, some e)
  | none =>
  if c4.ccls.isEmpty then
    (c4, some pb, some (BuildError.BuilderException "No CPU clusters configured.")) else
  if !j.contains "dcfgs" then (c4, some pb, some (required "dcfgs")) else
  let r5 := build_items sub.build_dcfg (j.get "dcfgs").items c4.dcfgs
  let c5 := { c4 with dcfgs := r5.1 }
  match r5.2 with
  | some e => (c5, some pb, some e)
  | none =>
  if c5.dcfgs.isEmpty then
    (c5, some pb, some (BuildError.BuilderException "No directories configured.")) else
  if !j.contains "mcfgs" then (c5, some pb, some (required "mcfgs")) else
  let r6 := build_items sub.build_mcfg (j.get "mcfgs").items c5.mcfgs
  let c6 := { c5 with mcfgs := r6.1 }
  match r6.2 with
  | some e => (c6, some pb, some e)
  | none =>
  if c6.mcfgs.isEmpty then
    (c6, some pb, some (BuildError.BuilderException "No Memories configured.")) else
  if !j.contains "scfg" then (c6, some pb, some (required "scfg")) else
  let r7 := sub.build_scfg c6.scfg (j.get "scfg")
  let c7 := { c6 with scfg := r7.1 }
  match r7.2 with
  | some e => (c7, some pb, some e)
  | none =>
  if !j.contains "noccfg" then (c7, some pb, some (required "noccfg")) else
  let r8 := sub.build_noccfg c7.noccfg (j.get "noccfg")
  ({ c7 with noccfg := r8.1 }, some pb, r8.2)

end SocConfigBuilderJson

/-! ## Programmatic stimulus -/

/-- Modelled from the spec: the opcodes of a stimulus command, Load and Store
(the stimulus sources are absent from the tree). -/
inductive CpuOpcode where
  | Load
  | Store
  deriving DecidableEq, Repr

/-- Modelled from the spec: the exception `StimulusException` raised by the
stimulus. -/
inductive StimulusException where
  | raised
  deriving DecidableEq, Repr

/-- Modelled from the spec: the programmatic stimulus attached to a configured
SoC (the class `ProgrammaticStimulus` named by the tests; its source is absent
from the tree). It knows the CPUs of the configuration, here the number of CPUs
of each configured cluster, in order; CPU ids count the CPUs through the
clusters from 0. It keeps the time cursor and the stream of commands pushed so
far, the tuples `(time, cpu_id, opcode, addr)` in order. -/
structure ProgrammaticStimulus where
  cluster_cpu_n : List Nat
  cursor : time_t
  stream : List (time_t × Nat × CpuOpcode × addr_t)
  deriving DecidableEq, Repr

namespace ProgrammaticStimulus

/-- Modelled from the spec: the number of configured CPUs. -/
def cpu_n (s : ProgrammaticStimulus) : Nat := s.cluster_cpu_n.sum

/-- Modelled from the spec: the stimulus as the SoC top builds it for a
configuration: cursor at 0 and an empty stream. -/
def new (cluster_cpu_n : List Nat) : ProgrammaticStimulus :=
  { cluster_cpu_n := cluster_cpu_n, cursor := 0, stream := [] }

/-- Modelled from the spec: `advance_cursor(dt)` moves the time cursor on by
`dt`. -/
def advance_cursor (s : ProgrammaticStimulus) (dt : time_t) : ProgrammaticStimulus :=
  { s with cursor := s.cursor + dt }

/-- Modelled from the spec: `push_stimulus(cpu_id, opcode, addr)` appends the
command for that CPU at the time of the cursor; it "must fail when `cpu_id` does
not name a configured CPU". Returns the stimulus after the call and the
exception raised, if any. -/
def push_stimulus (s : ProgrammaticStimulus) (cpu_id : Nat) (opcode : CpuOpcode)
    (addr : addr_t) : ProgrammaticStimulus × Option StimulusException :=
  if cpu_id < s.cpu_n then
    ({ s with stream := s.stream ++ [(s.cursor, cpu_id, opcode, addr)] }, none)
  else (s, some StimulusException.raised)

end ProgrammaticStimulus

/-! ## The L1 cache: interface (src/src/l1cache.h) and protocol -/

/-- The enumeration `L1Opcode` (src/src/l1cache.h): the opcodes of the L1
command interpreter. -/
inductive L1Opcode where
  | StartTransaction
  | EndTransaction
  | MqSetBlockedOnEvent
  | MqSetBlockedOnTransaction
  | MqSetBlockedOnTable
  | MsgDequeue
  | MsgConsume
  | MsgReissue
  | RaiseEvent
  | RemoveLine
  | InvokeCoherenceAction
  | WaitOnMsg
  | WaitNextEpoch
  | SetL2LineModified
  | ReserveReplaySlot
  | Invalid
  deriving DecidableEq, Repr

/-- The egress queues of an `L1CacheAgent` (src/src/l1cache.h): the command
queue towards the L2 and the response queue towards the CPU. -/
inductive L1MessageQueue where
  | l1_l2__cmd_q
  | l1_cpu__rsp_q
  deriving DecidableEq, Repr

namespace moesi_l1

/-- Modelled from the spec: the states of a MOESI L1 line, as the data model
lists them: I, IS, S, IE, E, EM, M, MI. The protocol class and its line state
are absent from the tree. -/
inductive State where
  | I
  | IS
  | S
  | IE
  | E
  | EM
  | M
  | MI
  deriving DecidableEq, Repr

/-- Modelled from the spec: the line state of the MOESI L1 protocol (the class
behind `L1LineState`, absent from the tree): the state of the line, invalid when
constructed. -/
structure L1LineState where
  state_ : State := State.I
  deriving DecidableEq, Repr

end moesi_l1

/-- Modelled from the spec: the coherence actions of an L1 command list. The
header declares the abstract class `L1CoherenceAction` only; the spec names the
two effects the protocol needs of it: modify the line, and issue a message to a
named egress queue. -/
inductive L1CoherenceAction where
  | UpdateState (state : moesi_l1.State)
  | EmitMessage (mq : L1MessageQueue) (msg : Message)
  deriving DecidableEq, Repr

/-- The class `L1Command` (src/src/l1cache.h): the opcode and, of its operands,
the coherence action and the transaction. -/
structure L1Command where
  opcode : L1Opcode
  action : Option L1CoherenceAction := none
  t : Option Transaction := none
  deriving DecidableEq, Repr

namespace L1CommandBuilder

/-- Modelled from the spec: `from_opcode(opcode)`, declared in the header
("build command object instance from opcode"), body absent. -/
def from_opcode (opcode : L1Opcode) : L1Command := { opcode := opcode }

/-- Modelled from the spec: `from_action(action)`, declared in the header
("build protocol defined command from action instance"), body absent. -/
def from_action (action : L1CoherenceAction) : L1Command :=
  { opcode := L1Opcode.InvokeCoherenceAction, action := some action }

/-- Modelled from the spec: `build_start_transaction(t)`, declared in the header
("build start transaction command"), body absent. -/
def build_start_transaction (t : Option Transaction) : L1Command :=
  { opcode := L1Opcode.StartTransaction, t := t }

/-- Modelled from the spec: `build_end_transaction(t)`, declared in the header
("build end transaction command"), body absent. -/
def build_end_transaction (t : Option Transaction) : L1Command :=
  { opcode := L1Opcode.EndTransaction, t := t }

end L1CommandBuilder

/-- The class `L1CommandList` (src/src/l1cache.h): the commands in the order
they were pushed. -/
abbrev L1CommandList := List L1Command

namespace L1CommandList

/-- The member `push_back(cmd)`, declared in the header: append the command. -/
def push_back (cl : L1CommandList) (c : L1Command) : L1CommandList := cl ++ [c]

/-- The member `push_back(opcode)`, declared in the header: append the command
built from the opcode. -/
def push_back_opcode (cl : L1CommandList) (opcode : L1Opcode) : L1CommandList :=
  cl.push_back (L1CommandBuilder.from_opcode opcode)

/-- The member `push_back(action)`, declared in the header: append the command
built from the action. -/
def push_back_action (cl : L1CommandList) (action : L1CoherenceAction) : L1CommandList :=
  cl.push_back (L1CommandBuilder.from_action action)

end L1CommandList

/-- The class `L1CacheContext` (src/src/l1cache.h), as far as the protocol reads
it: the message at the head of the nominated queue, the line, and the L1 cache
itself. -/
structure L1CacheContext where
  msg : Message
  line : moesi_l1.L1LineState
  l1cache : Agent

namespace moesi_l1

/-- Modelled from the spec: the member `apply(L1CacheContext&, L1CommandList&)`
of the MOESI L1 protocol, whose source is absent from the tree (the header
declares it in `L1CacheAgentProtocol`). The rows are those of the transition
table of the L1 cache agent:

* I, CpuLoad: next IS, emit L1L2Cmd(L1GetS); I, CpuStore: next IE, emit
  L1L2Cmd(L1GetE); the command carries the transaction and address of the CPU
  command and the issuing L1, and the transaction is started;
* IS, L2L1Rsp: next S when the response is shared, E otherwise; emit L1CpuRsp;
  the transaction is ended. An L2L1Rsp carries the shared flag only, so the row
  of the table for a dirty response has no counterpart;
* S, CpuLoad: stay in S, emit L1CpuRsp; S, CpuStore: emit L1L2Cmd(L1GetE) and
  start the transaction (the table names no next state);
* E, CpuLoad: stay in E; E, CpuStore: next M and the L2 is poked; M, CpuLoad or
  CpuStore: stay in M; each emits L1CpuRsp.

Every transition consumes the head message and waits for the next epoch. A
message for which the state of the line has no row is a protocol violation,
logged as fatal. Returns the command list after the call and the log. -/
def apply (c : L1CacheContext) (cl : L1CommandList) : L1CommandList × List LogMessage :=
  let violation : L1CommandList × List LogMessage :=
    (cl, [{ msg := "Protocol violation", level := some Level.Fatal }])
  let finish (cl : L1CommandList) : L1CommandList × List LogMessage :=
    ((cl.push_back_opcode L1Opcode.MsgConsume).push_back_opcode L1Opcode.WaitNextEpoch, [])
  let l2cmd (opcode : L2CmdOpcode) (addr : addr_t) : L1CoherenceAction :=
    L1CoherenceAction.EmitMessage L1MessageQueue.l1_l2__cmd_q
      { t := c.msg.t, origin := some c.l1cache,
        body := MessageBody.L2Cmd opcode addr (some c.l1cache) }
  let cpursp : L1CoherenceAction :=
    L1CoherenceAction.EmitMessage L1MessageQueue.l1_cpu__rsp_q
      { t := c.msg.t, origin := some c.l1cache, body := MessageBody.L1CmdRsp }
  match c.msg.body, c.line.state_ with
  | MessageBody.L1Cmd L1CmdOpcode.CpuLoad addr, State.I =>
    finish (((cl.push_back_action (l2cmd L2CmdOpcode.L1GetS addr)).push_back_action
      (L1CoherenceAction.UpdateState State.IS)).push_back
      (L1CommandBuilder.build_start_transaction c.msg.t))
  | MessageBody.L1Cmd L1CmdOpcode.CpuStore addr, State.I =>
    finish (((cl.push_back_action (l2cmd L2CmdOpcode.L1GetE addr)).push_back_action
      (L1CoherenceAction.UpdateState State.IE)).push_back
      (L1CommandBuilder.build_start_transaction c.msg.t))
  | MessageBody.L2CmdRsp is_, State.IS =>
    finish (((cl.push_back_action cpursp).push_back_action
      (L1CoherenceAction.UpdateState (if is_ then State.S else State.E))).push_back
      (L1CommandBuilder.build_end_transaction c.msg.t))
  | MessageBody.L1Cmd L1CmdOpcode.CpuLoad _, State.S =>
    finish (cl.push_back_action cpursp)
  | MessageBody.L1Cmd L1CmdOpcode.CpuStore addr, State.S =>
    finish ((cl.push_back_action (l2cmd L2CmdOpcode.L1GetE addr)).push_back
      (L1CommandBuilder.build_start_transaction c.msg.t))
  | MessageBody.L1Cmd L1CmdOpcode.CpuLoad _, State.E =>
    finish (cl.push_back_action cpursp)
  | MessageBody.L1Cmd L1CmdOpcode.CpuStore _, State.E =>
    finish (((cl.push_back_action (L1CoherenceAction.UpdateState State.M)).push_back_opcode
      L1Opcode.SetL2LineModified).push_back_action cpursp)
  | MessageBody.L1Cmd L1CmdOpcode.CpuLoad _, State.M =>
    finish (cl.push_back_action cpursp)
  | MessageBody.L1Cmd L1CmdOpcode.CpuStore _, State.M =>
    finish (cl.push_back_action cpursp)
  | _, _ => violation

end moesi_l1

/-- The state an L1 command list is executed on: the line, the messages issued
to each egress queue in order, the transactions entered in the transaction
table, the number of head messages consumed, and the other opcodes performed,
in order. -/
structure L1State where
  line : moesi_l1.L1LineState
  issued : List (L1MessageQueue × Message)
  tt : List (Option Transaction)
  consumed : Nat
  ops : List L1Opcode
  deriving DecidableEq, Repr

/-- The state holding line `l` on which nothing has been executed yet. -/
def L1State.init (l : moesi_l1.L1LineState) : L1State :=
  { line := l, issued := [], tt := [], consumed := 0, ops := [] }

namespace L1CommandInterpreter

/-- Modelled from the spec: the interpreter of the L1 command list, whose source
is absent from the tree. A coherence action is executed: a state update
modifies the line, an emission issues the message to its queue. The start of a
transaction installs its entry in the transaction table and the end removes it;
consuming dequeues the head message. Every other opcode is recorded by name. -/
def execute (st : L1State) (c : L1Command) : L1State :=
  match c.opcode with
  | L1Opcode.InvokeCoherenceAction =>
    match c.action with
    | some (L1CoherenceAction.UpdateState s) => { st with line := { st.line with state_ := s } }
    | some (L1CoherenceAction.EmitMessage mq msg) =>
      { st with issued := st.issued ++ [(mq, msg)] }
    | none => st
  | L1Opcode.StartTransaction => { st with tt := st.tt ++ [c.t] }
  | L1Opcode.EndTransaction => { st with tt := st.tt.erase c.t }
  | L1Opcode.MsgConsume => { st with consumed := st.consumed + 1 }
  | op => { st with ops := st.ops ++ [op] }

/-- Execute a command list front to back. -/
def execute_list (st : L1State) (cl : L1CommandList) : L1State :=
  cl.foldl execute st

end L1CommandInterpreter

/-! # Theorems -/

/-! ## Queue -/

namespace Queue

variable {T : Type}

theorem n_new [Inhabited T] (n : Nat) : (Queue.new n : Queue T).n = n := by
  simp [Queue.new, Queue.reset_state, Queue.n]

theorem inv_new [Inhabited T] (n : Nat) (hn : 0 < n) : (Queue.new n : Queue T).Inv := by
  simp [Queue.Inv, Queue.new, Queue.reset_state, Queue.n]
  omega

theorem contents_new [Inhabited T] (n : Nat) : (Queue.new n : Queue T).contents = [] := by
  simp [Queue.contents, Queue.new, Queue.reset_state]

theorem wrap_succ (a n : Nat) (h : a < n) : (if a + 1 = n then 0 else a + 1) = (a + 1) % n := by
  split
  · rename_i h1
    rw [h1, Nat.mod_self]
  · rw [Nat.mod_eq_of_lt (by omega)]

theorem mod_add_inj (n rd i j : Nat) (hi : i < n) (hj : j < n)
    (h : (rd + i) % n = (rd + j) % n) : i = j := by
  have h1 : rd + i ≡ rd + j [MOD n] := h
  have h2 : i ≡ j [MOD n] := Nat.ModEq.add_left_cancel' rd h1
  exact Nat.ModEq.eq_of_lt_of_lt h2 hi hj

/-- On a full queue `enqueue` returns false, raises nothing and leaves the
queue as it is. -/
theorem enqueue_of_full (q : Queue T) (t : T) (h : q.full = true) :
    q.enqueue t = (false, q, []) := by
  simp [Queue.enqueue, h]

/-- On a consistent queue holding fewer than `n()` elements `enqueue` succeeds
and appends at the back. -/
theorem enqueue_of_lt [Inhabited T] (q : Queue T) (t : T) (hq : q.Inv) (h : q.size_ < q.n) :
    (q.enqueue t).1 = true ∧ (q.enqueue t).2.1.Inv ∧
      (q.enqueue t).2.1.contents = q.contents ++ [t] ∧ (q.enqueue t).2.1.n = q.n := by
  obtain ⟨hn, hrd, hsz, hwr, hfull, hempty⟩ := hq
  simp only [Queue.n] at hn hrd hsz hwr hfull h
  have hf : q.full = false := by
    simp only [Queue.full, hfull]
    simp
    omega
  have hwrlt : q.wr_ptr_ < q.ts_.length := by rw [hwr]; exact Nat.mod_lt _ hn
  simp only [Queue.enqueue, hf, Bool.false_eq_true, if_false]
  refine ⟨trivial, ?_, ?_, ?_⟩
  · simp only [Queue.Inv, Queue.n, List.length_set]
    refine ⟨hn, hrd, by omega, ?_, trivial, ?_⟩
    · rw [wrap_succ _ _ hwrlt, hwr, Nat.mod_add_mod, Nat.add_assoc]
    · simp
  · simp only [Queue.contents, Queue.n, List.length_set]
    rw [List.range_succ, List.map_append, List.map_singleton]
    congr 1
    · apply List.map_congr_left
      intro i hi
      rw [List.mem_range] at hi
      have hne : q.wr_ptr_ ≠ (q.rd_ptr_ + i) % q.ts_.length := by
        rw [hwr]
        intro heq
        have := mod_add_inj q.ts_.length q.rd_ptr_ q.size_ i h (by omega) heq
        omega
      simp [List.getD_eq_getElem?_getD, List.getElem?_set_ne hne]
    · have : (q.rd_ptr_ + q.size_) % q.ts_.length = q.wr_ptr_ := hwr.symm
      rw [this]
      simp [List.getD_eq_getElem?_getD, hwrlt]
  · simp [Queue.n]

/-- On a consistent queue holding `n()` elements `enqueue` is refused. -/
theorem enqueue_of_eq (q : Queue T) (t : T) (hq : q.Inv) (h : q.size_ = q.n) :
    q.enqueue t = (false, q, []) := by
  apply enqueue_of_full
  obtain ⟨_, _, _, _, hfull, _⟩ := hq
  simp [Queue.full, hfull, h]

/-- On a consistent queue holding no element `dequeue` is refused. -/
theorem dequeue_of_zero [Inhabited T] (q : Queue T) (hq : q.Inv) (h : q.size_ = 0) :
    q.dequeue = (none, q, []) := by
  obtain ⟨_, _, _, _, _, hempty⟩ := hq
  simp [Queue.dequeue, Queue.empty, hempty, h]

/-- On a consistent queue holding at least one element `dequeue` hands out the
oldest element and removes it at the front. -/
theorem dequeue_of_pos [Inhabited T] (q : Queue T) (hq : q.Inv) (h : 0 < q.size_) :
    ∃ x xs, q.contents = x :: xs ∧ q.dequeue.1 = some x ∧ q.dequeue.2.1.Inv ∧
      q.dequeue.2.1.contents = xs ∧ q.dequeue.2.1.n = q.n := by
  obtain ⟨hn, hrd, hsz, hwr, hfull, hempty⟩ := hq
  simp only [Queue.n] at hn hrd hsz hwr hfull
  have he : q.empty = false := by
    simp only [Queue.empty, hempty]
    simp
    omega
  obtain ⟨k, hk⟩ : ∃ k, q.size_ = k + 1 := ⟨q.size_ - 1, by omega⟩
  refine ⟨q.ts_.getD q.rd_ptr_ default,
    (List.range k).map (fun i => q.ts_.getD ((q.rd_ptr_ + (i + 1)) % q.ts_.length) default),
    ?_, ?_, ?_, ?_, ?_⟩
  · simp only [Queue.contents, Queue.n, hk]
    rw [List.range_succ_eq_map, List.map_cons, List.map_map]
    simp only [Nat.add_zero, Nat.mod_eq_of_lt hrd]
    rfl
  · simp [Queue.dequeue, he]
  · simp only [Queue.dequeue, he, Bool.false_eq_true, if_false, Queue.Inv, Queue.n]
    refine ⟨hn, ?_, by omega, ?_, ?_, trivial⟩
    · rw [wrap_succ _ _ hrd]
      exact Nat.mod_lt _ hn
    · rw [wrap_succ _ _ hrd, hwr, Nat.mod_add_mod, hk]
      congr 1
      omega
    · simp
      omega
  · simp only [Queue.dequeue, he, Bool.false_eq_true, if_false, Queue.contents, Queue.n, hk]
    simp only [Nat.add_sub_cancel]
    apply List.map_congr_left
    intro i _
    rw [wrap_succ _ _ hrd, Nat.mod_add_mod]
    congr 2
    omega
  · simp [Queue.dequeue, he, Queue.n]

theorem length_contents [Inhabited T] (q : Queue T) : q.contents.length = q.size := by
  simp [Queue.contents, Queue.size]

end Queue

namespace QueueRun

variable {T : Type}

theorem good_fresh [Inhabited T] (n : Nat) (hn : 0 < n) : Good n (fresh n : QueueRun T) := by
  refine ⟨Queue.inv_new n hn, Queue.n_new n, ?_⟩
  simp [fresh, Queue.contents_new]

theorem good_step [Inhabited T] (n : Nat) (r : QueueRun T) (op : QueueOp T) (h : Good n r) :
    Good n (r.step op) := by
  obtain ⟨hinv, hcap, hacc⟩ := h
  cases op with
  | enqueue t =>
    by_cases hlt : r.q.size_ < r.q.n
    · obtain ⟨h1, h2, h3, h4⟩ := Queue.enqueue_of_lt r.q t hinv hlt
      refine ⟨h2, by simpa [step, h4] using hcap, ?_⟩
      simp only [step, h1, if_true, h3, hacc, List.append_assoc]
    · have heq : r.q.size_ = r.q.n := by
        have := hinv.2.2.1
        omega
      have h1 := Queue.enqueue_of_eq r.q t hinv heq
      refine ⟨by simpa [step, h1] using hinv, by simpa [step, h1] using hcap, ?_⟩
      simp [step, h1, hacc]
  | dequeue =>
    by_cases hpos : 0 < r.q.size_
    · obtain ⟨x, xs, h1, h2, h3, h4, h5⟩ := Queue.dequeue_of_pos r.q hinv hpos
      refine ⟨h3, by simpa [step, h5] using hcap, ?_⟩
      simp only [step, h2, h4, hacc, h1, List.append_assoc, List.singleton_append]
    · have h0 : r.q.size_ = 0 := by omega
      have h1 := Queue.dequeue_of_zero r.q hinv h0
      refine ⟨by simpa [step, h1] using hinv, by simpa [step, h1] using hcap, ?_⟩
      simp [step, h1, hacc]

theorem good_run [Inhabited T] (n : Nat) (ops : List (QueueOp T)) (r : QueueRun T)
    (h : Good n r) : Good n (r.run ops) := by
  induction ops generalizing r with
  | nil => exact h
  | cons op ops ih => exact ih (r.step op) (good_step n r op h)

/-- For a capacity of at least one the occupancy never exceeds the capacity. -/
theorem size_le_of_pos [Inhabited T] (n : Nat) (hn : 1 ≤ n) (ops : List (QueueOp T)) :
    ((fresh n : QueueRun T).run ops).q.size ≤ n := by
  obtain ⟨hinv, hcap, _⟩ := good_run n ops _ (good_fresh n hn)
  have := hinv.2.2.1
  rw [hcap] at this
  exact this

end QueueRun

/-- C1. Strict FIFO: for every capacity `n >= 1` and every finite sequence of
`enqueue` and `dequeue` calls on a freshly constructed queue, the values accepted
by the successful `enqueue` calls are, in order, the values returned by the
successful `dequeue` calls followed by the values still held (oldest first), so
the returned values are a prefix of the accepted ones; the held values are
`size()` many. -/
theorem queue_fifo {T : Type} [Inhabited T] (n : Nat) (hn : 1 ≤ n) (ops : List (QueueOp T)) :
    ((QueueRun.fresh n).run ops).accepted =
        ((QueueRun.fresh n).run ops).returned ++ ((QueueRun.fresh n).run ops).q.contents ∧
      ((QueueRun.fresh n).run ops).q.contents.length = ((QueueRun.fresh n).run ops).q.size := by
  obtain ⟨_, _, hacc⟩ := QueueRun.good_run n ops _ (QueueRun.good_fresh n hn)
  exact ⟨hacc, Queue.length_contents _⟩

/-- C1, at capacity 2: after three offers (the third refused), a removal, a
fourth offer and three removals, the accepted values are the returned values
followed by the held ones. -/
theorem queue_fifo_witness :
    1 ≤ 2 ∧
      ((QueueRun.fresh 2).run
          [QueueOp.enqueue 10, QueueOp.enqueue 11, QueueOp.enqueue 12, QueueOp.dequeue,
           QueueOp.enqueue 13, QueueOp.dequeue, QueueOp.dequeue, QueueOp.dequeue]).accepted =
        ((QueueRun.fresh 2).run
          [QueueOp.enqueue 10, QueueOp.enqueue 11, QueueOp.enqueue 12, QueueOp.dequeue,
           QueueOp.enqueue 13, QueueOp.dequeue, QueueOp.dequeue, QueueOp.dequeue]).returned ++
        ((QueueRun.fresh 2).run
          [QueueOp.enqueue 10, QueueOp.enqueue 11, QueueOp.enqueue 12, QueueOp.dequeue,
           QueueOp.enqueue 13, QueueOp.dequeue, QueueOp.dequeue, QueueOp.dequeue]).q.contents ∧
      ((QueueRun.fresh 2).run
          [QueueOp.enqueue 10, QueueOp.enqueue 11, QueueOp.enqueue 12, QueueOp.dequeue,
           QueueOp.enqueue 13, QueueOp.dequeue, QueueOp.dequeue, QueueOp.dequeue]).returned =
        [10, 11, 13] :=
  ⟨by decide,
   (queue_fifo 2 (by decide)
      [QueueOp.enqueue 10, QueueOp.enqueue 11, QueueOp.enqueue 12, QueueOp.dequeue,
       QueueOp.enqueue 13, QueueOp.dequeue, QueueOp.dequeue, QueueOp.dequeue]).1,
   by decide⟩

/-- C2. A queue built with capacity 0 holds `size() == n()` elements, yet
`enqueue` on it is not refused: it returns true, notifies the non-empty and the
enqueue events, and changes the count, the write pointer and the empty flag. -/
theorem enqueue_zero_capacity_not_refused :
    (Queue.new 0 : Queue Nat).size = (Queue.new 0 : Queue Nat).n ∧
      (Queue.new 0 : Queue Nat).full = false ∧
      ((Queue.new 0 : Queue Nat).enqueue 7).1 = true ∧
      ((Queue.new 0 : Queue Nat).enqueue 7).2.2 =
        [QueueEvent.non_empty_event, QueueEvent.enqueue_event] ∧
      ((Queue.new 0 : Queue Nat).enqueue 7).2.1 =
        { full_ := false, empty_ := false, wr_ptr_ := 1, rd_ptr_ := 0, size_ := 1, ts_ := [] } := by
  decide

/-- C3. On a queue built with capacity 0 a single `enqueue` call leaves
`size() == 1` while `n() == 0`: the occupancy exceeds the capacity. -/
theorem size_exceeds_zero_capacity :
    ((QueueRun.fresh 0 : QueueRun Nat).run [QueueOp.enqueue 7]).q.size = 1 ∧
      ((QueueRun.fresh 0 : QueueRun Nat).run [QueueOp.enqueue 7]).q.n = 0 ∧
      ¬ ((QueueRun.fresh 0 : QueueRun Nat).run [QueueOp.enqueue 7]).q.size ≤
          ((QueueRun.fresh 0 : QueueRun Nat).run [QueueOp.enqueue 7]).q.n := by
  decide

/-! ## Arbiter -/

namespace Tournament

/-- The loop of `execute()` either stops at the first eligible requester among
the remaining slots, or finds none and counts the requesters that have a
request. -/
theorem execute_loop_cases (a : Arbiter) (k : Nat) :
    ∀ (i r : Nat) (t : Tournament),
      (∃ j, j < k ∧ a.eligible ((a.idx_ + (i + j)) % a.n) = true ∧
          (∀ j2, j2 < j → a.eligible ((a.idx_ + (i + j2)) % a.n) = false) ∧
          (execute_loop a k i r t).winner_ = some ((a.idx_ + (i + j)) % a.n) ∧
          (execute_loop a k i r t).idx_ = (a.idx_ + (i + j)) % a.n ∧
          (execute_loop a k i r t).deadlock_ = t.deadlock_) ∨
      ((∀ j, j < k → a.eligible ((a.idx_ + (i + j)) % a.n) = false) ∧
          (execute_loop a k i r t).winner_ = t.winner_ ∧
          ∃ c, c ≤ k ∧ (execute_loop a k i r t).deadlock_ = decide (r + c = a.n) ∧
            (c = k ↔ ∀ j, j < k → (a.at_ ((a.idx_ + (i + j)) % a.n)).has_req = true)) := by
  induction k with
  | zero =>
    intro i r t
    right
    refine ⟨fun j hj => absurd hj (Nat.not_lt_zero j), rfl, 0, Nat.le_refl 0, rfl, ?_⟩
    simp
  | succ k ih =>
    intro i r t
    have hshift : ∀ j, i + 1 + j = i + (j + 1) := fun j => by omega
    cases hreq : (a.at_ ((a.idx_ + i) % a.n)).has_req with
    | false =>
      have hnel : a.eligible ((a.idx_ + (i + 0)) % a.n) = false := by
        simp [Arbiter.eligible, hreq]
      have hstep : execute_loop a (k + 1) i r t =
          execute_loop a k (i + 1) r { t with idx_ := (a.idx_ + i) % a.n } := by
        simp [execute_loop, hreq]
      rw [hstep]
      rcases ih (i + 1) r { t with idx_ := (a.idx_ + i) % a.n } with
        ⟨j, hj, he, hleast, hw, hi, hd⟩ | ⟨hnone, hw, c, hc, hd, hck⟩
      · left
        rw [hshift j] at he hw hi
        refine ⟨j + 1, by omega, he, ?_, hw, hi, hd⟩
        intro j2 hj2
        cases j2 with
        | zero => exact hnel
        | succ j3 =>
          have := hleast j3 (by omega)
          rw [hshift j3] at this
          exact this
      · right
        refine ⟨?_, hw, c, by omega, hd, ?_⟩
        · intro j hj
          cases j with
          | zero => exact hnel
          | succ j3 =>
            have := hnone j3 (by omega)
            rw [hshift j3] at this
            exact this
        · constructor
          · intro hcc
            omega
          · intro hall
            have := hall 0 (by omega)
            simp [hreq] at this
    | true =>
      cases hblk : (a.at_ ((a.idx_ + i) % a.n)).blocked with
      | false =>
        have hstep : execute_loop a (k + 1) i r t =
            { t with idx_ := (a.idx_ + i) % a.n, winner_ := some ((a.idx_ + i) % a.n) } := by
          simp [execute_loop, hreq, hblk]
        rw [hstep]
        left
        refine ⟨0, by omega, by simp [Arbiter.eligible, hreq, hblk], ?_, rfl, rfl, rfl⟩
        intro j2 hj2
        omega
      | true =>
        have hnel : a.eligible ((a.idx_ + (i + 0)) % a.n) = false := by
          simp [Arbiter.eligible, hblk]
        have hstep : execute_loop a (k + 1) i r t =
            execute_loop a k (i + 1) (r + 1) { t with idx_ := (a.idx_ + i) % a.n } := by
          simp [execute_loop, hreq, hblk]
        rw [hstep]
        rcases ih (i + 1) (r + 1) { t with idx_ := (a.idx_ + i) % a.n } with
          ⟨j, hj, he, hleast, hw, hi, hd⟩ | ⟨hnone, hw, c, hc, hd, hck⟩
        · left
          rw [hshift j] at he hw hi
          refine ⟨j + 1, by omega, he, ?_, hw, hi, hd⟩
          intro j2 hj2
          cases j2 with
          | zero => exact hnel
          | succ j3 =>
            have := hleast j3 (by omega)
            rw [hshift j3] at this
            exact this
        · right
          refine ⟨?_, hw, c + 1, by omega, ?_, ?_⟩
          · intro j hj
            cases j with
            | zero => exact hnel
            | succ j3 =>
              have := hnone j3 (by omega)
              rw [hshift j3] at this
              exact this
          · rw [hd]
            congr 1
            apply propext
            constructor <;> intro h <;> omega
          · constructor
            · intro hcc
              have hck2 := hck.mp (by omega)
              intro j hj
              cases j with
              | zero => simpa using hreq
              | succ j3 =>
                have := hck2 j3 (by omega)
                rw [hshift j3] at this
                exact this
            · intro hall
              have : c = k := hck.mpr (fun j hj => by
                have := hall (j + 1) (by omega)
                rw [← hshift j] at this
                exact this)
              omega

/-- The outcome of `execute()`, seen from the arbiter. -/
theorem execute_cases (a : Arbiter) :
    (∃ j, j < a.n ∧ a.eligible ((a.idx_ + j) % a.n) = true ∧
        (∀ j2, j2 < j → a.eligible ((a.idx_ + j2) % a.n) = false) ∧
        (execute a).winner_ = some ((a.idx_ + j) % a.n) ∧
        (execute a).idx_ = (a.idx_ + j) % a.n ∧
        (execute a).deadlock_ = false) ∨
    ((∀ j, j < a.n → a.eligible ((a.idx_ + j) % a.n) = false) ∧
        (execute a).winner_ = none ∧
        ((execute a).deadlock_ = true ↔
          ∀ j, j < a.n → (a.at_ ((a.idx_ + j) % a.n)).has_req = true)) := by
  have h := execute_loop_cases a a.n 0 0 { init with winner_ := none }
  simp only [Nat.zero_add] at h
  rcases h with ⟨j, hj, he, hleast, hw, hi, hd⟩ | ⟨hnone, hw, c, hc, hd, hck⟩
  · left
    exact ⟨j, hj, he, hleast, hw, hi, hd⟩
  · right
    refine ⟨hnone, hw, ?_⟩
    unfold execute
    rw [hd, ← hck]
    simp

/-- The first eligible slot in search order wins. -/
theorem winner_of_least (a : Arbiter) (i : Nat) (hi : i < a.n)
    (he : a.eligible ((a.idx_ + i) % a.n) = true)
    (hleast : ∀ j, j < i → a.eligible ((a.idx_ + j) % a.n) = false) :
    (execute a).winner_ = some ((a.idx_ + i) % a.n) ∧
      (execute a).idx_ = (a.idx_ + i) % a.n ∧ (execute a).deadlock_ = false := by
  rcases execute_cases a with ⟨j, hj, hej, hlj, hw, hix, hd⟩ | ⟨hnone, _, _⟩
  · have hij : i = j := by
      rcases Nat.lt_trichotomy i j with h | h | h
      · have := hlj i h
        rw [he] at this
        exact absurd this (by decide)
      · exact h
      · have := hleast j h
        rw [hej] at this
        exact absurd this (by decide)
    subst hij
    exact ⟨hw, hix, hd⟩
  · have := hnone i hi
    rw [he] at this
    exact absurd this (by decide)

/-- A winner is the slot the tournament stopped at; it lies inside the vector,
has a request and is not blocked, and the tournament reports no deadlock. -/
theorem winner_sound (a : Arbiter) (w : Nat) (h : (execute a).winner_ = some w) :
    w < a.n ∧ (a.at_ w).has_req = true ∧ (a.at_ w).blocked = false ∧
      (execute a).idx_ = w ∧ (execute a).deadlock_ = false := by
  rcases execute_cases a with ⟨j, hj, hej, _, hw, hix, hd⟩ | ⟨_, hw, _⟩
  · rw [hw] at h
    have hwj : (a.idx_ + j) % a.n = w := Option.some.inj h
    rw [hwj] at hej hix
    have hpos : 0 < a.n := by omega
    simp only [Arbiter.eligible, Bool.and_eq_true, Bool.not_eq_true'] at hej
    exact ⟨hwj ▸ Nat.mod_lt _ hpos, hej.1, hej.2, hix, hd⟩
  · rw [hw] at h
    exact absurd h (by simp)

end Tournament

namespace Arbiter

/-- Every slot of the vector is visited by the search, whatever the index. -/
theorem slot_cover (a : Arbiter) (p : Nat) (hp : p < a.n) :
    ∃ j, j < a.n ∧ (a.idx_ + j) % a.n = p := by
  have hpos : 0 < a.n := by omega
  refine ⟨(p + (a.n - a.idx_ % a.n)) % a.n, Nat.mod_lt _ hpos, ?_⟩
  rw [Nat.add_mod_mod]
  have hm : a.idx_ % a.n < a.n := Nat.mod_lt _ hpos
  have hd : a.n * (a.idx_ / a.n) + a.idx_ % a.n = a.idx_ := Nat.div_add_mod _ _
  have hsum : a.idx_ + (p + (a.n - a.idx_ % a.n)) = a.n * (a.idx_ / a.n + 1) + p := by
    rw [Nat.mul_add, Nat.mul_one]
    generalize a.n * (a.idx_ / a.n) = e at hd
    omega
  rw [hsum, Nat.mul_add_mod, Nat.mod_eq_of_lt hp]

/-- A property holds at every slot in search order exactly when it holds for
every requester of the arbiter. -/
theorem all_slots_iff (a : Arbiter) (P : Requester → Prop) :
    (∀ j, j < a.n → P (a.at_ ((a.idx_ + j) % a.n))) ↔ ∀ r, r ∈ a.ts_ → P r := by
  constructor
  · intro h r hr
    obtain ⟨p, hp, hpr⟩ := List.getElem_of_mem hr
    obtain ⟨j, hj, hjp⟩ := a.slot_cover p hp
    have := h j hj
    rw [hjp] at this
    have hat : a.at_ p = r := by
      simp [Arbiter.at_, List.getD_eq_getElem?_getD, List.getElem?_eq_getElem hp, hpr]
    rw [hat] at this
    exact this
  · intro h j hj
    have hpos : 0 < a.n := by omega
    have hlt : (a.idx_ + j) % a.n < a.ts_.length := Nat.mod_lt _ hpos
    apply h
    simp [Arbiter.at_, List.getD_eq_getElem?_getD, List.getElem?_eq_getElem hlt]

end Arbiter

/-- C4. Winner selection: for an arbiter with `n >= 1` requesters and index
`idx`, the tournament nominates the requester in slot `(idx + i) mod n` for the
least `i` in `[0, n)` whose requester has a request and is not blocked; if there
is no such `i` the tournament has no requester; a nominated requester lies in
the vector, has a request and is not blocked. -/
theorem arbiter_winner_selection (a : Arbiter) (hn : 1 ≤ a.n) :
    (∀ i, i < a.n → a.eligible ((a.idx_ + i) % a.n) = true →
        (∀ j, j < i → a.eligible ((a.idx_ + j) % a.n) = false) →
        a.tournament.1.winner = some ((a.idx_ + i) % a.n)) ∧
      ((∀ i, i < a.n → a.eligible ((a.idx_ + i) % a.n) = false) →
        a.tournament.1.has_requester = false) ∧
      (∀ w, a.tournament.1.winner = some w →
        w < a.n ∧ (a.at_ w).has_req = true ∧ (a.at_ w).blocked = false) := by
  have _hpos : 0 < a.n := hn
  refine ⟨?_, ?_, ?_⟩
  · intro i hi he hleast
    exact (Tournament.winner_of_least a i hi he hleast).1
  · intro hnone
    rcases Tournament.execute_cases a with ⟨j, hj, hej, _⟩ | ⟨_, hw, _⟩
    · have := hnone j hj
      rw [hej] at this
      exact absurd this (by decide)
    · simp [Arbiter.tournament, Tournament.has_requester, hw]
  · intro w hw
    have h := Tournament.winner_sound a w hw
    exact ⟨h.1, h.2.1, h.2.2.1⟩

/-- C4, on three requesters and index 1: slot 1 has no request, slot 2 is
blocked, so slot 0 (reached at `i = 2`) wins. -/
theorem arbiter_winner_selection_witness :
    1 ≤ (Arbiter.mk 1 [⟨true, false⟩, ⟨false, false⟩, ⟨true, true⟩]).n ∧
      (Arbiter.mk 1 [⟨true, false⟩, ⟨false, false⟩, ⟨true, true⟩]).tournament.1.winner =
        some 0 :=
  ⟨by decide,
   (arbiter_winner_selection (Arbiter.mk 1 [⟨true, false⟩, ⟨false, false⟩, ⟨true, true⟩])
      (by decide)).1 2 (by decide) (by decide) (by decide)⟩

/-- C5. Deadlock detection: the tournament reports a deadlock exactly when
every requester has a request and every requester is blocked; a reported
deadlock is logged as fatal; a tournament with a winner reports no deadlock. -/
theorem arbiter_deadlock_detection (a : Arbiter) :
    (a.tournament.1.deadlock = true ↔
        ∀ r, r ∈ a.ts_ → r.has_req = true ∧ r.blocked = true) ∧
      (a.tournament.1.deadlock = true ↔
        a.tournament.2.2 =
          [{ msg := "A protocol deadlock has been detected.", level := some Level.Fatal }]) ∧
      (a.tournament.1.has_requester = true → a.tournament.1.deadlock = false) := by
  refine ⟨?_, ?_, ?_⟩
  · rw [← a.all_slots_iff (fun r => r.has_req = true ∧ r.blocked = true)]
    rcases Tournament.execute_cases a with ⟨j, hj, hej, _, _, _, hd⟩ | ⟨hnone, _, hd⟩
    · simp only [Arbiter.tournament, Tournament.deadlock, hd, Bool.false_eq_true, false_iff]
      intro hall
      have := (hall j hj).2
      simp [Arbiter.eligible, this] at hej
    · simp only [Arbiter.tournament, Tournament.deadlock]
      rw [hd]
      constructor
      · intro hall j hj
        have h1 := hall j hj
        have h2 := hnone j hj
        simp only [Arbiter.eligible, h1, Bool.true_and, Bool.not_eq_false'] at h2
        exact ⟨h1, h2⟩
      · intro hall j hj
        exact (hall j hj).1
  · simp only [Arbiter.tournament]
    cases (Tournament.execute a).deadlock <;> simp
  · intro hreq
    simp only [Arbiter.tournament, Tournament.has_requester, Option.isSome_iff_exists] at hreq
    obtain ⟨w, hw⟩ := hreq
    exact (Tournament.winner_sound a w hw).2.2.2.2

/-- C5, on two requesters that both have a request and are both blocked: the
tournament has no winner and reports a deadlock. -/
theorem arbiter_deadlock_detection_witness :
    (Arbiter.mk 0 [⟨true, true⟩, ⟨true, true⟩]).tournament.1.deadlock = true ∧
      (Arbiter.mk 0 [⟨true, true⟩, ⟨true, true⟩]).tournament.1.has_requester = false :=
  ⟨(arbiter_deadlock_detection (Arbiter.mk 0 [⟨true, true⟩, ⟨true, true⟩])).1.mpr (by decide),
   by decide⟩

/-- C6. Round-robin pointer: running a tournament leaves the arbiter (and so
its index) as it was; `advance()` on a tournament whose winner sits in slot `w`
sets the index to `(w + 1) mod n` and leaves the requesters alone, and the next
tournament probes slot `(w + 1) mod n` first; `advance()` on a tournament
without a winner leaves the arbiter as it was. -/
theorem arbiter_round_robin_pointer (a : Arbiter) :
    a.tournament.2.1 = a ∧
      (∀ w, a.tournament.1.winner = some w →
        (a.tournament.1.advance a.tournament.2.1).idx_ = (w + 1) % a.n ∧
        (a.tournament.1.advance a.tournament.2.1).ts_ = a.ts_ ∧
        ((a.tournament.1.advance a.tournament.2.1).eligible ((w + 1) % a.n) = true →
          (a.tournament.1.advance a.tournament.2.1).tournament.1.winner =
            some ((w + 1) % a.n))) ∧
      (a.tournament.1.has_requester = false →
        a.tournament.1.advance a.tournament.2.1 = a) := by
  refine ⟨rfl, ?_, ?_⟩
  · intro w hw
    have hs := Tournament.winner_sound a w hw
    have hadv : (Tournament.execute a).advance a = { a with idx_ := (w + 1) % a.n } := by
      simp only [Arbiter.tournament, Tournament.winner] at hw
      simp [Tournament.advance, hw, hs.2.2.2.1]
    simp only [Arbiter.tournament]
    rw [hadv]
    refine ⟨rfl, rfl, ?_⟩
    intro he
    have hpos : 0 < a.n := by omega
    have h0 := Tournament.winner_of_least { a with idx_ := (w + 1) % a.n } 0 hpos
      (by simpa [Arbiter.n] using he) (fun j hj => absurd hj (Nat.not_lt_zero j))
    simpa [Arbiter.n, Tournament.winner] using h0.1
  · intro hno
    simp only [Arbiter.tournament, Tournament.has_requester] at hno
    simp [Arbiter.tournament, Tournament.advance, hno]

/-- C6, on three requesters and index 1 where slot 0 wins: `advance()` moves the
index to 1. -/
theorem arbiter_round_robin_pointer_witness :
    (Arbiter.mk 1 [⟨true, false⟩, ⟨false, false⟩, ⟨true, true⟩]).tournament.1.winner = some 0 ∧
      ((Arbiter.mk 1 [⟨true, false⟩, ⟨false, false⟩, ⟨true, true⟩]).tournament.1.advance
        (Arbiter.mk 1 [⟨true, false⟩, ⟨false, false⟩, ⟨true, true⟩]).tournament.2.1).idx_ =
          (0 + 1) % 3 :=
  ⟨by decide,
   ((arbiter_round_robin_pointer
      (Arbiter.mk 1 [⟨true, false⟩, ⟨false, false⟩, ⟨true, true⟩])).2.1 0 (by decide)).1⟩

/-! ## Cache controller -/

namespace moesi_cc

/-- A message of a class other than CohEnd leaves the `is` and `pd` flags of
the line as they are. -/
theorem apply_keeps_is_pd (m : Message) (l : Line) (h : m.cls ≠ MessageClass.CohEnd) :
    (ApplyMsgAction.execute m l).2.is = l.is ∧ (ApplyMsgAction.execute m l).2.pd = l.pd := by
  obtain ⟨t, o, body⟩ := m
  cases body <;> first | exact absurd rfl h | exact ⟨rfl, rfl⟩

/-- Messages of classes other than CohEnd, applied in sequence, leave the `is`
and `pd` flags of the line as they are. -/
theorem apply_list_keeps_is_pd (later : List Message) :
    ∀ (l : Line), (∀ m, m ∈ later → m.cls ≠ MessageClass.CohEnd) →
      (later.foldl (fun l m => (ApplyMsgAction.execute m l).2) l).is = l.is ∧
        (later.foldl (fun l m => (ApplyMsgAction.execute m l).2) l).pd = l.pd := by
  induction later with
  | nil => intro l _; exact ⟨rfl, rfl⟩
  | cons m ms ih =>
    intro l h
    have h1 := apply_keeps_is_pd m l (h m (List.mem_cons_self m ms))
    have h2 := ih (ApplyMsgAction.execute m l).2 (fun x hx => h x (List.mem_cons_of_mem m hx))
    simp only [List.foldl_cons]
    exact ⟨h2.1.trans h1.1, h2.2.trans h1.2⟩

end moesi_cc

/-- C7. Line completeness: `is_complete()` is true if and only if the line is
not awaiting the CohEnd, is not awaiting the CohCmdRsp, and the number of
received data transfers equals the expected number. -/
theorem cc_line_is_complete_iff (l : moesi_cc.Line) :
    l.is_complete = true ↔
      l.awaiting_cohend = false ∧ l.awaiting_cohcmdrsp = false ∧ l.dt_i = l.dt_n := by
  unfold moesi_cc.Line.is_complete
  cases h1 : l.awaiting_cohend <;> cases h2 : l.awaiting_cohcmdrsp <;> simp [eq_comm]

/-- C8. Handling of an AceCmd: the command list produced for an
`AceCmd(opcode, addr)` of transaction `t` is, in order: apply the message to the
line; emit a `CohSrt(addr)`; emit a `CohCmd(opcode, addr)` (both carrying `t`,
with this controller as origin, in a NOC envelope from this controller to
`dm()->lookup(addr)`); set awaiting-CohEnd; set awaiting-CohCmdRsp; start the
transaction; consume the message; wait for the next epoch. Nothing is logged.
Executing the list records `t` in the line, sets both awaiting flags and
changes no other field, so the line is not complete; the two envelopes reach
the NOC port in that order, the transaction is entered in the table and one
message is consumed. -/
theorem cc_acecmd_handling (tb : MsgTables) (ctxt : moesi_cc.CCContext)
    (t : Option Transaction) (origin : Option Agent) (opcode : AceCmdOpcode) (addr : addr_t)
    (cl : moesi_cc.CCCommandList) (st : moesi_cc.CCState) :
    (moesi_cc.MOESICCProtocol.apply tb
        { ctxt with msg := ⟨t, origin, MessageBody.AceCmd opcode addr⟩ } cl).2.1 =
      cl ++
        [moesi_cc.CCCommand.InvokeCoherenceAction
           (moesi_cc.CCCoherenceAction.ApplyMsgAction ⟨t, origin, MessageBody.AceCmd opcode addr⟩),
         moesi_cc.CCCommand.InvokeCoherenceAction
           (moesi_cc.CCCoherenceAction.EmitMessageToNocAction
             { t := t, origin := some ctxt.cc.id,
               payload := ⟨t, some ctxt.cc.id, MessageBody.CohSrt addr⟩,
               dest := ctxt.cc.dm_lookup addr }
             ctxt.cursor),
         moesi_cc.CCCommand.InvokeCoherenceAction
           (moesi_cc.CCCoherenceAction.EmitMessageToNocAction
             { t := t, origin := some ctxt.cc.id,
               payload := ⟨t, some ctxt.cc.id, MessageBody.CohCmd opcode none addr⟩,
               dest := ctxt.cc.dm_lookup addr }
             (ctxt.cursor + ctxt.epoch * tb.to_epoch_cost MessageClass.CohSrt)),
         moesi_cc.CCCommand.InvokeCoherenceAction
           (moesi_cc.CCCoherenceAction.LineUpdateAction moesi_cc.LineUpdate.SetAwaitingCohEnd),
         moesi_cc.CCCommand.InvokeCoherenceAction
           (moesi_cc.CCCoherenceAction.LineUpdateAction moesi_cc.LineUpdate.SetAwaitingCohCmdRsp),
         moesi_cc.CCCommand.TransactionStart,
         moesi_cc.CCCommand.MsgConsume,
         moesi_cc.CCCommand.WaitNextEpoch] ∧
    (moesi_cc.MOESICCProtocol.apply tb
        { ctxt with msg := ⟨t, origin, MessageBody.AceCmd opcode addr⟩ } cl).2.2 = [] ∧
    (moesi_cc.CCCommandInterpreter.execute_list
        { ctxt with msg := ⟨t, origin, MessageBody.AceCmd opcode addr⟩ } st
        (moesi_cc.MOESICCProtocol.apply tb
          { ctxt with msg := ⟨t, origin, MessageBody.AceCmd opcode addr⟩ } []).2.1).line =
      { st.line with t_ := t, awaiting_cohend_ := true, awaiting_cohcmdrsp_ := true } ∧
    (moesi_cc.CCCommandInterpreter.execute_list
        { ctxt with msg := ⟨t, origin, MessageBody.AceCmd opcode addr⟩ } st
        (moesi_cc.MOESICCProtocol.apply tb
          { ctxt with msg := ⟨t, origin, MessageBody.AceCmd opcode addr⟩ } []).2.1).line.is_complete
      = false ∧
    (moesi_cc.CCCommandInterpreter.execute_list
        { ctxt with msg := ⟨t, origin, MessageBody.AceCmd opcode addr⟩ } st
        (moesi_cc.MOESICCProtocol.apply tb
          { ctxt with msg := ⟨t, origin, MessageBody.AceCmd opcode addr⟩ } []).2.1).noc_ingress =
      st.noc_ingress ++
        [({ t := t, origin := some ctxt.cc.id,
            payload := ⟨t, some ctxt.cc.id, MessageBody.CohSrt addr⟩,
            dest := ctxt.cc.dm_lookup addr }, ctxt.cursor),
         ({ t := t, origin := some ctxt.cc.id,
            payload := ⟨t, some ctxt.cc.id, MessageBody.CohCmd opcode none addr⟩,
            dest := ctxt.cc.dm_lookup addr },
          ctxt.cursor + ctxt.epoch * tb.to_epoch_cost MessageClass.CohSrt)] ∧
    (moesi_cc.CCCommandInterpreter.execute_list
        { ctxt with msg := ⟨t, origin, MessageBody.AceCmd opcode addr⟩ } st
        (moesi_cc.MOESICCProtocol.apply tb
          { ctxt with msg := ⟨t, origin, MessageBody.AceCmd opcode addr⟩ } []).2.1).tt =
      st.tt ++ [t] ∧
    (moesi_cc.CCCommandInterpreter.execute_list
        { ctxt with msg := ⟨t, origin, MessageBody.AceCmd opcode addr⟩ } st
        (moesi_cc.MOESICCProtocol.apply tb
          { ctxt with msg := ⟨t, origin, MessageBody.AceCmd opcode addr⟩ } []).2.1).consumed =
      st.consumed + 1 := by
  refine ⟨?_, ?_, ?_, ?_, ?_, ?_, ?_⟩
  · simp [moesi_cc.MOESICCProtocol.apply, moesi_cc.MOESICCProtocol.eval_msg_AceCmdMsg,
      moesi_cc.MOESICCProtocol.issue_apply_msg, moesi_cc.MOESICCProtocol.issue_msg_to_noc,
      moesi_cc.MOESICCProtocol.issue_line_update, moesi_cc.CCCommandList.push_back_action,
      moesi_cc.CCCommandList.push_back, moesi_cc.CCCommandList.next_and_do_consume,
      moesi_cc.CCContext.advance_cursor, Message.cls]
  · simp [moesi_cc.MOESICCProtocol.apply]
  all_goals
    simp [moesi_cc.MOESICCProtocol.apply, moesi_cc.MOESICCProtocol.eval_msg_AceCmdMsg,
      moesi_cc.MOESICCProtocol.issue_apply_msg, moesi_cc.MOESICCProtocol.issue_msg_to_noc,
      moesi_cc.MOESICCProtocol.issue_line_update, moesi_cc.CCCommandList.push_back_action,
      moesi_cc.CCCommandList.push_back, moesi_cc.CCCommandList.next_and_do_consume,
      moesi_cc.CCContext.advance_cursor, Message.cls,
      moesi_cc.CCCommandInterpreter.execute_list, moesi_cc.CCCommandInterpreter.execute,
      moesi_cc.CCCoherenceAction.execute, moesi_cc.ApplyMsgAction.execute,
      moesi_cc.ApplyMsgAction.execute_apply_AceCmdMsg, moesi_cc.LineUpdateAction.execute,
      moesi_cc.Line.set_t, moesi_cc.Line.set_awaiting_cohend,
      moesi_cc.Line.set_awaiting_cohcmdrsp, moesi_cc.Line.is_complete,
      moesi_cc.Line.awaiting_cohend]

/-- C9. Completion response: `is_complete(ctxt, cl)` returns the value of the
line's `is_complete()`. When the line is complete it appends exactly two
commands: the emission, to the controller-to-L2 response queue, of one AceRsp
carrying the line's transaction, this controller as origin and the line's `is`
and `pd` flags, followed by the end of the line's transaction; executing them
puts that AceRsp on the response queue and takes the transaction out of the
table. When the line is not complete it appends nothing. The `is` and `pd`
flags of the line are those of the CohEnd applied to it, whatever messages of
other classes were applied afterwards. -/
theorem cc_completion_response (ctxt : moesi_cc.CCContext) (cl : moesi_cc.CCCommandList) :
    (moesi_cc.MOESICCProtocol.is_complete ctxt cl).1 = ctxt.line.is_complete ∧
    (ctxt.line.is_complete = true →
      (moesi_cc.MOESICCProtocol.is_complete ctxt cl).2.1 =
        cl ++
          [moesi_cc.CCCommand.InvokeCoherenceAction
             (moesi_cc.CCCoherenceAction.EmitMessageActionProxy moesi_cc.CCEgressQueue.L2RspQ
               ⟨ctxt.line.t, some ctxt.cc.id, MessageBody.AceCmdRsp ctxt.line.pd ctxt.line.is⟩),
           moesi_cc.CCCommand.TransactionEnd ctxt.line.t] ∧
      (moesi_cc.MOESICCProtocol.is_complete ctxt cl).2.2 = [] ∧
      ∀ st : moesi_cc.CCState,
        (moesi_cc.CCCommandInterpreter.execute_list ctxt st
            (moesi_cc.MOESICCProtocol.is_complete ctxt []).2.1).cc_l2__rsp_q =
          st.cc_l2__rsp_q ++
            [⟨ctxt.line.t, some ctxt.cc.id, MessageBody.AceCmdRsp ctxt.line.pd ctxt.line.is⟩] ∧
        (moesi_cc.CCCommandInterpreter.execute_list ctxt st
            (moesi_cc.MOESICCProtocol.is_complete ctxt []).2.1).tt = st.tt.erase ctxt.line.t ∧
        (moesi_cc.CCCommandInterpreter.execute_list ctxt st
            (moesi_cc.MOESICCProtocol.is_complete ctxt []).2.1).noc_ingress = st.noc_ingress ∧
        (moesi_cc.CCCommandInterpreter.execute_list ctxt st
            (moesi_cc.MOESICCProtocol.is_complete ctxt []).2.1).cc_l2__cmd_q = st.cc_l2__cmd_q) ∧
    (ctxt.line.is_complete = false →
      (moesi_cc.MOESICCProtocol.is_complete ctxt cl).2.1 = cl) ∧
    (∀ (line0 : moesi_cc.Line) (t : Option Transaction) (o : Option Agent) (is_ pd : Bool)
        (k : Nat) (later : List Message),
      (∀ m, m ∈ later → m.cls ≠ MessageClass.CohEnd) →
      ctxt.line =
        later.foldl (fun l m => (moesi_cc.ApplyMsgAction.execute m l).2)
          (moesi_cc.ApplyMsgAction.execute ⟨t, o, MessageBody.CohEnd is_ pd k⟩ line0).2 →
      ctxt.line.is = is_ ∧ ctxt.line.pd = pd) := by
  refine ⟨?_, ?_, ?_, ?_⟩
  · cases h : ctxt.line.is_complete <;> simp [moesi_cc.MOESICCProtocol.is_complete, h]
  · intro h
    refine ⟨?_, ?_, ?_⟩
    · simp [moesi_cc.MOESICCProtocol.is_complete, h, moesi_cc.MOESICCProtocol.issue_msg_to_queue,
        moesi_cc.CCCommandList.push_back_action, moesi_cc.CCCommandList.push_transaction_end]
    · simp [moesi_cc.MOESICCProtocol.is_complete, h, moesi_cc.MOESICCProtocol.issue_msg_to_queue]
    · intro st
      simp [moesi_cc.MOESICCProtocol.is_complete, h, moesi_cc.MOESICCProtocol.issue_msg_to_queue,
        moesi_cc.CCCommandList.push_back_action, moesi_cc.CCCommandList.push_transaction_end,
        moesi_cc.CCCommandInterpreter.execute_list, moesi_cc.CCCommandInterpreter.execute,
        moesi_cc.CCCoherenceAction.execute]
  · intro h
    simp [moesi_cc.MOESICCProtocol.is_complete, h]
  · intro line0 t o is_ pd k later hlater hline
    have h := moesi_cc.apply_list_keeps_is_pd later
      (moesi_cc.ApplyMsgAction.execute ⟨t, o, MessageBody.CohEnd is_ pd k⟩ line0).2 hlater
    rw [← hline] at h
    exact h

/-- C9, on the complete line left by an AceCmd of transaction 5, a CohCmdRsp, a
CohEnd with `is = true`, `pd = false`, `dt_n = 1`, and one Dt: the call returns
true and appends the emission of the AceRsp of transaction 5 with
`is = true`, `pd = false`, followed by the end of transaction 5. -/
theorem cc_completion_response_witness :
    (moesi_cc.MOESICCProtocol.is_complete
        { msg := ⟨some 5, some 2, MessageBody.Dt⟩,
          line := { t_ := some 5, is_ := true, pd_ := false, dt_n_ := 1, dt_i_ := 1,
                    awaiting_cohend_ := false, awaiting_cohcmdrsp_ := false },
          cc := { id := 1, dm_lookup := fun _ => some 9, ccntrs_map := fun _ _ => none,
                  noc_ingress_cc := 0 },
          epoch := 10, cursor := 0 } []).1 = true ∧
    (moesi_cc.MOESICCProtocol.is_complete
        { msg := ⟨some 5, some 2, MessageBody.Dt⟩,
          line := { t_ := some 5, is_ := true, pd_ := false, dt_n_ := 1, dt_i_ := 1,
                    awaiting_cohend_ := false, awaiting_cohcmdrsp_ := false },
          cc := { id := 1, dm_lookup := fun _ => some 9, ccntrs_map := fun _ _ => none,
                  noc_ingress_cc := 0 },
          epoch := 10, cursor := 0 } []).2.1 =
      [moesi_cc.CCCommand.InvokeCoherenceAction
         (moesi_cc.CCCoherenceAction.EmitMessageActionProxy moesi_cc.CCEgressQueue.L2RspQ
           ⟨some 5, some 1, MessageBody.AceCmdRsp false true⟩),
       moesi_cc.CCCommand.TransactionEnd (some 5)] ∧
    (({ t_ := some 5, is_ := true, pd_ := false, dt_n_ := 1, dt_i_ := 1,
        awaiting_cohend_ := false, awaiting_cohcmdrsp_ := false } : moesi_cc.Line).is = true ∧
     ({ t_ := some 5, is_ := true, pd_ := false, dt_n_ := 1, dt_i_ := 1,
        awaiting_cohend_ := false, awaiting_cohcmdrsp_ := false } : moesi_cc.Line).pd = false) :=
  ⟨by decide,
   ((cc_completion_response
      { msg := ⟨some 5, some 2, MessageBody.Dt⟩,
        line := { t_ := some 5, is_ := true, pd_ := false, dt_n_ := 1, dt_i_ := 1,
                  awaiting_cohend_ := false, awaiting_cohcmdrsp_ := false },
        cc := { id := 1, dm_lookup := fun _ => some 9, ccntrs_map := fun _ _ => none,
                noc_ingress_cc := 0 },
        epoch := 10, cursor := 0 } []).2.1 (by decide)).1,
   (cc_completion_response
      { msg := ⟨some 5, some 2, MessageBody.Dt⟩,
        line := { t_ := some 5, is_ := true, pd_ := false, dt_n_ := 1, dt_i_ := 1,
                  awaiting_cohend_ := false, awaiting_cohcmdrsp_ := false },
        cc := { id := 1, dm_lookup := fun _ => some 9, ccntrs_map := fun _ _ => none,
                noc_ingress_cc := 0 },
        epoch := 10, cursor := 0 } []).2.2.2
      { awaiting_cohend_ := true, awaiting_cohcmdrsp_ := false, t_ := some 5 }
      (some 5) (some 9) true false 1 [⟨some 5, some 3, MessageBody.Dt⟩]
      (by decide) (by decide)⟩

/-- C10. Handling of a Dt: the command list produced for a Dt of transaction
`t` sent by `origin` is, in order: apply the message to the line; emit one DtRsp
carrying `t`, with this controller as origin, in a NOC envelope from this
controller to `origin`; consume the message; wait for the next epoch. Nothing
is logged. Executing the list adds one to the received-transfer count of the
line and changes no other field of it; exactly that envelope reaches the NOC
port, nothing goes to the L2 queues, and one message is consumed. -/
theorem cc_dt_handling (tb : MsgTables) (ctxt : moesi_cc.CCContext)
    (t : Option Transaction) (origin : Option Agent)
    (cl : moesi_cc.CCCommandList) (st : moesi_cc.CCState) :
    (moesi_cc.MOESICCProtocol.apply tb { ctxt with msg := ⟨t, origin, MessageBody.Dt⟩ } cl).2.1 =
      cl ++
        [moesi_cc.CCCommand.InvokeCoherenceAction
           (moesi_cc.CCCoherenceAction.ApplyMsgAction ⟨t, origin, MessageBody.Dt⟩),
         moesi_cc.CCCommand.InvokeCoherenceAction
           (moesi_cc.CCCoherenceAction.EmitMessageToNocAction
             { t := t, origin := some ctxt.cc.id,
               payload := ⟨t, some ctxt.cc.id, MessageBody.DtRsp⟩,
               dest := origin }
             ctxt.cursor),
         moesi_cc.CCCommand.MsgConsume,
         moesi_cc.CCCommand.WaitNextEpoch] ∧
    (moesi_cc.MOESICCProtocol.apply tb { ctxt with msg := ⟨t, origin, MessageBody.Dt⟩ } cl).2.2 =
      [] ∧
    (moesi_cc.CCCommandInterpreter.execute_list { ctxt with msg := ⟨t, origin, MessageBody.Dt⟩ } st
        (moesi_cc.MOESICCProtocol.apply tb
          { ctxt with msg := ⟨t, origin, MessageBody.Dt⟩ } []).2.1).line =
      { st.line with dt_i_ := st.line.dt_i_ + 1 } ∧
    (moesi_cc.CCCommandInterpreter.execute_list { ctxt with msg := ⟨t, origin, MessageBody.Dt⟩ } st
        (moesi_cc.MOESICCProtocol.apply tb
          { ctxt with msg := ⟨t, origin, MessageBody.Dt⟩ } []).2.1).noc_ingress =
      st.noc_ingress ++
        [({ t := t, origin := some ctxt.cc.id,
            payload := ⟨t, some ctxt.cc.id, MessageBody.DtRsp⟩,
            dest := origin }, ctxt.cursor)] ∧
    (moesi_cc.CCCommandInterpreter.execute_list { ctxt with msg := ⟨t, origin, MessageBody.Dt⟩ } st
        (moesi_cc.MOESICCProtocol.apply tb
          { ctxt with msg := ⟨t, origin, MessageBody.Dt⟩ } []).2.1).cc_l2__rsp_q =
      st.cc_l2__rsp_q ∧
    (moesi_cc.CCCommandInterpreter.execute_list { ctxt with msg := ⟨t, origin, MessageBody.Dt⟩ } st
        (moesi_cc.MOESICCProtocol.apply tb
          { ctxt with msg := ⟨t, origin, MessageBody.Dt⟩ } []).2.1).cc_l2__cmd_q =
      st.cc_l2__cmd_q ∧
    (moesi_cc.CCCommandInterpreter.execute_list { ctxt with msg := ⟨t, origin, MessageBody.Dt⟩ } st
        (moesi_cc.MOESICCProtocol.apply tb
          { ctxt with msg := ⟨t, origin, MessageBody.Dt⟩ } []).2.1).consumed =
      st.consumed + 1 := by
  refine ⟨?_, ?_, ?_, ?_, ?_, ?_, ?_⟩
  all_goals
    simp [moesi_cc.MOESICCProtocol.apply, moesi_cc.MOESICCProtocol.eval_msg_DtMsg,
      moesi_cc.MOESICCProtocol.issue_apply_msg, moesi_cc.MOESICCProtocol.issue_msg_to_noc,
      moesi_cc.CCCommandList.push_back_action, moesi_cc.CCCommandList.next_and_do_consume,
      moesi_cc.CCContext.advance_cursor,
      moesi_cc.CCCommandInterpreter.execute_list, moesi_cc.CCCommandInterpreter.execute,
      moesi_cc.CCCoherenceAction.execute, moesi_cc.ApplyMsgAction.execute,
      moesi_cc.ApplyMsgAction.execute_apply_DtMsg, moesi_cc.Line.set_dt_i, moesi_cc.Line.dt_i]

/-! ## Cache controller, snoop side -/

namespace moesi_cc

/-- C11. Snoop response: for an `AceSnpRsp(dt, pd, is, wu)` of transaction `t`
on a snoop line recording the directory `d` and the agent `a`, the command list
is, in order: the emission of a Dt (carrying `t`, this controller as origin, in
a NOC envelope to `a`) exactly when `dt` is set and `a` is not null; the
emission of one CohSnpRsp carrying `t`, this controller as origin and the flags
`dt`, `pd`, `is`, `wu`, in a NOC envelope to `d`; consume; wait. Nothing is
logged. Executing the list hands exactly these envelopes to the NOC port, in
that order. A CohSnp from `d` naming `a` records `d` and `a` in the snoop
line. -/
theorem cc_snoop_response (tb : MsgTables) (ctxt : CCSnpContext) (t : Option Transaction)
    (o d a : Option Agent) (dt pd is_ wu : Bool) (cl : CCSnpCommandList) (st : CCState)
    (opcode : AceSnpOpcode) (addr : addr_t) :
    (MOESICCProtocol.apply_snp tb
        { ctxt with msg := ⟨t, o, MessageBody.AceSnoopRsp dt pd is_ wu⟩,
                    tstate := { ctxt.tstate with line := ⟨d, a⟩ } } cl).2.1 =
      cl ++
        (if dt && a.isSome then
          [CCSnpCommand.InvokeCoherenceAction
            (CCCoherenceAction.EmitMessageToNocAction
              { t := t, origin := some ctxt.cc.id,
                payload := ⟨t, some ctxt.cc.id, MessageBody.Dt⟩, dest := a }
              ctxt.cursor)]
         else []) ++
        [CCSnpCommand.InvokeCoherenceAction
           (CCCoherenceAction.EmitMessageToNocAction
             { t := t, origin := some ctxt.cc.id,
               payload := ⟨t, some ctxt.cc.id, MessageBody.CohSnpRsp dt pd is_ wu⟩, dest := d }
             (ctxt.cursor +
               (if dt && a.isSome then ctxt.epoch * tb.to_epoch_cost MessageClass.Dt else 0))),
         CCSnpCommand.MsgConsume,
         CCSnpCommand.WaitNextEpoch] ∧
    (MOESICCProtocol.apply_snp tb
        { ctxt with msg := ⟨t, o, MessageBody.AceSnoopRsp dt pd is_ wu⟩,
                    tstate := { ctxt.tstate with line := ⟨d, a⟩ } } cl).2.2 = [] ∧
    (CCSnpCommandInterpreter.execute_list
        { ctxt with msg := ⟨t, o, MessageBody.AceSnoopRsp dt pd is_ wu⟩,
                    tstate := { ctxt.tstate with line := ⟨d, a⟩ } } st
        (MOESICCProtocol.apply_snp tb
          { ctxt with msg := ⟨t, o, MessageBody.AceSnoopRsp dt pd is_ wu⟩,
                      tstate := { ctxt.tstate with line := ⟨d, a⟩ } } []).2.1).noc_ingress =
      st.noc_ingress ++
        (if dt && a.isSome then
          [(({ t := t, origin := some ctxt.cc.id,
               payload := ⟨t, some ctxt.cc.id, MessageBody.Dt⟩, dest := a } : NocMsg),
            ctxt.cursor)]
         else []) ++
        [({ t := t, origin := some ctxt.cc.id,
            payload := ⟨t, some ctxt.cc.id, MessageBody.CohSnpRsp dt pd is_ wu⟩, dest := d },
          ctxt.cursor +
            (if dt && a.isSome then ctxt.epoch * tb.to_epoch_cost MessageClass.Dt else 0))] ∧
    (MOESICCProtocol.apply_snp tb
        { ctxt with msg := ⟨t, d, MessageBody.CohSnp opcode a addr⟩ } cl).1.tstate.line =
      { origin_ := d, agent_ := a } := by
  refine ⟨?_, ?_, ?_, ?_⟩
  · cases dt <;> cases a <;>
      simp [MOESICCProtocol.apply_snp, MOESICCProtocol.eval_msg_AceSnpRspMsg,
        MOESICCProtocol.issue_msg_to_noc_snp, CCSnpCommandList.push_back_action,
        CCSnpCommandList.next_and_do_consume, CCSnpContext.advance_cursor, SnpLine.agent,
        SnpLine.origin, Message.cls]
  · simp [MOESICCProtocol.apply_snp]
  · cases dt <;> cases a <;>
      simp [MOESICCProtocol.apply_snp, MOESICCProtocol.eval_msg_AceSnpRspMsg,
        MOESICCProtocol.issue_msg_to_noc_snp, CCSnpCommandList.push_back_action,
        CCSnpCommandList.next_and_do_consume, CCSnpContext.advance_cursor, SnpLine.agent,
        SnpLine.origin, Message.cls, CCSnpCommandInterpreter.execute_list,
        CCSnpCommandInterpreter.execute, CCCoherenceAction.execute]
  · simp [MOESICCProtocol.apply_snp, MOESICCProtocol.eval_msg_CohSnpMsg,
      SnpLine.set_origin, SnpLine.set_agent]

end moesi_cc

/-! ## L2 protocol -/

namespace moesi_l2

/-- C12. Miss from Invalid: for a line in I, an L1GetS yields, in order, the
update to IS, the emission of one `AceCmd(ReadShared)` carrying the transaction
and address of the command to the L2-to-CC command queue, the start of a
transaction, the consumption of the command and the wait; an L1GetE yields the
same with IE and `AceCmd(ReadUnique)`. Executing the list leaves the line in IS
(resp. IE) with owner and sharers as they were, and issues that AceCmd and
nothing else, so no response goes to the L1. -/
theorem l2_miss_from_invalid (ctxt : L2CacheContext) (t : Option Transaction)
    (o l1 owner : Option Agent) (sharers : Finset (Option Agent)) (addr : addr_t)
    (cl : L2CommandList) :
    (MOESIL2CacheProtocol.apply
        { ctxt with msg := ⟨t, o, MessageBody.L2Cmd L2CmdOpcode.L1GetS addr l1⟩,
                    line := ⟨State.I, owner, sharers⟩ } cl).2.1 =
      cl ++
        [L2CommandBuilder.from_action
           (L2CoherenceAction.LineUpdateAction
             { update_ := LineUpdate.SetState, state_ := State.IS }),
         L2CommandBuilder.from_action
           (L2CoherenceAction.EmitMessageActionProxy L2MessageQueue.l2_cc__cmd_q
             ⟨t, none, MessageBody.AceCmd AceCmdOpcode.ReadShared addr⟩),
         L2CommandBuilder.from_opcode L2Opcode.StartTransaction,
         L2CommandBuilder.from_opcode L2Opcode.MsgConsume,
         L2CommandBuilder.from_opcode L2Opcode.WaitNextEpoch] ∧
    L2CommandInterpreter.execute_list (L2State.init ⟨State.I, owner, sharers⟩)
        (MOESIL2CacheProtocol.apply
          { ctxt with msg := ⟨t, o, MessageBody.L2Cmd L2CmdOpcode.L1GetS addr l1⟩,
                      line := ⟨State.I, owner, sharers⟩ } []).2.1 =
      { line := ⟨State.IS, owner, sharers⟩,
        issued := [(L2MessageQueue.l2_cc__cmd_q,
                    ⟨t, none, MessageBody.AceCmd AceCmdOpcode.ReadShared addr⟩)],
        ops := [L2Opcode.StartTransaction, L2Opcode.MsgConsume, L2Opcode.WaitNextEpoch] } ∧
    (MOESIL2CacheProtocol.apply
        { ctxt with msg := ⟨t, o, MessageBody.L2Cmd L2CmdOpcode.L1GetE addr l1⟩,
                    line := ⟨State.I, owner, sharers⟩ } cl).2.1 =
      cl ++
        [L2CommandBuilder.from_action
           (L2CoherenceAction.LineUpdateAction
             { update_ := LineUpdate.SetState, state_ := State.IE }),
         L2CommandBuilder.from_action
           (L2CoherenceAction.EmitMessageActionProxy L2MessageQueue.l2_cc__cmd_q
             ⟨t, none, MessageBody.AceCmd AceCmdOpcode.ReadUnique addr⟩),
         L2CommandBuilder.from_opcode L2Opcode.StartTransaction,
         L2CommandBuilder.from_opcode L2Opcode.MsgConsume,
         L2CommandBuilder.from_opcode L2Opcode.WaitNextEpoch] ∧
    L2CommandInterpreter.execute_list (L2State.init ⟨State.I, owner, sharers⟩)
        (MOESIL2CacheProtocol.apply
          { ctxt with msg := ⟨t, o, MessageBody.L2Cmd L2CmdOpcode.L1GetE addr l1⟩,
                      line := ⟨State.I, owner, sharers⟩ } []).2.1 =
      { line := ⟨State.IE, owner, sharers⟩,
        issued := [(L2MessageQueue.l2_cc__cmd_q,
                    ⟨t, none, MessageBody.AceCmd AceCmdOpcode.ReadUnique addr⟩)],
        ops := [L2Opcode.StartTransaction, L2Opcode.MsgConsume, L2Opcode.WaitNextEpoch] } := by
  refine ⟨?_, ?_, ?_, ?_⟩ <;>
    simp [MOESIL2CacheProtocol.apply, MOESIL2CacheProtocol.apply_L2CmdMsg,
      MOESIL2CacheProtocol.issue_msg, MOESIL2CacheProtocol.issue_update_state,
      L2CommandList.push_back, LineState.state, L2CommandInterpreter.execute_list,
      L2CommandInterpreter.execute, L2CommandBuilder.from_action, L2CommandBuilder.from_opcode,
      LineUpdateAction.execute, LineState.set_state, L2State.init]

/-- C13. Fill completion of a shared read: for a line in IS and an
`AceRsp(is, pd)` of transaction `t`, the final state is E when neither flag is
set, O when both are set and S otherwise. The list is, in order: the emission of
one L2L1Rsp carrying `t` to the response queue of the requesting L1, shared
exactly when the final state is S; the update to the final state; the end of the
transaction; the consumption of the response; the wait. Executing it leaves the
line in the final state and issues that response and nothing else. -/
theorem l2_fill_shared_read (ctxt : L2CacheContext) (t : Option Transaction)
    (o owner : Option Agent) (sharers : Finset (Option Agent)) (is_ pd : Bool)
    (cl : L2CommandList) :
    (MOESIL2CacheProtocol.apply
        { ctxt with msg := ⟨t, o, MessageBody.AceCmdRsp pd is_⟩,
                    line := ⟨State.IS, owner, sharers⟩ } cl).2.1 =
      cl ++
        [L2CommandBuilder.from_action
           (L2CoherenceAction.EmitMessageActionProxy
             (L2MessageQueue.l2_l1__rsp_q ctxt.tstate.l1cache)
             ⟨t, none, MessageBody.L2CmdRsp
               (decide ((if !is_ && !pd then State.E else if is_ && pd then State.O
                          else State.S) = State.S))⟩),
         L2CommandBuilder.from_action
           (L2CoherenceAction.LineUpdateAction
             { update_ := LineUpdate.SetState,
               state_ := if !is_ && !pd then State.E else if is_ && pd then State.O
                         else State.S }),
         L2CommandBuilder.from_opcode L2Opcode.EndTransaction,
         L2CommandBuilder.from_opcode L2Opcode.MsgConsume,
         L2CommandBuilder.from_opcode L2Opcode.WaitNextEpoch] ∧
    L2CommandInterpreter.execute_list (L2State.init ⟨State.IS, owner, sharers⟩)
        (MOESIL2CacheProtocol.apply
          { ctxt with msg := ⟨t, o, MessageBody.AceCmdRsp pd is_⟩,
                      line := ⟨State.IS, owner, sharers⟩ } []).2.1 =
      { line := ⟨if !is_ && !pd then State.E else if is_ && pd then State.O else State.S,
                 owner, sharers⟩,
        issued := [(L2MessageQueue.l2_l1__rsp_q ctxt.tstate.l1cache,
                    ⟨t, none, MessageBody.L2CmdRsp
                      (decide ((if !is_ && !pd then State.E else if is_ && pd then State.O
                                 else State.S) = State.S))⟩)],
        ops := [L2Opcode.EndTransaction, L2Opcode.MsgConsume, L2Opcode.WaitNextEpoch] } := by
  refine ⟨?_, ?_⟩ <;> cases is_ <;> cases pd <;>
    simp [MOESIL2CacheProtocol.apply, MOESIL2CacheProtocol.apply_AceCmdRspMsg,
      MOESIL2CacheProtocol.issue_msg, MOESIL2CacheProtocol.issue_update_state,
      L2CommandList.push_back, LineState.state, L2CommandInterpreter.execute_list,
      L2CommandInterpreter.execute, L2CommandBuilder.from_action, L2CommandBuilder.from_opcode,
      LineUpdateAction.execute, LineState.set_state, L2State.init]

/-- C14. Fill completion of an exclusive read: for a line in IE and an
`AceRsp(is, pd)` of transaction `t`, the final state is O when `pd` is set and E
otherwise, whatever `is`. The list is, in order: the emission of one L2L1Rsp
carrying `t`, not shared, to the response queue of the requester; the update to
the final state; the end of the transaction; the consumption of the response;
the wait. Executing it leaves the line in the final state and issues that
response and nothing else. -/
theorem l2_fill_exclusive_read (ctxt : L2CacheContext) (t : Option Transaction)
    (o owner : Option Agent) (sharers : Finset (Option Agent)) (is_ pd : Bool)
    (cl : L2CommandList) :
    (MOESIL2CacheProtocol.apply
        { ctxt with msg := ⟨t, o, MessageBody.AceCmdRsp pd is_⟩,
                    line := ⟨State.IE, owner, sharers⟩ } cl).2.1 =
      cl ++
        [L2CommandBuilder.from_action
           (L2CoherenceAction.EmitMessageActionProxy
             (L2MessageQueue.l2_l1__rsp_q ctxt.tstate.l1cache)
             ⟨t, none, MessageBody.L2CmdRsp false⟩),
         L2CommandBuilder.from_action
           (L2CoherenceAction.LineUpdateAction
             { update_ := LineUpdate.SetState, state_ := if pd then State.O else State.E }),
         L2CommandBuilder.from_opcode L2Opcode.EndTransaction,
         L2CommandBuilder.from_opcode L2Opcode.MsgConsume,
         L2CommandBuilder.from_opcode L2Opcode.WaitNextEpoch] ∧
    L2CommandInterpreter.execute_list (L2State.init ⟨State.IE, owner, sharers⟩)
        (MOESIL2CacheProtocol.apply
          { ctxt with msg := ⟨t, o, MessageBody.AceCmdRsp pd is_⟩,
                      line := ⟨State.IE, owner, sharers⟩ } []).2.1 =
      { line := ⟨if pd then State.O else State.E, owner, sharers⟩,
        issued := [(L2MessageQueue.l2_l1__rsp_q ctxt.tstate.l1cache,
                    ⟨t, none, MessageBody.L2CmdRsp false⟩)],
        ops := [L2Opcode.EndTransaction, L2Opcode.MsgConsume, L2Opcode.WaitNextEpoch] } := by
  refine ⟨?_, ?_⟩ <;>
    simp [MOESIL2CacheProtocol.apply, MOESIL2CacheProtocol.apply_AceCmdRspMsg,
      MOESIL2CacheProtocol.issue_msg, MOESIL2CacheProtocol.issue_update_state,
      L2CommandList.push_back, LineState.state, L2CommandInterpreter.execute_list,
      L2CommandInterpreter.execute, L2CommandBuilder.from_action, L2CommandBuilder.from_opcode,
      LineUpdateAction.execute, LineState.set_state, L2State.init]

/-- C15. Local share of an Exclusive line: for a line in E and an L1GetS of
transaction `t` from the requester `r`, the list is, in order: demote the L1
copies to shared; delete the owner; add `r` to the sharers; update to S; emit
one L2L1Rsp carrying `t`, shared, to the response queue of `r`; consume; wait.
Executing it leaves the line in S with no owner and with `r` among its sharers,
issues that response and nothing else (no ACE command), and starts no
transaction. -/
theorem l2_local_share_exclusive (ctxt : L2CacheContext) (t : Option Transaction)
    (o l1 r owner : Option Agent) (sharers : Finset (Option Agent)) (addr : addr_t)
    (cl : L2CommandList) :
    (MOESIL2CacheProtocol.apply
        { ctxt with msg := ⟨t, o, MessageBody.L2Cmd L2CmdOpcode.L1GetS addr l1⟩,
                    tstate := ⟨r⟩, line := ⟨State.E, owner, sharers⟩ } cl).2.1 =
      cl ++
        [L2CommandBuilder.from_opcode L2Opcode.SetL1LinesShared,
         L2CommandBuilder.from_action
           (L2CoherenceAction.LineUpdateAction { update_ := LineUpdate.DelOwner }),
         L2CommandBuilder.from_action
           (L2CoherenceAction.LineUpdateAction { update_ := LineUpdate.AddSharer, agent_ := r }),
         L2CommandBuilder.from_action
           (L2CoherenceAction.LineUpdateAction
             { update_ := LineUpdate.SetState, state_ := State.S }),
         L2CommandBuilder.from_action
           (L2CoherenceAction.EmitMessageActionProxy (L2MessageQueue.l2_l1__rsp_q r)
             ⟨t, none, MessageBody.L2CmdRsp true⟩),
         L2CommandBuilder.from_opcode L2Opcode.MsgConsume,
         L2CommandBuilder.from_opcode L2Opcode.WaitNextEpoch] ∧
    L2CommandInterpreter.execute_list (L2State.init ⟨State.E, owner, sharers⟩)
        (MOESIL2CacheProtocol.apply
          { ctxt with msg := ⟨t, o, MessageBody.L2Cmd L2CmdOpcode.L1GetS addr l1⟩,
                      tstate := ⟨r⟩, line := ⟨State.E, owner, sharers⟩ } []).2.1 =
      { line := ⟨State.S, none, insert r sharers⟩,
        issued := [(L2MessageQueue.l2_l1__rsp_q r, ⟨t, none, MessageBody.L2CmdRsp true⟩)],
        ops := [L2Opcode.SetL1LinesShared, L2Opcode.MsgConsume, L2Opcode.WaitNextEpoch] } ∧
    r ∈ (L2CommandInterpreter.execute_list (L2State.init ⟨State.E, owner, sharers⟩)
        (MOESIL2CacheProtocol.apply
          { ctxt with msg := ⟨t, o, MessageBody.L2Cmd L2CmdOpcode.L1GetS addr l1⟩,
                      tstate := ⟨r⟩, line := ⟨State.E, owner, sharers⟩ } []).2.1).line.sharers := by
  refine ⟨?_, ?_, ?_⟩ <;>
    simp [MOESIL2CacheProtocol.apply, MOESIL2CacheProtocol.apply_L2CmdMsg,
      MOESIL2CacheProtocol.apply_AceCmdRspMsg, MOESIL2CacheProtocol.apply_AceSnpMsg,
      MOESIL2CacheProtocol.issue_msg, MOESIL2CacheProtocol.issue_update_state,
      MOESIL2CacheProtocol.issue_del_owner, MOESIL2CacheProtocol.issue_add_sharer,
      MOESIL2CacheProtocol.issue_set_owner, L2CacheContext.set_addr, AceSnpRspFlags.toMessage,
      L2CmdRspMsg_is_default, is_stable,
      L2CommandList.push_back, LineState.state, L2CommandInterpreter.execute_list,
      L2CommandInterpreter.execute, L2CommandBuilder.from_action, L2CommandBuilder.from_opcode,
      LineUpdateAction.execute, LineState.set_state, LineState.set_owner, LineState.add_sharer,
      LineState.sharers, LineState.owner, L2State.init]

/-- C16. Ownership hand-over inside a cluster: for a line in E and an L1GetE of
transaction `t` from the requester `r`, the list is, in order: invalidate the L1
copies; set the owner to `r`; emit one L2L1Rsp carrying `t`, not shared, to the
response queue of `r`; consume; wait. Executing it leaves the line in E with
owner `r`, issues that response and nothing else (no ACE command), and starts no
transaction. -/
theorem l2_ownership_hand_over (ctxt : L2CacheContext) (t : Option Transaction)
    (o l1 r owner : Option Agent) (sharers : Finset (Option Agent)) (addr : addr_t)
    (cl : L2CommandList) :
    (MOESIL2CacheProtocol.apply
        { ctxt with msg := ⟨t, o, MessageBody.L2Cmd L2CmdOpcode.L1GetE addr l1⟩,
                    tstate := ⟨r⟩, line := ⟨State.E, owner, sharers⟩ } cl).2.1 =
      cl ++
        [L2CommandBuilder.from_opcode L2Opcode.SetL1LinesInvalid,
         L2CommandBuilder.from_action
           (L2CoherenceAction.LineUpdateAction { update_ := LineUpdate.SetOwner, agent_ := r }),
         L2CommandBuilder.from_action
           (L2CoherenceAction.EmitMessageActionProxy (L2MessageQueue.l2_l1__rsp_q r)
             ⟨t, none, MessageBody.L2CmdRsp false⟩),
         L2CommandBuilder.from_opcode L2Opcode.MsgConsume,
         L2CommandBuilder.from_opcode L2Opcode.WaitNextEpoch] ∧
    L2CommandInterpreter.execute_list (L2State.init ⟨State.E, owner, sharers⟩)
        (MOESIL2CacheProtocol.apply
          { ctxt with msg := ⟨t, o, MessageBody.L2Cmd L2CmdOpcode.L1GetE addr l1⟩,
                      tstate := ⟨r⟩, line := ⟨State.E, owner, sharers⟩ } []).2.1 =
      { line := ⟨State.E, r, sharers⟩,
        issued := [(L2MessageQueue.l2_l1__rsp_q r, ⟨t, none, MessageBody.L2CmdRsp false⟩)],
        ops := [L2Opcode.SetL1LinesInvalid, L2Opcode.MsgConsume, L2Opcode.WaitNextEpoch] } := by
  refine ⟨?_, ?_⟩ <;>
    simp [MOESIL2CacheProtocol.apply, MOESIL2CacheProtocol.apply_L2CmdMsg,
      MOESIL2CacheProtocol.apply_AceCmdRspMsg, MOESIL2CacheProtocol.apply_AceSnpMsg,
      MOESIL2CacheProtocol.issue_msg, MOESIL2CacheProtocol.issue_update_state,
      MOESIL2CacheProtocol.issue_del_owner, MOESIL2CacheProtocol.issue_add_sharer,
      MOESIL2CacheProtocol.issue_set_owner, L2CacheContext.set_addr, AceSnpRspFlags.toMessage,
      L2CmdRspMsg_is_default, is_stable,
      L2CommandList.push_back, LineState.state, L2CommandInterpreter.execute_list,
      L2CommandInterpreter.execute, L2CommandBuilder.from_action, L2CommandBuilder.from_opcode,
      LineUpdateAction.execute, LineState.set_state, LineState.set_owner, LineState.add_sharer,
      LineState.sharers, LineState.owner, L2State.init]

/-- An L1GetE on a line in O: emit one `AceCmd(CleanUnique)` carrying the
transaction and address of the command, update to OE, start a transaction,
consume, wait. -/
theorem upgrade_owned_request (ctxt : L2CacheContext) (t : Option Transaction)
    (o l1 owner : Option Agent) (sharers : Finset (Option Agent)) (addr : addr_t) :
    L2CommandInterpreter.execute_list (L2State.init ⟨State.O, owner, sharers⟩)
        (MOESIL2CacheProtocol.apply
          { ctxt with msg := ⟨t, o, MessageBody.L2Cmd L2CmdOpcode.L1GetE addr l1⟩,
                      line := ⟨State.O, owner, sharers⟩ } []).2.1 =
      { line := ⟨State.OE, owner, sharers⟩,
        issued := [(L2MessageQueue.l2_cc__cmd_q,
                    ⟨t, none, MessageBody.AceCmd AceCmdOpcode.CleanUnique addr⟩)],
        ops := [L2Opcode.StartTransaction, L2Opcode.MsgConsume, L2Opcode.WaitNextEpoch] } := by
  simp [MOESIL2CacheProtocol.apply, MOESIL2CacheProtocol.apply_L2CmdMsg,
      MOESIL2CacheProtocol.apply_AceCmdRspMsg, MOESIL2CacheProtocol.apply_AceSnpMsg,
      MOESIL2CacheProtocol.issue_msg, MOESIL2CacheProtocol.issue_update_state,
      MOESIL2CacheProtocol.issue_del_owner, MOESIL2CacheProtocol.issue_add_sharer,
      MOESIL2CacheProtocol.issue_set_owner, L2CacheContext.set_addr, AceSnpRspFlags.toMessage,
      L2CmdRspMsg_is_default, is_stable,
      L2CommandList.push_back, LineState.state, L2CommandInterpreter.execute_list,
      L2CommandInterpreter.execute, L2CommandBuilder.from_action, L2CommandBuilder.from_opcode,
      LineUpdateAction.execute, LineState.set_state, LineState.set_owner, LineState.add_sharer,
      LineState.sharers, LineState.owner, L2State.init]

/-- An AceRsp on a line in OE: emit one L2L1Rsp to the response queue of the
requester, update to E, end the transaction, consume, wait. The list holds no
update of the owner and no invalidation of the L1 copies: after its execution
the owner is what it was. -/
theorem upgrade_owned_response (ctxt : L2CacheContext) (t : Option Transaction)
    (o owner : Option Agent) (sharers : Finset (Option Agent)) (is_ pd : Bool)
    (cl : L2CommandList) :
    (MOESIL2CacheProtocol.apply
        { ctxt with msg := ⟨t, o, MessageBody.AceCmdRsp pd is_⟩,
                    line := ⟨State.OE, owner, sharers⟩ } cl).2.1 =
      cl ++
        [L2CommandBuilder.from_action
           (L2CoherenceAction.EmitMessageActionProxy
             (L2MessageQueue.l2_l1__rsp_q ctxt.tstate.l1cache)
             ⟨t, none, MessageBody.L2CmdRsp false⟩),
         L2CommandBuilder.from_action
           (L2CoherenceAction.LineUpdateAction
             { update_ := LineUpdate.SetState, state_ := State.E }),
         L2CommandBuilder.from_opcode L2Opcode.EndTransaction,
         L2CommandBuilder.from_opcode L2Opcode.MsgConsume,
         L2CommandBuilder.from_opcode L2Opcode.WaitNextEpoch] ∧
    L2CommandInterpreter.execute_list (L2State.init ⟨State.OE, owner, sharers⟩)
        (MOESIL2CacheProtocol.apply
          { ctxt with msg := ⟨t, o, MessageBody.AceCmdRsp pd is_⟩,
                      line := ⟨State.OE, owner, sharers⟩ } []).2.1 =
      { line := ⟨State.E, owner, sharers⟩,
        issued := [(L2MessageQueue.l2_l1__rsp_q ctxt.tstate.l1cache,
                    ⟨t, none, MessageBody.L2CmdRsp false⟩)],
        ops := [L2Opcode.EndTransaction, L2Opcode.MsgConsume, L2Opcode.WaitNextEpoch] } := by
  refine ⟨?_, ?_⟩ <;>
    simp [MOESIL2CacheProtocol.apply, MOESIL2CacheProtocol.apply_L2CmdMsg,
      MOESIL2CacheProtocol.apply_AceCmdRspMsg, MOESIL2CacheProtocol.apply_AceSnpMsg,
      MOESIL2CacheProtocol.issue_msg, MOESIL2CacheProtocol.issue_update_state,
      MOESIL2CacheProtocol.issue_del_owner, MOESIL2CacheProtocol.issue_add_sharer,
      MOESIL2CacheProtocol.issue_set_owner, L2CacheContext.set_addr, AceSnpRspFlags.toMessage,
      L2CmdRspMsg_is_default, is_stable,
      L2CommandList.push_back, LineState.state, L2CommandInterpreter.execute_list,
      L2CommandInterpreter.execute, L2CommandBuilder.from_action, L2CommandBuilder.from_opcode,
      LineUpdateAction.execute, LineState.set_state, LineState.set_owner, LineState.add_sharer,
      LineState.sharers, LineState.owner, L2State.init]

/-- C17. Upgrade of an Owned line, on a line in O without owner and an L1GetE
of transaction 1 from the L1 cache 7: the request moves the line to OE and
issues `AceCmd(CleanUnique)`; the AceRsp then moves the line to E, answers the
requester and ends the transaction, but the owner stays null instead of
becoming 7 and no invalidation of the L1 copies is performed. -/
theorem l2_upgrade_owned_keeps_owner :
    (L2CommandInterpreter.execute_list (L2State.init ⟨State.O, none, ∅⟩)
        (MOESIL2CacheProtocol.apply
          { msg := ⟨some 1, some 7, MessageBody.L2Cmd L2CmdOpcode.L1GetE 64 (some 7)⟩,
            line := ⟨State.O, none, ∅⟩, tstate := ⟨some 7⟩, addr := 64,
            silently_evicted := false } []).2.1).line = ⟨State.OE, none, ∅⟩ ∧
    L2CommandInterpreter.execute_list (L2State.init ⟨State.OE, none, ∅⟩)
        (MOESIL2CacheProtocol.apply
          { msg := ⟨some 1, none, MessageBody.AceCmdRsp false false⟩,
            line := ⟨State.OE, none, ∅⟩, tstate := ⟨some 7⟩, addr := 64,
            silently_evicted := false } []).2.1 =
      { line := ⟨State.E, none, ∅⟩,
        issued := [(L2MessageQueue.l2_l1__rsp_q (some 7),
                    ⟨some 1, none, MessageBody.L2CmdRsp false⟩)],
        ops := [L2Opcode.EndTransaction, L2Opcode.MsgConsume, L2Opcode.WaitNextEpoch] } ∧
    (L2CommandInterpreter.execute_list (L2State.init ⟨State.OE, none, ∅⟩)
        (MOESIL2CacheProtocol.apply
          { msg := ⟨some 1, none, MessageBody.AceCmdRsp false false⟩,
            line := ⟨State.OE, none, ∅⟩, tstate := ⟨some 7⟩, addr := 64,
            silently_evicted := false } []).2.1).line.owner ≠ some 7 ∧
    L2Opcode.SetL1LinesInvalid ∉
      (L2CommandInterpreter.execute_list (L2State.init ⟨State.OE, none, ∅⟩)
        (MOESIL2CacheProtocol.apply
          { msg := ⟨some 1, none, MessageBody.AceCmdRsp false false⟩,
            line := ⟨State.OE, none, ∅⟩, tstate := ⟨some 7⟩, addr := 64,
            silently_evicted := false } []).2.1).ops := by
  refine ⟨?_, ?_, ?_, ?_⟩ <;>
    simp [MOESIL2CacheProtocol.apply, MOESIL2CacheProtocol.apply_L2CmdMsg,
      MOESIL2CacheProtocol.apply_AceCmdRspMsg, MOESIL2CacheProtocol.apply_AceSnpMsg,
      MOESIL2CacheProtocol.issue_msg, MOESIL2CacheProtocol.issue_update_state,
      MOESIL2CacheProtocol.issue_del_owner, MOESIL2CacheProtocol.issue_add_sharer,
      MOESIL2CacheProtocol.issue_set_owner, L2CacheContext.set_addr, AceSnpRspFlags.toMessage,
      L2CmdRspMsg_is_default, is_stable,
      L2CommandList.push_back, LineState.state, L2CommandInterpreter.execute_list,
      L2CommandInterpreter.execute, L2CommandBuilder.from_action, L2CommandBuilder.from_opcode,
      LineUpdateAction.execute, LineState.set_state, LineState.set_owner, LineState.add_sharer,
      LineState.sharers, LineState.owner, L2State.init]

/-- A ReadShared snoop on a line in M that has not been silently evicted: update
to O, demote the L1 copies to shared, emit one AceSnpRsp with `dt`, `is` and
`wu` set and `pd` clear to the snoop response queue, consume, wait. -/
theorem readshared_snoop_modified (ctxt : L2CacheContext) (t : Option Transaction)
    (o owner : Option Agent) (sharers : Finset (Option Agent)) (addr : addr_t)
    (cl : L2CommandList) :
    (MOESIL2CacheProtocol.apply
        { ctxt with msg := ⟨t, o, MessageBody.AceSnoop AceSnpOpcode.ReadShared addr⟩,
                    silently_evicted := false,
                    line := ⟨State.M, owner, sharers⟩ } cl).2.1 =
      cl ++
        [L2CommandBuilder.from_action
           (L2CoherenceAction.LineUpdateAction
             { update_ := LineUpdate.SetState, state_ := State.O }),
         L2CommandBuilder.from_opcode L2Opcode.SetL1LinesShared,
         L2CommandBuilder.from_action
           (L2CoherenceAction.EmitMessageActionProxy L2MessageQueue.l2_cc__snprsp_q
             ⟨t, none, MessageBody.AceSnoopRsp true false true true⟩),
         L2CommandBuilder.from_opcode L2Opcode.MsgConsume,
         L2CommandBuilder.from_opcode L2Opcode.WaitNextEpoch] ∧
    L2CommandInterpreter.execute_list (L2State.init ⟨State.M, owner, sharers⟩)
        (MOESIL2CacheProtocol.apply
          { ctxt with msg := ⟨t, o, MessageBody.AceSnoop AceSnpOpcode.ReadShared addr⟩,
                      silently_evicted := false,
                      line := ⟨State.M, owner, sharers⟩ } []).2.1 =
      { line := ⟨State.O, owner, sharers⟩,
        issued := [(L2MessageQueue.l2_cc__snprsp_q,
                    ⟨t, none, MessageBody.AceSnoopRsp true false true true⟩)],
        ops := [L2Opcode.SetL1LinesShared, L2Opcode.MsgConsume, L2Opcode.WaitNextEpoch] } := by
  refine ⟨?_, ?_⟩ <;>
    simp [MOESIL2CacheProtocol.apply, MOESIL2CacheProtocol.apply_AceSnpMsg,
      MOESIL2CacheProtocol.issue_msg, MOESIL2CacheProtocol.issue_update_state,
      L2CacheContext.set_addr, AceSnpRspFlags.toMessage, is_stable,
      L2CommandList.push_back, LineState.state, L2CommandInterpreter.execute_list,
      L2CommandInterpreter.execute, L2CommandBuilder.from_action, L2CommandBuilder.from_opcode,
      LineUpdateAction.execute, LineState.set_state, L2State.init]

/-- A ReadShared snoop on a line in O that has not been silently evicted: the
switch on the state takes its default branch, so the list is only: emit one
AceSnpRsp with every flag clear, consume, wait. -/
theorem readshared_snoop_owned (ctxt : L2CacheContext) (t : Option Transaction)
    (o owner : Option Agent) (sharers : Finset (Option Agent)) (addr : addr_t)
    (cl : L2CommandList) :
    (MOESIL2CacheProtocol.apply
        { ctxt with msg := ⟨t, o, MessageBody.AceSnoop AceSnpOpcode.ReadShared addr⟩,
                    silently_evicted := false,
                    line := ⟨State.O, owner, sharers⟩ } cl).2.1 =
      cl ++
        [L2CommandBuilder.from_action
           (L2CoherenceAction.EmitMessageActionProxy L2MessageQueue.l2_cc__snprsp_q
             ⟨t, none, MessageBody.AceSnoopRsp false false false false⟩),
         L2CommandBuilder.from_opcode L2Opcode.MsgConsume,
         L2CommandBuilder.from_opcode L2Opcode.WaitNextEpoch] := by
  simp [MOESIL2CacheProtocol.apply, MOESIL2CacheProtocol.apply_AceSnpMsg,
      MOESIL2CacheProtocol.issue_msg, MOESIL2CacheProtocol.issue_update_state,
      L2CacheContext.set_addr, AceSnpRspFlags.toMessage, is_stable,
      L2CommandList.push_back, LineState.state, L2CommandInterpreter.execute_list,
      L2CommandInterpreter.execute, L2CommandBuilder.from_action, L2CommandBuilder.from_opcode,
      LineUpdateAction.execute, LineState.set_state, L2State.init]

/-- C18. ReadShared snoop on a dirty line, on a line in O (transaction 1,
address 64, line present): the line stays in O, but the AceSnpRsp issued to the
controller has `dt` and `is` clear, and no demotion of the L1 copies is
performed before the snoop is consumed. -/
theorem l2_readshared_snoop_owned_no_demotion :
    L2CommandInterpreter.execute_list (L2State.init ⟨State.O, none, ∅⟩)
        (MOESIL2CacheProtocol.apply
          { msg := ⟨some 1, none, MessageBody.AceSnoop AceSnpOpcode.ReadShared 64⟩,
            line := ⟨State.O, none, ∅⟩, tstate := ⟨none⟩, addr := 0,
            silently_evicted := false } []).2.1 =
      { line := ⟨State.O, none, ∅⟩,
        issued := [(L2MessageQueue.l2_cc__snprsp_q,
                    ⟨some 1, none, MessageBody.AceSnoopRsp false false false false⟩)],
        ops := [L2Opcode.MsgConsume, L2Opcode.WaitNextEpoch] } ∧
    L2Opcode.SetL1LinesShared ∉
      (L2CommandInterpreter.execute_list (L2State.init ⟨State.O, none, ∅⟩)
        (MOESIL2CacheProtocol.apply
          { msg := ⟨some 1, none, MessageBody.AceSnoop AceSnpOpcode.ReadShared 64⟩,
            line := ⟨State.O, none, ∅⟩, tstate := ⟨none⟩, addr := 0,
            silently_evicted := false } []).2.1).ops := by
  refine ⟨?_, ?_⟩ <;>
    simp [MOESIL2CacheProtocol.apply, MOESIL2CacheProtocol.apply_AceSnpMsg,
      MOESIL2CacheProtocol.issue_msg, MOESIL2CacheProtocol.issue_update_state,
      L2CacheContext.set_addr, AceSnpRspFlags.toMessage, is_stable,
      L2CommandList.push_back, LineState.state, L2CommandInterpreter.execute_list,
      L2CommandInterpreter.execute, L2CommandBuilder.from_action, L2CommandBuilder.from_opcode,
      LineUpdateAction.execute, LineState.set_state, L2State.init]

/-- A ReadUnique snoop on a line in any state: emit one AceSnpRsp to the snoop
response queue, update to I, remove the line, invalidate the L1 copies, consume,
wait. In the response `dt` and `wu` are set exactly in the stable states, `pd`
exactly in M and O, and `is` is clear. -/
theorem readunique_snoop (ctxt : L2CacheContext) (t : Option Transaction)
    (o owner : Option Agent) (sharers : Finset (Option Agent)) (addr : addr_t)
    (st : State) (cl : L2CommandList) :
    (MOESIL2CacheProtocol.apply
        { ctxt with msg := ⟨t, o, MessageBody.AceSnoop AceSnpOpcode.ReadUnique addr⟩,
                    line := ⟨st, owner, sharers⟩ } cl).2.1 =
      cl ++
        [L2CommandBuilder.from_action
           (L2CoherenceAction.EmitMessageActionProxy L2MessageQueue.l2_cc__snprsp_q
             ⟨t, none, MessageBody.AceSnoopRsp (is_stable st)
               (decide (st = State.M ∨ st = State.O)) false (is_stable st)⟩),
         L2CommandBuilder.from_action
           (L2CoherenceAction.LineUpdateAction
             { update_ := LineUpdate.SetState, state_ := State.I }),
         L2CommandBuilder.from_opcode L2Opcode.RemoveLine,
         L2CommandBuilder.from_opcode L2Opcode.SetL1LinesInvalid,
         L2CommandBuilder.from_opcode L2Opcode.MsgConsume,
         L2CommandBuilder.from_opcode L2Opcode.WaitNextEpoch] ∧
    L2CommandInterpreter.execute_list (L2State.init ⟨st, owner, sharers⟩)
        (MOESIL2CacheProtocol.apply
          { ctxt with msg := ⟨t, o, MessageBody.AceSnoop AceSnpOpcode.ReadUnique addr⟩,
                      line := ⟨st, owner, sharers⟩ } []).2.1 =
      { line := ⟨State.I, owner, sharers⟩,
        issued := [(L2MessageQueue.l2_cc__snprsp_q,
                    ⟨t, none, MessageBody.AceSnoopRsp (is_stable st)
                      (decide (st = State.M ∨ st = State.O)) false (is_stable st)⟩)],
        ops := [L2Opcode.RemoveLine, L2Opcode.SetL1LinesInvalid, L2Opcode.MsgConsume,
                L2Opcode.WaitNextEpoch] } := by
  refine ⟨?_, ?_⟩ <;> cases st <;>
    simp [MOESIL2CacheProtocol.apply, MOESIL2CacheProtocol.apply_AceSnpMsg,
      MOESIL2CacheProtocol.issue_msg, MOESIL2CacheProtocol.issue_update_state,
      L2CacheContext.set_addr, AceSnpRspFlags.toMessage, is_stable,
      L2CommandList.push_back, LineState.state, L2CommandInterpreter.execute_list,
      L2CommandInterpreter.execute, L2CommandBuilder.from_action, L2CommandBuilder.from_opcode,
      LineUpdateAction.execute, LineState.set_state, L2State.init]

/-- C19. ReadUnique snoop, on a line in the transient state IS (transaction 1,
address 64): the line ends in I, is removed and the L1 copies are invalidated,
but the AceSnpRsp issued to the controller has `dt` clear. -/
theorem l2_readunique_snoop_transient_no_dt :
    L2CommandInterpreter.execute_list (L2State.init ⟨State.IS, none, ∅⟩)
        (MOESIL2CacheProtocol.apply
          { msg := ⟨some 1, none, MessageBody.AceSnoop AceSnpOpcode.ReadUnique 64⟩,
            line := ⟨State.IS, none, ∅⟩, tstate := ⟨none⟩, addr := 0,
            silently_evicted := false } []).2.1 =
      { line := ⟨State.I, none, ∅⟩,
        issued := [(L2MessageQueue.l2_cc__snprsp_q,
                    ⟨some 1, none, MessageBody.AceSnoopRsp false false false false⟩)],
        ops := [L2Opcode.RemoveLine, L2Opcode.SetL1LinesInvalid, L2Opcode.MsgConsume,
                L2Opcode.WaitNextEpoch] } := by
  simp [MOESIL2CacheProtocol.apply, MOESIL2CacheProtocol.apply_AceSnpMsg,
      MOESIL2CacheProtocol.issue_msg, MOESIL2CacheProtocol.issue_update_state,
      L2CacheContext.set_addr, AceSnpRspFlags.toMessage, is_stable,
      L2CommandList.push_back, LineState.state, L2CommandInterpreter.execute_list,
      L2CommandInterpreter.execute, L2CommandBuilder.from_action, L2CommandBuilder.from_opcode,
      LineUpdateAction.execute, LineState.set_state, L2State.init]

/-- C20. Invalidating snoops: for a line in any state, a CleanInvalid or a
MakeInvalid snoop of transaction `t` leaves the line in I: the list updates the
line to I, removes it, invalidates the L1 copies and consumes the snoop, and it
issues exactly one AceSnpRsp carrying `t` to the snoop response queue. For
CleanInvalid the response has `dt` and `pd` both set when the line was in M or O
and both clear otherwise; for MakeInvalid both are clear whatever the state. -/
theorem l2_invalidating_snoops (ctxt : L2CacheContext) (t : Option Transaction)
    (o owner : Option Agent) (sharers : Finset (Option Agent)) (addr : addr_t)
    (st : State) (cl : L2CommandList) :
    (MOESIL2CacheProtocol.apply
        { ctxt with msg := ⟨t, o, MessageBody.AceSnoop AceSnpOpcode.CleanInvalid addr⟩,
                    line := ⟨st, owner, sharers⟩ } cl).2.1 =
      cl ++
        (if is_stable st then
          [L2CommandBuilder.from_action
            (L2CoherenceAction.LineUpdateAction
              { update_ := LineUpdate.SetState, state_ := State.I })]
         else []) ++
        [L2CommandBuilder.from_action
           (L2CoherenceAction.EmitMessageActionProxy L2MessageQueue.l2_cc__snprsp_q
             ⟨t, none, MessageBody.AceSnoopRsp (decide (st = State.M ∨ st = State.O))
               (decide (st = State.M ∨ st = State.O)) false false⟩),
         L2CommandBuilder.from_action
           (L2CoherenceAction.LineUpdateAction
             { update_ := LineUpdate.SetState, state_ := State.I }),
         L2CommandBuilder.from_opcode L2Opcode.RemoveLine,
         L2CommandBuilder.from_opcode L2Opcode.SetL1LinesInvalid,
         L2CommandBuilder.from_opcode L2Opcode.MsgConsume,
         L2CommandBuilder.from_opcode L2Opcode.WaitNextEpoch] ∧
    L2CommandInterpreter.execute_list (L2State.init ⟨st, owner, sharers⟩)
        (MOESIL2CacheProtocol.apply
          { ctxt with msg := ⟨t, o, MessageBody.AceSnoop AceSnpOpcode.CleanInvalid addr⟩,
                      line := ⟨st, owner, sharers⟩ } []).2.1 =
      { line := ⟨State.I, owner, sharers⟩,
        issued := [(L2MessageQueue.l2_cc__snprsp_q,
                    ⟨t, none, MessageBody.AceSnoopRsp (decide (st = State.M ∨ st = State.O))
                      (decide (st = State.M ∨ st = State.O)) false false⟩)],
        ops := [L2Opcode.RemoveLine, L2Opcode.SetL1LinesInvalid, L2Opcode.MsgConsume,
                L2Opcode.WaitNextEpoch] } ∧
    (MOESIL2CacheProtocol.apply
        { ctxt with msg := ⟨t, o, MessageBody.AceSnoop AceSnpOpcode.MakeInvalid addr⟩,
                    line := ⟨st, owner, sharers⟩ } cl).2.1 =
      cl ++
        (if is_stable st then
          [L2CommandBuilder.from_action
            (L2CoherenceAction.LineUpdateAction
              { update_ := LineUpdate.SetState, state_ := State.I })]
         else []) ++
        [L2CommandBuilder.from_action
           (L2CoherenceAction.EmitMessageActionProxy L2MessageQueue.l2_cc__snprsp_q
             ⟨t, none, MessageBody.AceSnoopRsp false false false false⟩),
         L2CommandBuilder.from_action
           (L2CoherenceAction.LineUpdateAction
             { update_ := LineUpdate.SetState, state_ := State.I }),
         L2CommandBuilder.from_opcode L2Opcode.RemoveLine,
         L2CommandBuilder.from_opcode L2Opcode.SetL1LinesInvalid,
         L2CommandBuilder.from_opcode L2Opcode.MsgConsume,
         L2CommandBuilder.from_opcode L2Opcode.WaitNextEpoch] ∧
    L2CommandInterpreter.execute_list (L2State.init ⟨st, owner, sharers⟩)
        (MOESIL2CacheProtocol.apply
          { ctxt with msg := ⟨t, o, MessageBody.AceSnoop AceSnpOpcode.MakeInvalid addr⟩,
                      line := ⟨st, owner, sharers⟩ } []).2.1 =
      { line := ⟨State.I, owner, sharers⟩,
        issued := [(L2MessageQueue.l2_cc__snprsp_q,
                    ⟨t, none, MessageBody.AceSnoopRsp false false false false⟩)],
        ops := [L2Opcode.RemoveLine, L2Opcode.SetL1LinesInvalid, L2Opcode.MsgConsume,
                L2Opcode.WaitNextEpoch] } := by
  refine ⟨?_, ?_, ?_, ?_⟩ <;> cases st <;>
    simp [MOESIL2CacheProtocol.apply, MOESIL2CacheProtocol.apply_AceSnpMsg,
      MOESIL2CacheProtocol.issue_msg, MOESIL2CacheProtocol.issue_update_state,
      L2CacheContext.set_addr, AceSnpRspFlags.toMessage, is_stable,
      L2CommandList.push_back, LineState.state, L2CommandInterpreter.execute_list,
      L2CommandInterpreter.execute, L2CommandBuilder.from_action, L2CommandBuilder.from_opcode,
      LineUpdateAction.execute, LineState.set_state, L2State.init]

end moesi_l2

/-! ## Table -/

namespace Table

variable {K V : Type}

theorem size_install_of_contains [DecidableEq K] (t : Table K V) (k : K) (v : V)
    (h : t.contains k = true) : (t.install k v).size = t.size := by
  simp [Table.install, Table.size, h]

theorem size_install_of_not_contains [DecidableEq K] (t : Table K V) (k : K) (v : V)
    (h : t.contains k = false) : (t.install k v).size = t.size + 1 := by
  simp [Table.install, Table.size, h]

theorem n_install [DecidableEq K] (t : Table K V) (k : K) (v : V) :
    (t.install k v).n = t.n := rfl

theorem size_remove [DecidableEq K] (t : Table K V) (k : K) :
    (t.remove k).1.size = if t.contains k then t.size - 1 else t.size := by
  unfold Table.remove
  cases h : t.contains k
  · simp
  · simp only [if_true, Table.size, List.length_eraseP]
    simp only [Table.contains] at h
    simp [h]

theorem n_remove [DecidableEq K] (t : Table K V) (k : K) : (t.remove k).1.n = t.n := by
  unfold Table.remove
  cases t.contains k <;> rfl

theorem size_pos_of_contains [DecidableEq K] (t : Table K V) (k : K)
    (h : t.contains k = true) : 0 < t.size := by
  simp only [Table.contains, List.any_eq_true] at h
  obtain ⟨x, hx, _⟩ := h
  exact List.length_pos_of_mem hx

/-- A checked call sequence keeps the number of entries within the declared
size. -/
theorem size_le_of_checked [DecidableEq K] (ops : List (TableOp K V)) :
    ∀ t : Table K V, t.size ≤ t.n → t.Checked ops → (t.run ops).size ≤ t.n := by
  induction ops with
  | nil => intro t h _; exact h
  | cons op ops ih =>
    intro t h hc
    cases op with
    | install k v =>
      obtain ⟨hguard, hrest⟩ := hc
      have hstep : (t.install k v).size ≤ (t.install k v).n := by
        rw [n_install]
        cases hk : t.contains k
        · rw [size_install_of_not_contains t k v hk]
          rcases hguard with h1 | h1
          · rw [hk] at h1
            exact absurd h1 (by decide)
          · simp only [Table.full, decide_eq_false_iff_not] at h1
            omega
        · rw [size_install_of_contains t k v hk]
          exact h
      have := ih (t.install k v) hstep hrest
      rw [n_install] at this
      exact this
    | remove k =>
      have hstep : (t.remove k).1.size ≤ (t.remove k).1.n := by
        rw [n_remove, size_remove]
        split <;> omega
      have := ih (t.remove k).1 hstep hc
      rw [n_remove] at this
      exact this

end Table

/-- C28, as stated. On a table of declared size 1, two `install` calls with
distinct keys leave `size() == 2` while `n() == 1`. -/
theorem table_install_exceeds_capacity :
    ((Table.new 1 : Table Nat Nat).run [TableOp.install 1 0, TableOp.install 2 0]).size = 2 ∧
      ((Table.new 1 : Table Nat Nat).run [TableOp.install 1 0, TableOp.install 2 0]).n = 1 ∧
      ¬ ((Table.new 1 : Table Nat Nat).run [TableOp.install 1 0, TableOp.install 2 0]).size ≤
          ((Table.new 1 : Table Nat Nat).run [TableOp.install 1 0, TableOp.install 2 0]).n := by
  decide

/-- C28, amended. `install(k, v)` never refuses: it adds one entry when the key
is new and none when the key is held, whatever the declared size; `remove` never
adds one. So for every declared size `n` and every call sequence from the empty
table in which a new key is installed only while `full()` is false,
`size() <= n()` holds after the calls. -/
theorem table_bounded_when_checked {K V : Type} [DecidableEq K] (n : Nat)
    (ops : List (TableOp K V)) (h : (Table.new n : Table K V).Checked ops) :
    ((Table.new n : Table K V).run ops).size ≤ n ∧
      (∀ (t : Table K V) (k : K) (v : V),
        (t.install k v).size = if t.contains k then t.size else t.size + 1) ∧
      (∀ (t : Table K V) (k : K), (t.remove k).1.size ≤ t.size) := by
  refine ⟨?_, ?_, ?_⟩
  · exact Table.size_le_of_checked ops (Table.new n) (Nat.zero_le n) h
  · intro t k v
    cases hk : t.contains k
    · simp [Table.size_install_of_not_contains t k v hk]
    · simp [Table.size_install_of_contains t k v hk]
  · intro t k
    rw [Table.size_remove]
    split <;> omega

/-- C28, amended, on a table of declared size 2: two installs, a re-install of a
held key while full, a removal and an install of a new key. -/
theorem table_bounded_when_checked_witness :
    (Table.new 2 : Table Nat Nat).Checked
        [TableOp.install 1 0, TableOp.install 2 0, TableOp.install 1 5, TableOp.remove 1,
         TableOp.install 3 0] ∧
      ((Table.new 2 : Table Nat Nat).run
        [TableOp.install 1 0, TableOp.install 2 0, TableOp.install 1 5, TableOp.remove 1,
         TableOp.install 3 0]).size ≤ 2 :=
  ⟨by simp [Table.Checked, Table.new, Table.install, Table.remove, Table.contains, Table.full,
      Table.size, Table.n],
   (table_bounded_when_checked 2
      [TableOp.install 1 0, TableOp.install 2 0, TableOp.install 1 5, TableOp.remove 1,
       TableOp.install 3 0]
      (by simp [Table.Checked, Table.new, Table.install, Table.remove, Table.contains,
        Table.full, Table.size, Table.n])).1⟩

/-- C29. `remove(k)` notifies the non-full event exactly when the table was full
(`size() == n()`) before the call and held the key, that is exactly when the
size goes from the declared size to below it; otherwise it notifies nothing;
removing a key the table does not hold leaves the table as it was. -/
theorem table_remove_non_full {K V : Type} [DecidableEq K] (t : Table K V) (k : K) :
    ((t.remove k).2 = [TableEvent.non_full_event] ↔
        (t.size = t.n ∧ t.contains k = true)) ∧
      ((t.remove k).2 = [TableEvent.non_full_event] ↔
        (t.size = t.n ∧ (t.remove k).1.size < t.n)) ∧
      (¬ (t.size = t.n ∧ t.contains k = true) → (t.remove k).2 = []) ∧
      (t.contains k = false → t.remove k = (t, [])) := by
  have hsize := Table.size_remove t k
  cases hk : t.contains k
  · have hrem : t.remove k = (t, []) := by simp [Table.remove, hk]
    rw [hrem]
    simp only [List.nil_eq, List.cons_ne_self, reduceCtorEq, Bool.false_eq_true, and_false,
      false_iff, not_and, not_false_eq_true, implies_true, true_and, and_true]
    intro h1
    omega
  · have hpos := Table.size_pos_of_contains t k hk
    rw [hk] at hsize
    simp only [if_true] at hsize
    by_cases hf : t.size = t.n
    · have hev : (t.remove k).2 = [TableEvent.non_full_event] := by
        simp [Table.remove, hk, Table.full, hf]
      rw [hev, hsize]
      refine ⟨by simp [hf], ?_, by simp [hf], by simp⟩
      simp only [true_iff]
      exact ⟨hf, by omega⟩
    · have hev : (t.remove k).2 = [] := by
        simp [Table.remove, hk, Table.full, hf]
      rw [hev]
      simp [hf]

/-- C29, on a full table of declared size 2 holding the keys 1 and 2: removing
key 1 notifies the non-full event. -/
theorem table_remove_non_full_witness :
    (({ n_ := 2, m_ := [(1, 0), (2, 0)] } : Table Nat Nat).remove 1).2 =
      [TableEvent.non_full_event] :=
  (table_remove_non_full ({ n_ := 2, m_ := [(1, 0), (2, 0)] } : Table Nat Nat) 1).1.mpr
    ⟨by decide, by decide⟩

/-- C30. Transition events of a queue. A successful `enqueue` (the queue is not
full) notifies non-empty exactly when the queue was empty before the call, and
then the enqueue event; a successful `dequeue` (the queue is not empty) notifies
non-full exactly when the queue was full before the call, and then the dequeue
event; a failing call notifies nothing. On every queue reached from a freshly
constructed one of capacity at least one, the empty flag is `size() == 0` and the
full flag is `size() == n()`. -/
theorem queue_transition_events {T : Type} [Inhabited T] (q : Queue T) (t : T) :
    (q.full = false →
        (q.enqueue t).1 = true ∧
        (q.enqueue t).2.2 =
          (if q.empty then [QueueEvent.non_empty_event] else []) ++
            [QueueEvent.enqueue_event]) ∧
      (q.full = true → (q.enqueue t).1 = false ∧ (q.enqueue t).2.2 = []) ∧
      (q.empty = false →
        q.dequeue.1.isSome = true ∧
        q.dequeue.2.2 =
          (if q.full then [QueueEvent.non_full_event] else []) ++
            [QueueEvent.dequeue_event]) ∧
      (q.empty = true → q.dequeue.1 = none ∧ q.dequeue.2.2 = []) ∧
      (∀ (n : Nat) (ops : List (QueueOp T)), 1 ≤ n →
        ((QueueRun.fresh n).run ops).q.empty =
            decide (((QueueRun.fresh n).run ops).q.size = 0) ∧
          ((QueueRun.fresh n).run ops).q.full =
            decide (((QueueRun.fresh n).run ops).q.size = ((QueueRun.fresh n).run ops).q.n)) := by
  refine ⟨?_, ?_, ?_, ?_, ?_⟩
  · intro h
    simp [Queue.enqueue, h]
  · intro h
    simp [Queue.enqueue, h]
  · intro h
    simp [Queue.dequeue, h]
  · intro h
    simp [Queue.dequeue, h]
  · intro n ops hn
    obtain ⟨hinv, _, _⟩ := QueueRun.good_run n ops _ (QueueRun.good_fresh n hn)
    obtain ⟨_, _, _, _, hfull, hempty⟩ := hinv
    exact ⟨hempty, hfull⟩

/-- C30, on a fresh queue of capacity 1: the first `enqueue` notifies non-empty
and then the enqueue event. -/
theorem queue_transition_events_witness :
    (Queue.new 1 : Queue Nat).full = false ∧
      ((Queue.new 1 : Queue Nat).enqueue 5).2.2 =
        [QueueEvent.non_empty_event, QueueEvent.enqueue_event] :=
  ⟨by decide,
   ((queue_transition_events (Queue.new 1 : Queue Nat) 5).1 (by decide)).2⟩

/-! ## Cache controller: resources and dispatcher -/

namespace moesi_cc

/-- C27, as stated. The emission of a DtRsp to agent 9 requires one NOC credit
and no credit of any class towards agent 9. -/
theorem noc_emission_dtrsp_no_class_credit :
    (CCCoherenceAction.set_resources {}
        (CCCoherenceAction.EmitMessageToNocAction
          { t := some 1, origin := some 2, payload := ⟨some 1, some 2, MessageBody.DtRsp⟩,
            dest := some 9 } 0)).noc_credit_n = 1 ∧
    (CCCoherenceAction.set_resources {}
        (CCCoherenceAction.EmitMessageToNocAction
          { t := some 1, origin := some 2, payload := ⟨some 1, some 2, MessageBody.DtRsp⟩,
            dest := some 9 } 0)).coh_srt_n (some 9) = 0 ∧
    (CCCoherenceAction.set_resources {}
        (CCCoherenceAction.EmitMessageToNocAction
          { t := some 1, origin := some 2, payload := ⟨some 1, some 2, MessageBody.DtRsp⟩,
            dest := some 9 } 0)).coh_cmd_n (some 9) = 0 ∧
    (CCCoherenceAction.set_resources {}
        (CCCoherenceAction.EmitMessageToNocAction
          { t := some 1, origin := some 2, payload := ⟨some 1, some 2, MessageBody.DtRsp⟩,
            dest := some 9 } 0)).dt_n (some 9) = 0 := by
  simp [CCCoherenceAction.set_resources, CCResources.set_noc_credit_n, Message.cls]

/-- C27, amended. For every message the controller emits to the NOC the
requirement computed by `set_resources` is exactly one NOC credit, plus exactly
one credit of the class of the message towards its destination when the class
is CohSrt, CohCmd or Dt; for every other class (DtRsp, CohSnpRsp) no credit of
any class is required. The queue entries towards the L2 are not touched. -/
theorem noc_emission_cost (r : CCResources) (msg : NocMsg) (delay : time_t) :
    (CCCoherenceAction.set_resources r
        (CCCoherenceAction.EmitMessageToNocAction msg delay)).noc_credit_n =
      r.noc_credit_n + 1 ∧
    (∀ a, (CCCoherenceAction.set_resources r
        (CCCoherenceAction.EmitMessageToNocAction msg delay)).coh_srt_n a =
      r.coh_srt_n a + if msg.payload.cls = MessageClass.CohSrt ∧ a = msg.dest then 1 else 0) ∧
    (∀ a, (CCCoherenceAction.set_resources r
        (CCCoherenceAction.EmitMessageToNocAction msg delay)).coh_cmd_n a =
      r.coh_cmd_n a + if msg.payload.cls = MessageClass.CohCmd ∧ a = msg.dest then 1 else 0) ∧
    (∀ a, (CCCoherenceAction.set_resources r
        (CCCoherenceAction.EmitMessageToNocAction msg delay)).dt_n a =
      r.dt_n a + if msg.payload.cls = MessageClass.Dt ∧ a = msg.dest then 1 else 0) ∧
    (CCCoherenceAction.set_resources r
        (CCCoherenceAction.EmitMessageToNocAction msg delay)).cmd_q_n = r.cmd_q_n ∧
    (CCCoherenceAction.set_resources r
        (CCCoherenceAction.EmitMessageToNocAction msg delay)).rsp_q_n = r.rsp_q_n := by
  simp only [CCCoherenceAction.set_resources]
  cases h : msg.payload.cls <;>
    simp [CCResources.set_noc_credit_n, CCResources.set_coh_srt_n, CCResources.set_coh_cmd_n,
      CCResources.set_dt_n, Function.update_apply] <;>
    intro a <;> split <;> simp_all

end moesi_cc

namespace CCModel

/-- The gate of the dispatcher lets every command list through. -/
theorem can_execute_always (cl : moesi_cc.CCCommandList) : RdisProcess.can_execute cl = true :=
  rfl

/-- C25. On a cache controller whose transaction table already holds its 16
entries, `eval()` with an AceCmd of transaction 99 at the head of the nominated
queue executes the command list all the same: the head message is consumed, the
transaction is entered as a 17th entry, and two messages go to the NOC. -/
theorem cc_eval_executes_without_capacity :
    ((List.range 16).map some : List (Option Transaction)).length = tt_n ∧
    (RdisProcess.eval ⟨fun _ => 1, fun c => c⟩
        { id := 1, dm_lookup := fun _ => some 9, ccntrs_map := fun _ _ => none,
          noc_ingress_cc := 0 }
        10 (some ⟨some 99, some 5, MessageBody.AceCmd AceCmdOpcode.ReadShared 64⟩)
        (fun _ => none)
        { (moesi_cc.CCState.init {}) with tt := (List.range 16).map some }).1.consumed = 1 ∧
    (RdisProcess.eval ⟨fun _ => 1, fun c => c⟩
        { id := 1, dm_lookup := fun _ => some 9, ccntrs_map := fun _ _ => none,
          noc_ingress_cc := 0 }
        10 (some ⟨some 99, some 5, MessageBody.AceCmd AceCmdOpcode.ReadShared 64⟩)
        (fun _ => none)
        { (moesi_cc.CCState.init {}) with tt := (List.range 16).map some }).1.tt.length = 17 ∧
    (RdisProcess.eval ⟨fun _ => 1, fun c => c⟩
        { id := 1, dm_lookup := fun _ => some 9, ccntrs_map := fun _ _ => none,
          noc_ingress_cc := 0 }
        10 (some ⟨some 99, some 5, MessageBody.AceCmd AceCmdOpcode.ReadShared 64⟩)
        (fun _ => none)
        { (moesi_cc.CCState.init {}) with tt := (List.range 16).map some }).1.noc_ingress.length
      = 2 := by
  refine ⟨by decide, ?_, ?_, ?_⟩ <;>
    simp [RdisProcess.eval, RdisProcess.can_execute, Message.cls,
      moesi_cc.MOESICCProtocol.apply, moesi_cc.MOESICCProtocol.eval_msg_AceCmdMsg,
      moesi_cc.MOESICCProtocol.issue_apply_msg, moesi_cc.MOESICCProtocol.issue_msg_to_noc,
      moesi_cc.MOESICCProtocol.issue_line_update, moesi_cc.CCCommandList.push_back_action,
      moesi_cc.CCCommandList.push_back, moesi_cc.CCCommandList.next_and_do_consume,
      moesi_cc.CCContext.advance_cursor,
      moesi_cc.CCCommandInterpreter.execute_list, moesi_cc.CCCommandInterpreter.execute,
      moesi_cc.CCCoherenceAction.execute, moesi_cc.CCState.init]

end CCModel

/-! ## L2 protocol: invariants and missing rules -/

namespace moesi_l2

/-- C21. Write-through demotion, on a line in E that is present (transaction 1,
address 64). A ReadShared snoop demotes the line to S, yet its command list is
only: update to S, emit the AceSnpRsp, consume, wait; it holds neither
`SetL1LinesShared` nor `SetL1LinesInvalid`. A ReadUnique snoop demotes the line
to I and does hold `SetL1LinesInvalid`, but after the emission of the
AceSnpRsp, not before it. -/
theorem l2_exclusive_snoop_demotion_without_l1 :
    (MOESIL2CacheProtocol.apply
        { msg := ⟨some 1, none, MessageBody.AceSnoop AceSnpOpcode.ReadShared 64⟩,
          line := ⟨State.E, some 7, ∅⟩, tstate := ⟨none⟩, addr := 0,
          silently_evicted := false } []).2.1 =
      [L2CommandBuilder.from_action
         (L2CoherenceAction.LineUpdateAction
           { update_ := LineUpdate.SetState, state_ := State.S }),
       L2CommandBuilder.from_action
         (L2CoherenceAction.EmitMessageActionProxy L2MessageQueue.l2_cc__snprsp_q
           ⟨some 1, none, MessageBody.AceSnoopRsp true false true true⟩),
       L2CommandBuilder.from_opcode L2Opcode.MsgConsume,
       L2CommandBuilder.from_opcode L2Opcode.WaitNextEpoch] ∧
    (L2CommandInterpreter.execute_list (L2State.init ⟨State.E, some 7, ∅⟩)
        (MOESIL2CacheProtocol.apply
          { msg := ⟨some 1, none, MessageBody.AceSnoop AceSnpOpcode.ReadShared 64⟩,
            line := ⟨State.E, some 7, ∅⟩, tstate := ⟨none⟩, addr := 0,
            silently_evicted := false } []).2.1).line.state = State.S ∧
    L2Opcode.SetL1LinesShared ∉
      (L2CommandInterpreter.execute_list (L2State.init ⟨State.E, some 7, ∅⟩)
        (MOESIL2CacheProtocol.apply
          { msg := ⟨some 1, none, MessageBody.AceSnoop AceSnpOpcode.ReadShared 64⟩,
            line := ⟨State.E, some 7, ∅⟩, tstate := ⟨none⟩, addr := 0,
            silently_evicted := false } []).2.1).ops ∧
    L2Opcode.SetL1LinesInvalid ∉
      (L2CommandInterpreter.execute_list (L2State.init ⟨State.E, some 7, ∅⟩)
        (MOESIL2CacheProtocol.apply
          { msg := ⟨some 1, none, MessageBody.AceSnoop AceSnpOpcode.ReadShared 64⟩,
            line := ⟨State.E, some 7, ∅⟩, tstate := ⟨none⟩, addr := 0,
            silently_evicted := false } []).2.1).ops ∧
    (MOESIL2CacheProtocol.apply
        { msg := ⟨some 1, none, MessageBody.AceSnoop AceSnpOpcode.ReadUnique 64⟩,
          line := ⟨State.E, some 7, ∅⟩, tstate := ⟨none⟩, addr := 0,
          silently_evicted := false } []).2.1 =
      [L2CommandBuilder.from_action
         (L2CoherenceAction.EmitMessageActionProxy L2MessageQueue.l2_cc__snprsp_q
           ⟨some 1, none, MessageBody.AceSnoopRsp true false false true⟩),
       L2CommandBuilder.from_action
         (L2CoherenceAction.LineUpdateAction
           { update_ := LineUpdate.SetState, state_ := State.I }),
       L2CommandBuilder.from_opcode L2Opcode.RemoveLine,
       L2CommandBuilder.from_opcode L2Opcode.SetL1LinesInvalid,
       L2CommandBuilder.from_opcode L2Opcode.MsgConsume,
       L2CommandBuilder.from_opcode L2Opcode.WaitNextEpoch] := by
  refine ⟨?_, ?_, ?_, ?_, ?_⟩ <;>
    simp [MOESIL2CacheProtocol.apply, MOESIL2CacheProtocol.apply_AceSnpMsg,
      MOESIL2CacheProtocol.issue_msg, MOESIL2CacheProtocol.issue_update_state,
      L2CacheContext.set_addr, AceSnpRspFlags.toMessage, is_stable,
      L2CommandList.push_back, LineState.state, L2CommandInterpreter.execute_list,
      L2CommandInterpreter.execute, L2CommandBuilder.from_action, L2CommandBuilder.from_opcode,
      LineUpdateAction.execute, LineState.set_state, L2State.init]

/-- C22. Shared-line metadata. An AceRsp that is shared and not dirty, on a line
in IS without owner or sharers, for a request made by the L1 cache 7: the line
ends in S and the response goes to the L1 cache 7, but 7 is not in the sharer
set. A ReadShared snoop on a line in E owned by the L1 cache 7: the line ends in
S and 7 is still its owner. -/
theorem l2_shared_line_metadata_not_kept :
    L2CommandInterpreter.execute_list (L2State.init ⟨State.IS, none, ∅⟩)
        (MOESIL2CacheProtocol.apply
          { msg := ⟨some 1, none, MessageBody.AceCmdRsp false true⟩,
            line := ⟨State.IS, none, ∅⟩, tstate := ⟨some 7⟩, addr := 64,
            silently_evicted := false } []).2.1 =
      { line := ⟨State.S, none, ∅⟩,
        issued := [(L2MessageQueue.l2_l1__rsp_q (some 7),
                    ⟨some 1, none, MessageBody.L2CmdRsp true⟩)],
        ops := [L2Opcode.EndTransaction, L2Opcode.MsgConsume, L2Opcode.WaitNextEpoch] } ∧
    some 7 ∉
      (L2CommandInterpreter.execute_list (L2State.init ⟨State.IS, none, ∅⟩)
        (MOESIL2CacheProtocol.apply
          { msg := ⟨some 1, none, MessageBody.AceCmdRsp false true⟩,
            line := ⟨State.IS, none, ∅⟩, tstate := ⟨some 7⟩, addr := 64,
            silently_evicted := false } []).2.1).line.sharers ∧
    (L2CommandInterpreter.execute_list (L2State.init ⟨State.E, some 7, ∅⟩)
        (MOESIL2CacheProtocol.apply
          { msg := ⟨some 2, none, MessageBody.AceSnoop AceSnpOpcode.ReadShared 64⟩,
            line := ⟨State.E, some 7, ∅⟩, tstate := ⟨none⟩, addr := 0,
            silently_evicted := false } []).2.1).line = ⟨State.S, some 7, ∅⟩ ∧
    (L2CommandInterpreter.execute_list (L2State.init ⟨State.E, some 7, ∅⟩)
        (MOESIL2CacheProtocol.apply
          { msg := ⟨some 2, none, MessageBody.AceSnoop AceSnpOpcode.ReadShared 64⟩,
            line := ⟨State.E, some 7, ∅⟩, tstate := ⟨none⟩, addr := 0,
            silently_evicted := false } []).2.1).line.owner ≠ none := by
  refine ⟨?_, ?_, ?_, ?_⟩ <;>
    simp [MOESIL2CacheProtocol.apply, MOESIL2CacheProtocol.apply_L2CmdMsg,
      MOESIL2CacheProtocol.apply_AceCmdRspMsg, MOESIL2CacheProtocol.apply_AceSnpMsg,
      MOESIL2CacheProtocol.issue_msg, MOESIL2CacheProtocol.issue_update_state,
      MOESIL2CacheProtocol.issue_del_owner, MOESIL2CacheProtocol.issue_add_sharer,
      MOESIL2CacheProtocol.issue_set_owner, L2CacheContext.set_addr, AceSnpRspFlags.toMessage,
      L2CmdRspMsg_is_default, is_stable,
      L2CommandList.push_back, LineState.state, L2CommandInterpreter.execute_list,
      L2CommandInterpreter.execute, L2CommandBuilder.from_action, L2CommandBuilder.from_opcode,
      LineUpdateAction.execute, LineState.set_state, LineState.set_owner, LineState.add_sharer,
      LineState.sharers, LineState.owner, L2State.init]

/-- C26. Messages without a rule. For an L1GetE on a line in S, any L1 command
on a line in M, an L1GetS on a line in O, and an AceRsp on a line in any of the
stable states I, S, E, M, O, `apply` returns normally: the command list is the
one it was given, nothing pushed, and the log is empty, so no fatal diagnostic
is raised. -/
theorem l2_no_rule_returns_normally (ctxt : L2CacheContext) (t : Option Transaction)
    (o l1 owner : Option Agent) (sharers : Finset (Option Agent)) (addr : addr_t)
    (opcode : L2CmdOpcode) (pd is_ : Bool) (cl : L2CommandList) :
    (MOESIL2CacheProtocol.apply
        { ctxt with msg := ⟨t, o, MessageBody.L2Cmd L2CmdOpcode.L1GetE addr l1⟩,
                    line := ⟨State.S, owner, sharers⟩ } cl).2 = (cl, []) ∧
    (MOESIL2CacheProtocol.apply
        { ctxt with msg := ⟨t, o, MessageBody.L2Cmd opcode addr l1⟩,
                    line := ⟨State.M, owner, sharers⟩ } cl).2 = (cl, []) ∧
    (MOESIL2CacheProtocol.apply
        { ctxt with msg := ⟨t, o, MessageBody.L2Cmd L2CmdOpcode.L1GetS addr l1⟩,
                    line := ⟨State.O, owner, sharers⟩ } cl).2 = (cl, []) ∧
    (MOESIL2CacheProtocol.apply
        { ctxt with msg := ⟨t, o, MessageBody.AceCmdRsp pd is_⟩,
                    line := ⟨State.I, owner, sharers⟩ } cl).2 = (cl, []) ∧
    (MOESIL2CacheProtocol.apply
        { ctxt with msg := ⟨t, o, MessageBody.AceCmdRsp pd is_⟩,
                    line := ⟨State.S, owner, sharers⟩ } cl).2 = (cl, []) ∧
    (MOESIL2CacheProtocol.apply
        { ctxt with msg := ⟨t, o, MessageBody.AceCmdRsp pd is_⟩,
                    line := ⟨State.E, owner, sharers⟩ } cl).2 = (cl, []) ∧
    (MOESIL2CacheProtocol.apply
        { ctxt with msg := ⟨t, o, MessageBody.AceCmdRsp pd is_⟩,
                    line := ⟨State.M, owner, sharers⟩ } cl).2 = (cl, []) ∧
    (MOESIL2CacheProtocol.apply
        { ctxt with msg := ⟨t, o, MessageBody.AceCmdRsp pd is_⟩,
                    line := ⟨State.O, owner, sharers⟩ } cl).2 = (cl, []) := by
  refine ⟨?_, ?_, ?_, ?_, ?_, ?_, ?_, ?_⟩ <;>
    simp [MOESIL2CacheProtocol.apply, MOESIL2CacheProtocol.apply_L2CmdMsg,
      MOESIL2CacheProtocol.apply_AceCmdRspMsg, LineState.state]

end moesi_l2

/-! ## Queue: result of `dequeue` -/

/-- C40. Result of `dequeue`, on every queue `q` reached from a freshly
constructed one of capacity `n >= 1`: `dequeue` returns true exactly when the
queue is not empty; it then yields the oldest element, which is the one `peek`
returns, removes it, lowers `size()` by exactly one and clears the full flag. On
an empty queue it returns false, notifies nothing and leaves the queue as it is.
Before and after the call `full()` is `size() == n()` and `empty()` is
`size() == 0`. -/
theorem queue_dequeue_result {T : Type} [Inhabited T] (n : Nat) (hn : 1 ≤ n)
    (ops : List (QueueOp T)) (q : Queue T) (hq : q = ((QueueRun.fresh n).run ops).q) :
    (q.dequeue.1.isSome = true ↔ q.size ≠ 0) ∧
      (q.size ≠ 0 →
        q.dequeue.1 = q.peek ∧ q.dequeue.1 = q.contents.head? ∧
        q.dequeue.2.1.contents = q.contents.tail ∧
        q.dequeue.2.1.size + 1 = q.size ∧ q.dequeue.2.1.full = false) ∧
      (q.size = 0 → q.dequeue = (none, q, [])) ∧
      (q.full = decide (q.size = q.n) ∧ q.empty = decide (q.size = 0)) ∧
      (q.dequeue.2.1.full = decide (q.dequeue.2.1.size = q.dequeue.2.1.n) ∧
        q.dequeue.2.1.empty = decide (q.dequeue.2.1.size = 0)) := by
  obtain ⟨hinv, hcap, _⟩ := QueueRun.good_run n ops _ (QueueRun.good_fresh n hn)
  rw [← hq] at hinv hcap
  have hflags : ∀ q' : Queue T, q'.Inv →
      q'.full = decide (q'.size = q'.n) ∧ q'.empty = decide (q'.size = 0) := by
    intro q' h
    obtain ⟨_, _, _, _, hfull, hempty⟩ := h
    exact ⟨hfull, hempty⟩
  by_cases h0 : q.size_ = 0
  · have hd := Queue.dequeue_of_zero q hinv h0
    have hs : q.size = 0 := h0
    rw [hd]
    refine ⟨by simp [hs], fun h => absurd hs h, fun _ => rfl, hflags q hinv, hflags q hinv⟩
  · have hpos : 0 < q.size_ := Nat.pos_of_ne_zero h0
    have hs : q.size ≠ 0 := h0
    obtain ⟨x, xs, h1, h2, h3, h4, h5⟩ := Queue.dequeue_of_pos q hinv hpos
    have he : q.empty = false := by
      rw [(hflags q hinv).2]
      simpa using hs
    have hlen := Queue.length_contents q
    have hlen2 := Queue.length_contents q.dequeue.2.1
    rw [h1] at hlen
    rw [h4] at hlen2
    simp only [List.length_cons] at hlen
    refine ⟨by simp [h2, hs], fun _ => ⟨?_, ?_, ?_, ?_, ?_⟩, fun h => absurd h hs,
      hflags q hinv, hflags _ h3⟩
    · simp [Queue.dequeue, Queue.peek, he]
    · rw [h2, h1]; rfl
    · rw [h4, h1]; rfl
    · omega
    · simp [Queue.dequeue, he, Queue.full]

/-- C40, at capacity 2 after two offers: `dequeue` yields the first value
offered. -/
theorem queue_dequeue_result_witness :
    1 ≤ 2 ∧
      ((QueueRun.fresh 2 : QueueRun Nat).run
        [QueueOp.enqueue 10, QueueOp.enqueue 11]).q.dequeue.1 = some 10 :=
  ⟨by decide,
   by
    have h := (queue_dequeue_result 2 (by decide)
      [QueueOp.enqueue 10, QueueOp.enqueue 11]
      ((QueueRun.fresh 2 : QueueRun Nat).run [QueueOp.enqueue 10, QueueOp.enqueue 11]).q rfl).2.1
      (by decide)
    rw [h.1]
    decide⟩

/-! ## Arbiter: rotation -/

namespace Arbiter

/-- Adding requesters one by one appends them to the vector and keeps the
index. -/
theorem foldl_add_requester (rs : List Requester) :
    ∀ a : Arbiter, rs.foldl add_requester a = { idx_ := a.idx_, ts_ := a.ts_ ++ rs } := by
  induction rs with
  | nil => intro a; simp
  | cons r rs ih =>
    intro a
    rw [List.foldl_cons, ih]
    simp [add_requester]

/-- The arbiter built from a list of requesters has index 0 and holds them in
order. -/
theorem build_eq (rs : List Requester) : build rs = { idx_ := 0, ts_ := rs } := by
  simp [build, foldl_add_requester, Arbiter.new]

/-- When every requester has a request and is not blocked, every slot is
eligible. -/
theorem eligible_of_all (i : Nat) (rs : List Requester)
    (h : ∀ r, r ∈ rs → r.has_req = true ∧ r.blocked = false) (p : Nat) (hp : p < rs.length) :
    (Arbiter.mk i rs).eligible p = true := by
  have hmem : rs.getD p default ∈ rs := by
    rw [List.getD_eq_getElem _ _ hp]
    exact List.getElem_mem hp
  obtain ⟨h1, h2⟩ := h _ hmem
  simp only [eligible, at_, h1, h2]
  rfl

/-- When every requester has a request and is not blocked, a round nominates the
slot under the index and moves the index one slot on. -/
theorem round_of_all (i : Nat) (rs : List Requester) (hi : i < rs.length)
    (h : ∀ r, r ∈ rs → r.has_req = true ∧ r.blocked = false) :
    (Arbiter.mk i rs).round = (some i, Arbiter.mk ((i + 1) % rs.length) rs) := by
  have hmod : (i + 0) % rs.length = i := by simp [Nat.mod_eq_of_lt hi]
  have hn : 0 < (Arbiter.mk i rs).n := by simp only [n]; omega
  have he : (Arbiter.mk i rs).eligible
      (((Arbiter.mk i rs).idx_ + 0) % (Arbiter.mk i rs).n) = true := by
    simp only [n, hmod]
    exact eligible_of_all i rs h i hi
  obtain ⟨h1, h2, _⟩ := Tournament.winner_of_least (Arbiter.mk i rs) 0 hn he
    (fun j hj => absurd hj (Nat.not_lt_zero j))
  simp only [n, hmod] at h1 h2
  simp [round, tournament, Tournament.winner, Tournament.advance, h1, h2, n]

/-- After `k` rounds the index is `k mod n`. -/
theorem rounds_of_all (rs : List Requester) (hn : 1 ≤ rs.length)
    (h : ∀ r, r ∈ rs → r.has_req = true ∧ r.blocked = false) (k : Nat) :
    (build rs).rounds k = Arbiter.mk (k % rs.length) rs := by
  induction k with
  | zero => simp [rounds, build_eq]
  | succ k ih =>
    have hlt : k % rs.length < rs.length := Nat.mod_lt _ (by omega)
    rw [rounds, ih, round_of_all _ rs hlt h]
    simp [Nat.mod_add_mod]

end Arbiter

/-- C36. Round-robin rotation: on an arbiter built from `n >= 1` requesters
that all have a request and are not blocked, with `advance()` called after every
tournament, the `k`-th tournament (counted from 0) nominates the requester added
at position `k mod n`. So the `n` tournaments from a multiple of `n` on nominate
the requesters in insertion order, and among any `n` consecutive tournaments
each requester is nominated exactly once. -/
theorem arbiter_round_robin_rotation (rs : List Requester) (hn : 1 ≤ rs.length)
    (h : ∀ r, r ∈ rs → r.has_req = true ∧ r.blocked = false) (k : Nat) :
    ((Arbiter.build rs).rounds k).round.1 = some (k % rs.length) ∧
      (List.range rs.length).map
          (fun i => ((Arbiter.build rs).rounds (k * rs.length + i)).round.1) =
        (List.range rs.length).map some ∧
      (∀ p, p < rs.length →
        ∃ i, i < rs.length ∧ ((Arbiter.build rs).rounds (k + i)).round.1 = some p ∧
          ∀ j, j < rs.length → ((Arbiter.build rs).rounds (k + j)).round.1 = some p → j = i) := by
  have hpos : 0 < rs.length := by omega
  have hw : ∀ m, ((Arbiter.build rs).rounds m).round.1 = some (m % rs.length) := by
    intro m
    rw [Arbiter.rounds_of_all rs hn h m, Arbiter.round_of_all _ rs (Nat.mod_lt _ hpos) h]
  refine ⟨hw k, ?_, ?_⟩
  · apply List.map_congr_left
    intro i hi
    rw [hw]
    have hi2 : i < rs.length := List.mem_range.mp hi
    rw [Nat.mul_comm, Nat.mul_add_mod, Nat.mod_eq_of_lt hi2]
  · intro p hp
    obtain ⟨i, hi, hip⟩ := Arbiter.slot_cover (Arbiter.mk k rs) p hp
    simp only [Arbiter.n] at hi hip
    refine ⟨i, hi, by rw [hw, hip], ?_⟩
    intro j hj hjp
    rw [hw] at hjp
    have hjp2 : (k + j) % rs.length = p := Option.some.inj hjp
    exact Queue.mod_add_inj rs.length k j i hj hi (hjp2.trans hip.symm)

/-- C36, on three requesters: the tournament number 4 nominates the requester
added at position 1. -/
theorem arbiter_round_robin_rotation_witness :
    1 ≤ [(⟨true, false⟩ : Requester), ⟨true, false⟩, ⟨true, false⟩].length ∧
      ((Arbiter.build [⟨true, false⟩, ⟨true, false⟩, ⟨true, false⟩]).rounds 4).round.1 =
        some (4 % 3) :=
  ⟨by decide,
   (arbiter_round_robin_rotation [⟨true, false⟩, ⟨true, false⟩, ⟨true, false⟩] (by decide)
      (by decide) 4).1⟩

/-! ## Cache controller: order of arrival -/

namespace moesi_cc

/-- Handling a CohCmdRsp clears the awaiting-CohCmdRsp flag of the line and
changes nothing else of it. -/
theorem handle_CohCmdRsp (tb : MsgTables) (cc : CCAgent) (epoch : Nat) (l : Line)
    (m : Message) (h : m.body = MessageBody.CohCmdRsp) :
    handle tb cc epoch l m = l.set_awaiting_cohcmdrsp false := by
  obtain ⟨t, o, body⟩ := m
  simp only at h
  subst h
  simp only [handle, MOESICCProtocol.apply, MOESICCProtocol.eval_msg_CohCmdRspMsg,
    MOESICCProtocol.issue_apply_msg, MOESICCProtocol.issue_add_credit,
    CCAgent.cc_by_cls_agent]
  cases cc.ccntrs_map (tb.to_cmd_type (Message.cls ⟨t, o, MessageBody.CohCmdRsp⟩)) o <;>
    simp [CCCommandList.push_back_action, CCCommandList.next_and_do_consume,
      CCCommandInterpreter.execute_list, CCCommandInterpreter.execute,
      CCCoherenceAction.execute, ApplyMsgAction.execute,
      ApplyMsgAction.execute_apply_CohCmdRspMsg, CCState.init]

/-- Handling a CohEnd stores its flags and its number of data transfers in the
line and clears the awaiting-CohEnd flag. -/
theorem handle_CohEnd (tb : MsgTables) (cc : CCAgent) (epoch : Nat) (l : Line)
    (m : Message) (is_ pd : Bool) (k : Nat) (h : m.body = MessageBody.CohEnd is_ pd k) :
    handle tb cc epoch l m =
      (((l.set_is is_).set_pd pd).set_dt_n k).set_awaiting_cohend false := by
  obtain ⟨t, o, body⟩ := m
  simp only at h
  subst h
  simp only [handle, MOESICCProtocol.apply, MOESICCProtocol.eval_msg_CohEndMsg,
    MOESICCProtocol.issue_apply_msg, MOESICCProtocol.issue_add_credit,
    CCAgent.cc_by_cls_agent]
  cases cc.ccntrs_map (tb.to_cmd_type (Message.cls ⟨t, o, MessageBody.CohEnd is_ pd k⟩)) o <;>
    simp [CCCommandList.push_back_action, CCCommandList.next_and_do_consume,
      CCCommandInterpreter.execute_list, CCCommandInterpreter.execute,
      CCCoherenceAction.execute, ApplyMsgAction.execute,
      ApplyMsgAction.execute_apply_CohEndMsg, CCState.init]

/-- Handling a Dt counts one more received data transfer. -/
theorem handle_Dt (tb : MsgTables) (cc : CCAgent) (epoch : Nat) (l : Line)
    (m : Message) (h : m.body = MessageBody.Dt) :
    handle tb cc epoch l m = l.set_dt_i (l.dt_i + 1) := by
  obtain ⟨t, o, body⟩ := m
  simp only at h
  subst h
  simp [handle, MOESICCProtocol.apply, MOESICCProtocol.eval_msg_DtMsg,
    MOESICCProtocol.issue_apply_msg, MOESICCProtocol.issue_msg_to_noc,
    CCContext.advance_cursor,
    CCCommandList.push_back_action, CCCommandList.next_and_do_consume,
      CCCommandInterpreter.execute_list, CCCommandInterpreter.execute,
      CCCoherenceAction.execute, ApplyMsgAction.execute,
      ApplyMsgAction.execute_apply_DtMsg, CCState.init]


/-- Handling an AceCmd stores the transaction in the line and sets both awaiting
flags. -/
theorem handle_AceCmd (tb : MsgTables) (cc : CCAgent) (epoch : Nat) (l : Line)
    (m : Message) (opcode : AceCmdOpcode) (addr : addr_t)
    (h : m.body = MessageBody.AceCmd opcode addr) :
    handle tb cc epoch l m =
      ((l.set_t m.t).set_awaiting_cohend true).set_awaiting_cohcmdrsp true := by
  obtain ⟨t, o, body⟩ := m
  simp only at h
  subst h
  simp [handle, MOESICCProtocol.apply, MOESICCProtocol.eval_msg_AceCmdMsg,
    MOESICCProtocol.issue_apply_msg, MOESICCProtocol.issue_msg_to_noc,
    MOESICCProtocol.issue_line_update, CCContext.advance_cursor,
    CCCommandList.push_back_action, CCCommandList.push_back, CCCommandList.next_and_do_consume,
    CCCommandInterpreter.execute_list, CCCommandInterpreter.execute,
    CCCoherenceAction.execute, ApplyMsgAction.execute, LineUpdateAction.execute,
    ApplyMsgAction.execute_apply_AceCmdMsg, CCState.init]

/-- The line after a sequence of CohCmdRsp, CohEnd and Dt messages, in terms of
how many of each were handled. -/
theorem foldl_handle (tb : MsgTables) (cc : CCAgent) (epoch : Nat) (is_ pd : Bool) (k : Nat)
    (p : List Message) :
    ∀ l : Line,
      (∀ m, m ∈ p → m.body = MessageBody.CohCmdRsp ∨ m.body = MessageBody.CohEnd is_ pd k ∨
        m.body = MessageBody.Dt) →
      (p.foldl (handle tb cc epoch) l).awaiting_cohcmdrsp =
          (l.awaiting_cohcmdrsp &&
            decide ((p.map Message.body).count MessageBody.CohCmdRsp = 0)) ∧
        (p.foldl (handle tb cc epoch) l).awaiting_cohend =
          (l.awaiting_cohend &&
            decide ((p.map Message.body).count (MessageBody.CohEnd is_ pd k) = 0)) ∧
        (p.foldl (handle tb cc epoch) l).dt_i =
          l.dt_i + (p.map Message.body).count MessageBody.Dt ∧
        (p.foldl (handle tb cc epoch) l).dt_n =
          (if 0 < (p.map Message.body).count (MessageBody.CohEnd is_ pd k) then k
           else l.dt_n) := by
  induction p with
  | nil => intro l _; simp
  | cons m p ih =>
    intro l hm
    have hrest := ih (handle tb cc epoch l m) (fun x hx => hm x (List.mem_cons_of_mem m hx))
    obtain ⟨i1, i2, i3, i4⟩ := hrest
    simp only [List.foldl_cons, List.map_cons]
    rcases hm m (List.mem_cons_self m p) with hb | hb | hb
    · rw [handle_CohCmdRsp tb cc epoch l m hb] at i1 i2 i3 i4 ⊢
      simp only [hb]
      refine ⟨?_, ?_, ?_, ?_⟩
      · rw [i1]; simp [Line.awaiting_cohcmdrsp, Line.set_awaiting_cohcmdrsp]
      · rw [i2]; simp [Line.awaiting_cohend, Line.set_awaiting_cohcmdrsp]
      · rw [i3]; simp [Line.dt_i, Line.set_awaiting_cohcmdrsp]
      · rw [i4]; simp [Line.dt_n, Line.set_awaiting_cohcmdrsp]
    · rw [handle_CohEnd tb cc epoch l m is_ pd k hb] at i1 i2 i3 i4 ⊢
      simp only [hb]
      refine ⟨?_, ?_, ?_, ?_⟩
      · rw [i1]; simp [Line.awaiting_cohcmdrsp, Line.set_awaiting_cohend, Line.set_dt_n,
          Line.set_pd, Line.set_is]
      · rw [i2]; simp [Line.awaiting_cohend, Line.set_awaiting_cohend]
      · rw [i3]; simp [Line.dt_i, Line.set_awaiting_cohend, Line.set_dt_n,
          Line.set_pd, Line.set_is]
      · rw [i4]; simp [Line.dt_n, Line.set_awaiting_cohend, Line.set_dt_n]
    · rw [handle_Dt tb cc epoch l m hb] at i1 i2 i3 i4 ⊢
      simp only [hb]
      refine ⟨?_, ?_, ?_, ?_⟩
      · rw [i1]; simp [Line.awaiting_cohcmdrsp, Line.set_dt_i]
      · rw [i2]; simp [Line.awaiting_cohend, Line.set_dt_i]
      · rw [i3]; simp [Line.dt_i, Line.set_dt_i]; omega
      · rw [i4]; simp [Line.dt_n, Line.set_dt_i]

end moesi_cc

/-- C38. Completion does not depend on the order of arrival: from a line with
both awaiting flags set and no data received (as the handling of an AceCmd
leaves a fresh line), for every `k` and every order of one CohCmdRsp, one CohEnd
with `dt_n = k` and `k` Dt messages, the line is complete once all `k + 2`
messages have been handled and is not complete after any proper prefix of
them. -/
theorem cc_completion_order_independent (tb : MsgTables) (cc : moesi_cc.CCAgent) (epoch : Nat)
    (l0 : moesi_cc.Line) (is_ pd : Bool) (k : Nat) (ms : List Message)
    (h1 : l0.awaiting_cohend = true) (h2 : l0.awaiting_cohcmdrsp = true) (h3 : l0.dt_i = 0)
    (hperm : (ms.map Message.body).Perm
      (MessageBody.CohCmdRsp :: MessageBody.CohEnd is_ pd k ::
        List.replicate k MessageBody.Dt)) :
    ms.length = k + 2 ∧
      (ms.foldl (moesi_cc.handle tb cc epoch) l0).is_complete = true ∧
      (∀ p s, ms = p ++ s → s ≠ [] →
        (p.foldl (moesi_cc.handle tb cc epoch) l0).is_complete = false) ∧
      (∀ (t : Option Transaction) (o : Option Agent) (opcode : AceCmdOpcode) (addr : addr_t),
        (moesi_cc.handle tb cc epoch {} ⟨t, o, MessageBody.AceCmd opcode addr⟩).awaiting_cohend
            = true ∧
          (moesi_cc.handle tb cc epoch {}
            ⟨t, o, MessageBody.AceCmd opcode addr⟩).awaiting_cohcmdrsp = true ∧
          (moesi_cc.handle tb cc epoch {} ⟨t, o, MessageBody.AceCmd opcode addr⟩).dt_i = 0) := by
  have hmem : ∀ m, m ∈ ms → m.body = MessageBody.CohCmdRsp ∨
      m.body = MessageBody.CohEnd is_ pd k ∨ m.body = MessageBody.Dt := by
    intro m hm
    have : m.body ∈ ms.map Message.body := List.mem_map_of_mem _ hm
    rw [hperm.mem_iff] at this
    simp only [List.mem_cons, List.mem_replicate] at this
    rcases this with h | h | h
    · exact Or.inl h
    · exact Or.inr (Or.inl h)
    · exact Or.inr (Or.inr h.2)
  have hc1 : (ms.map Message.body).count MessageBody.CohCmdRsp = 1 := by
    rw [hperm.count_eq]; simp [List.count_replicate]
  have hc2 : (ms.map Message.body).count (MessageBody.CohEnd is_ pd k) = 1 := by
    rw [hperm.count_eq]; simp [List.count_replicate]
  have hc3 : (ms.map Message.body).count MessageBody.Dt = k := by
    rw [hperm.count_eq]; simp [List.count_replicate]
  refine ⟨?_, ?_, ?_, ?_⟩
  · have := hperm.length_eq
    simpa using this
  · obtain ⟨i1, i2, i3, i4⟩ := moesi_cc.foldl_handle tb cc epoch is_ pd k ms l0 hmem
    simp only [moesi_cc.Line.is_complete, i1, i2, i3, i4, h1, h2, h3, hc1, hc2, hc3]
    simp
  · intro p s hms hs
    subst hms
    have hmemp : ∀ m, m ∈ p → m.body = MessageBody.CohCmdRsp ∨
        m.body = MessageBody.CohEnd is_ pd k ∨ m.body = MessageBody.Dt :=
      fun m hm => hmem m (List.mem_append_left s hm)
    obtain ⟨i1, i2, i3, i4⟩ := moesi_cc.foldl_handle tb cc epoch is_ pd k p l0 hmemp
    simp only [List.map_append, List.count_append] at hc1 hc2 hc3
    obtain ⟨m, s', rfl⟩ := List.exists_cons_of_ne_nil hs
    simp only [List.map_cons, List.count_cons] at hc1 hc2 hc3
    simp only [moesi_cc.Line.is_complete, i1, i2, i3, i4, h1, h2, h3]
    rcases hmem m (by simp) with hb | hb | hb
    · have : List.count MessageBody.CohCmdRsp (List.map Message.body p) = 0 := by
        simp only [hb, beq_self_eq_true, if_true] at hc1
        omega
      simp [this]
    · have : List.count (MessageBody.CohEnd is_ pd k) (List.map Message.body p) = 0 := by
        simp only [hb, beq_self_eq_true, if_true] at hc2
        omega
      simp [this]
    · have hlt : List.count MessageBody.Dt (List.map Message.body p) < k := by
        simp only [hb, beq_self_eq_true, if_true] at hc3
        omega
      by_cases he : List.count (MessageBody.CohEnd is_ pd k) (List.map Message.body p) = 0
      · simp [he]
      · have hpos : 0 < List.count (MessageBody.CohEnd is_ pd k) (List.map Message.body p) :=
          Nat.pos_of_ne_zero he
        simp only [he, hpos, if_true, decide_False, Bool.and_false, Bool.false_eq_true,
          if_false, Nat.zero_add]
        split
        · rfl
        · simp
          omega
  · intro t o opcode addr
    rw [moesi_cc.handle_AceCmd tb cc epoch {} _ opcode addr rfl]
    simp [moesi_cc.Line.awaiting_cohend, moesi_cc.Line.awaiting_cohcmdrsp, moesi_cc.Line.dt_i,
      moesi_cc.Line.set_awaiting_cohend, moesi_cc.Line.set_awaiting_cohcmdrsp,
      moesi_cc.Line.set_t]
/-- C38, for `k = 1` with the messages arriving in the order Dt, CohEnd,
CohCmdRsp. -/
theorem cc_completion_order_independent_witness :
    (moesi_cc.Line.mk (some 5) false false 0 0 true true).awaiting_cohend = true ∧
      ((([⟨some 5, some 3, MessageBody.Dt⟩, ⟨some 5, some 9, MessageBody.CohEnd true false 1⟩,
          ⟨some 5, some 9, MessageBody.CohCmdRsp⟩] : List Message).foldl
        (moesi_cc.handle ⟨fun _ => 1, fun c => c⟩
          { id := 1, dm_lookup := fun _ => some 9, ccntrs_map := fun _ _ => none,
            noc_ingress_cc := 0 } 10)
        (moesi_cc.Line.mk (some 5) false false 0 0 true true)).is_complete = true) :=
  ⟨rfl,
   (cc_completion_order_independent ⟨fun _ => 1, fun c => c⟩
      { id := 1, dm_lookup := fun _ => some 9, ccntrs_map := fun _ _ => none,
        noc_ingress_cc := 0 } 10
      (moesi_cc.Line.mk (some 5) false false 0 0 true true) true false 1
      [⟨some 5, some 3, MessageBody.Dt⟩, ⟨some 5, some 9, MessageBody.CohEnd true false 1⟩,
       ⟨some 5, some 9, MessageBody.CohCmdRsp⟩]
      rfl rfl rfl (by decide)).2.1⟩

/-! ## L2 protocol: requester and transactions -/

namespace moesi_l2

/-- The transitions that answer through the queue looked up for the requester:
an L1 command on a line in E, and an AceRsp on a line in IS, IE or OE, issue
their one response to the response queue of the L1 cache recorded in the
transaction state. -/
theorem response_queue_of_requester (ctxt : L2CacheContext) (t : Option Transaction)
    (o l1 r owner : Option Agent) (sharers : Finset (Option Agent)) (addr : addr_t)
    (opcode : L2CmdOpcode) (pd is_ : Bool) (st : State)
    (hst : st = State.IS ∨ st = State.IE ∨ st = State.OE) :
    ((L2CommandInterpreter.execute_list (L2State.init ⟨State.E, owner, sharers⟩)
        (MOESIL2CacheProtocol.apply
          { ctxt with msg := ⟨t, o, MessageBody.L2Cmd opcode addr l1⟩,
                      tstate := ⟨r⟩,
                      line := ⟨State.E, owner, sharers⟩ } []).2.1).issued.map Prod.fst =
      [L2MessageQueue.l2_l1__rsp_q r]) ∧
    ((L2CommandInterpreter.execute_list (L2State.init ⟨st, owner, sharers⟩)
        (MOESIL2CacheProtocol.apply
          { ctxt with msg := ⟨t, o, MessageBody.AceCmdRsp pd is_⟩,
                      tstate := ⟨r⟩,
                      line := ⟨st, owner, sharers⟩ } []).2.1).issued.map Prod.fst =
      [L2MessageQueue.l2_l1__rsp_q r]) := by
  refine ⟨?_, ?_⟩
  · cases opcode <;>
    simp [MOESIL2CacheProtocol.apply, MOESIL2CacheProtocol.apply_L2CmdMsg,
      MOESIL2CacheProtocol.issue_msg, MOESIL2CacheProtocol.issue_update_state,
      MOESIL2CacheProtocol.issue_del_owner, MOESIL2CacheProtocol.issue_add_sharer,
      MOESIL2CacheProtocol.issue_set_owner, L2CmdRspMsg_is_default,
      L2CommandList.push_back, LineState.state, L2CommandInterpreter.execute_list,
      L2CommandInterpreter.execute, L2CommandBuilder.from_action, L2CommandBuilder.from_opcode,
      LineUpdateAction.execute, LineState.set_state, LineState.set_owner, LineState.add_sharer,
      L2State.init]
  · rcases hst with h | h | h <;> subst h <;>
    simp [MOESIL2CacheProtocol.apply, MOESIL2CacheProtocol.apply_AceCmdRspMsg,
      MOESIL2CacheProtocol.issue_msg, MOESIL2CacheProtocol.issue_update_state,
      L2CmdRspMsg_is_default,
      L2CommandList.push_back, LineState.state, L2CommandInterpreter.execute_list,
      L2CommandInterpreter.execute, L2CommandBuilder.from_action, L2CommandBuilder.from_opcode,
      LineUpdateAction.execute, LineState.set_state, L2State.init]

/-- C39. Responses of the L2 to its L1 caches, for an L1GetS on a line in S:
the response is issued to the queue selected by the constant 0, whichever L1
cache made the request. For requester 8 (transaction 1) and for requester 7
(transaction 2) the one response goes to that same queue, which is not the
response queue looked up for the requester. -/
theorem l2_shared_hit_response_queue_fixed :
    (L2CommandInterpreter.execute_list (L2State.init ⟨State.S, none, {some 7, some 8}⟩)
        (MOESIL2CacheProtocol.apply
          { msg := ⟨some 1, some 8, MessageBody.L2Cmd L2CmdOpcode.L1GetS 64 (some 8)⟩,
            line := ⟨State.S, none, {some 7, some 8}⟩, tstate := ⟨some 8⟩, addr := 64,
            silently_evicted := false } []).2.1).issued =
      [(L2MessageQueue.l2_l1__rsp_q_index 0, ⟨some 1, none, MessageBody.L2CmdRsp false⟩)] ∧
    (L2CommandInterpreter.execute_list (L2State.init ⟨State.S, none, {some 7, some 8}⟩)
        (MOESIL2CacheProtocol.apply
          { msg := ⟨some 2, some 7, MessageBody.L2Cmd L2CmdOpcode.L1GetS 64 (some 7)⟩,
            line := ⟨State.S, none, {some 7, some 8}⟩, tstate := ⟨some 7⟩, addr := 64,
            silently_evicted := false } []).2.1).issued =
      [(L2MessageQueue.l2_l1__rsp_q_index 0, ⟨some 2, none, MessageBody.L2CmdRsp false⟩)] ∧
    L2MessageQueue.l2_l1__rsp_q_index 0 ≠ L2MessageQueue.l2_l1__rsp_q (some 8) ∧
    L2MessageQueue.l2_l1__rsp_q_index 0 ≠ L2MessageQueue.l2_l1__rsp_q (some 7) := by
  refine ⟨?_, ?_, ?_, ?_⟩ <;>
    simp [MOESIL2CacheProtocol.apply, MOESIL2CacheProtocol.apply_L2CmdMsg,
      MOESIL2CacheProtocol.issue_msg, L2CmdRspMsg_is_default,
      L2CommandList.push_back, LineState.state, L2CommandInterpreter.execute_list,
      L2CommandInterpreter.execute, L2CommandBuilder.from_action, L2CommandBuilder.from_opcode,
      L2State.init]

/-- For an L1GetS or L1GetE on a line in any state the list starts a transaction
exactly when it moves the line from a stable state to a transient one, and never
ends one; for an AceRsp on a line in any state the list ends a transaction
exactly when it moves the line from a transient state to a stable one, and
never starts one. -/
theorem transaction_bracketing_requests (ctxt : L2CacheContext) (t : Option Transaction)
    (o l1 owner : Option Agent) (sharers : Finset (Option Agent)) (addr : addr_t)
    (pd is_ : Bool) (st : State) :
    (∀ opcode, opcode = L2CmdOpcode.L1GetS ∨ opcode = L2CmdOpcode.L1GetE →
      ((L2Opcode.StartTransaction ∈
          (L2CommandInterpreter.execute_list (L2State.init ⟨st, owner, sharers⟩)
            (MOESIL2CacheProtocol.apply
              { ctxt with msg := ⟨t, o, MessageBody.L2Cmd opcode addr l1⟩,
                          line := ⟨st, owner, sharers⟩ } []).2.1).ops ↔
        (is_stable st = true ∧
          is_stable (L2CommandInterpreter.execute_list (L2State.init ⟨st, owner, sharers⟩)
            (MOESIL2CacheProtocol.apply
              { ctxt with msg := ⟨t, o, MessageBody.L2Cmd opcode addr l1⟩,
                          line := ⟨st, owner, sharers⟩ } []).2.1).line.state = false)) ∧
       L2Opcode.EndTransaction ∉
          (L2CommandInterpreter.execute_list (L2State.init ⟨st, owner, sharers⟩)
            (MOESIL2CacheProtocol.apply
              { ctxt with msg := ⟨t, o, MessageBody.L2Cmd opcode addr l1⟩,
                          line := ⟨st, owner, sharers⟩ } []).2.1).ops)) ∧
    (L2Opcode.EndTransaction ∈
        (L2CommandInterpreter.execute_list (L2State.init ⟨st, owner, sharers⟩)
          (MOESIL2CacheProtocol.apply
            { ctxt with msg := ⟨t, o, MessageBody.AceCmdRsp pd is_⟩,
                        line := ⟨st, owner, sharers⟩ } []).2.1).ops ↔
      (is_stable st = false ∧
        is_stable (L2CommandInterpreter.execute_list (L2State.init ⟨st, owner, sharers⟩)
          (MOESIL2CacheProtocol.apply
            { ctxt with msg := ⟨t, o, MessageBody.AceCmdRsp pd is_⟩,
                        line := ⟨st, owner, sharers⟩ } []).2.1).line.state = true)) ∧
    L2Opcode.StartTransaction ∉
        (L2CommandInterpreter.execute_list (L2State.init ⟨st, owner, sharers⟩)
          (MOESIL2CacheProtocol.apply
            { ctxt with msg := ⟨t, o, MessageBody.AceCmdRsp pd is_⟩,
                        line := ⟨st, owner, sharers⟩ } []).2.1).ops := by
  refine ⟨?_, ?_, ?_⟩
  · intro opcode hop
    rcases hop with h | h <;> subst h <;> cases st <;>
    simp [MOESIL2CacheProtocol.apply, MOESIL2CacheProtocol.apply_L2CmdMsg,
      MOESIL2CacheProtocol.issue_msg, MOESIL2CacheProtocol.issue_update_state,
      MOESIL2CacheProtocol.issue_del_owner, MOESIL2CacheProtocol.issue_add_sharer,
      MOESIL2CacheProtocol.issue_set_owner, L2CmdRspMsg_is_default, is_stable,
      L2CommandList.push_back, LineState.state, L2CommandInterpreter.execute_list,
      L2CommandInterpreter.execute, L2CommandBuilder.from_action, L2CommandBuilder.from_opcode,
      LineUpdateAction.execute, LineState.set_state, LineState.set_owner, LineState.add_sharer,
      L2State.init]
  · cases st <;> cases pd <;> cases is_ <;>
    simp [MOESIL2CacheProtocol.apply, MOESIL2CacheProtocol.apply_AceCmdRspMsg,
      MOESIL2CacheProtocol.issue_msg, MOESIL2CacheProtocol.issue_update_state,
      L2CmdRspMsg_is_default, is_stable,
      L2CommandList.push_back, LineState.state, L2CommandInterpreter.execute_list,
      L2CommandInterpreter.execute, L2CommandBuilder.from_action, L2CommandBuilder.from_opcode,
      LineUpdateAction.execute, LineState.set_state, L2State.init]
  · cases st <;> cases pd <;> cases is_ <;>
    simp [MOESIL2CacheProtocol.apply, MOESIL2CacheProtocol.apply_AceCmdRspMsg,
      MOESIL2CacheProtocol.issue_msg, MOESIL2CacheProtocol.issue_update_state,
      L2CmdRspMsg_is_default, is_stable,
      L2CommandList.push_back, LineState.state, L2CommandInterpreter.execute_list,
      L2CommandInterpreter.execute, L2CommandBuilder.from_action, L2CommandBuilder.from_opcode,
      LineUpdateAction.execute, LineState.set_state, L2State.init]

/-- C37. Transient state and open transaction, for snoops on a line whose
transaction is in flight. A ReadUnique snoop on a line in IS (request of the L1
cache 7 outstanding) moves the line to the stable state I and removes it, and a
CleanInvalid snoop on a line in IE moves the line to I as well, but neither list
holds `EndTransaction`: the line reaches a stable state while its transaction
is still open. -/
theorem l2_snoop_leaves_transaction_open :
    L2CommandInterpreter.execute_list (L2State.init ⟨State.IS, none, ∅⟩)
        (MOESIL2CacheProtocol.apply
          { msg := ⟨some 2, none, MessageBody.AceSnoop AceSnpOpcode.ReadUnique 64⟩,
            line := ⟨State.IS, none, ∅⟩, tstate := ⟨some 7⟩, addr := 0,
            silently_evicted := false } []).2.1 =
      { line := ⟨State.I, none, ∅⟩,
        issued := [(L2MessageQueue.l2_cc__snprsp_q,
                    ⟨some 2, none, MessageBody.AceSnoopRsp false false false false⟩)],
        ops := [L2Opcode.RemoveLine, L2Opcode.SetL1LinesInvalid, L2Opcode.MsgConsume,
                L2Opcode.WaitNextEpoch] } ∧
    is_stable State.IS = false ∧ is_stable State.I = true ∧
    L2Opcode.EndTransaction ∉
      (L2CommandInterpreter.execute_list (L2State.init ⟨State.IS, none, ∅⟩)
        (MOESIL2CacheProtocol.apply
          { msg := ⟨some 2, none, MessageBody.AceSnoop AceSnpOpcode.ReadUnique 64⟩,
            line := ⟨State.IS, none, ∅⟩, tstate := ⟨some 7⟩, addr := 0,
            silently_evicted := false } []).2.1).ops ∧
    (L2CommandInterpreter.execute_list (L2State.init ⟨State.IE, none, ∅⟩)
        (MOESIL2CacheProtocol.apply
          { msg := ⟨some 2, none, MessageBody.AceSnoop AceSnpOpcode.CleanInvalid 64⟩,
            line := ⟨State.IE, none, ∅⟩, tstate := ⟨some 7⟩, addr := 0,
            silently_evicted := false } []).2.1).line.state = State.I ∧
    L2Opcode.EndTransaction ∉
      (L2CommandInterpreter.execute_list (L2State.init ⟨State.IE, none, ∅⟩)
        (MOESIL2CacheProtocol.apply
          { msg := ⟨some 2, none, MessageBody.AceSnoop AceSnpOpcode.CleanInvalid 64⟩,
            line := ⟨State.IE, none, ∅⟩, tstate := ⟨some 7⟩, addr := 0,
            silently_evicted := false } []).2.1).ops := by
  refine ⟨?_, ?_, ?_, ?_, ?_, ?_⟩ <;>
    simp [MOESIL2CacheProtocol.apply, MOESIL2CacheProtocol.apply_AceSnpMsg,
      MOESIL2CacheProtocol.issue_msg, MOESIL2CacheProtocol.issue_update_state,
      L2CacheContext.set_addr, AceSnpRspFlags.toMessage, is_stable,
      L2CommandList.push_back, LineState.state, L2CommandInterpreter.execute_list,
      L2CommandInterpreter.execute, L2CommandBuilder.from_action, L2CommandBuilder.from_opcode,
      LineUpdateAction.execute, LineState.set_state, L2State.init]

end moesi_l2

/-! ## Memory controller -/

namespace MemCntrlAgent

/-- The arbiter has one slot per request queue. -/
theorem rdis_arb_n (m : MemCntrlAgent) : m.rdis_arb.n = m.rdis_mq.length := by
  simp [rdis_arb, Arbiter.n]

/-- The arbiter reads slot `p` from the request queue `p`. -/
theorem rdis_arb_at (m : MemCntrlAgent) (p : Nat) (hp : p < m.rdis_mq.length) :
    m.rdis_arb.at_ p = (m.rdis_mq.getD p default).requester := by
  simp [rdis_arb, Arbiter.at_, List.getD_eq_getElem?_getD, List.getElem?_map,
    List.getElem?_eq_getElem hp]

/-- A nominated queue lies in the vector, holds a command at its head and is not
blocked; no deadlock is logged. -/
theorem winner_has_head (m : MemCntrlAgent) (w : Nat)
    (hw : m.rdis_arb.tournament.1.winner = some w) :
    w < m.rdis_mq.length ∧
      (∃ cmd rest, (m.rdis_mq.getD w default).msgs = cmd :: rest) ∧
      m.rdis_arb.tournament.1.idx_ = w ∧
      m.rdis_arb.tournament.2.2 = [] := by
  have hs := Tournament.winner_sound m.rdis_arb w hw
  obtain ⟨h1, h2, _, h4, h5⟩ := hs
  rw [rdis_arb_n] at h1
  rw [rdis_arb_at m w h1] at h2
  refine ⟨h1, ?_, h4, ?_⟩
  · cases hq : (m.rdis_mq.getD w default).msgs with
    | nil =>
      simp only [MemMessageQueue.requester, MemMessageQueue.has_req, hq] at h2
      simp at h2
    | cons c r => exact ⟨c, r, rfl⟩
  · simp [Arbiter.tournament, Tournament.deadlock, h5]

/-- A command at the head of a queue that is not blocked gives the tournament a
requester. -/
theorem has_requester_of_pending (m : MemCntrlAgent) (p : Nat) (hp : p < m.rdis_mq.length)
    (hq : (m.rdis_mq.getD p default).msgs ≠ [])
    (hb : (m.rdis_mq.getD p default).blocked = false) :
    m.rdis_arb.tournament.1.has_requester = true := by
  have hel : m.rdis_arb.eligible p = true := by
    simp only [Arbiter.eligible, rdis_arb_at m p hp, MemMessageQueue.requester,
      MemMessageQueue.has_req, hb]
    cases h : (m.rdis_mq.getD p default).msgs with
    | nil => exact absurd h hq
    | cons c r => rfl
  rcases Tournament.execute_cases m.rdis_arb with ⟨j, _, _, _, h4, _⟩ | ⟨h1, _⟩
  · simp [Arbiter.tournament, Tournament.has_requester, h4]
  · obtain ⟨j, hj, hjp⟩ := Arbiter.slot_cover m.rdis_arb p (by rw [rdis_arb_n]; exact hp)
    have := h1 j hj
    rw [hjp, hel] at this
    exact absurd this (by decide)


/-- The outcome of `eval()` when a queue is nominated and the port has a
credit. -/
theorem eval_of_winner (render : MemCmdMsg → String) (m : MemCntrlAgent) (w : Nat)
    (cmd : MemCmdMsg) (rest : List MemCmdMsg)
    (hw : m.rdis_arb.tournament.1.winner = some w) (hc : m.ingress_cc.empty = false)
    (hq : (m.rdis_mq.getD w default).msgs = cmd :: rest) :
    (RequestDispatcherProcess.eval render m).1 =
      { id := m.id,
        rdis_mq := m.rdis_mq.set w { (m.rdis_mq.getD w default) with msgs := rest },
        rdis_arb_idx := (w + 1) % m.rdis_mq.length,
        ingress_cc := m.ingress_cc.debit,
        ingress := m.ingress ++
          [{ payload :=
               { t := cmd.t, origin := none,
                 opcode :=
                   match cmd.opcode with
                   | MemCmdOpcode.Read => MemRspOpcode.ReadOkay
                   | MemCmdOpcode.Write => MemRspOpcode.WriteOkay
                   | MemCmdOpcode.Invalid => MemRspOpcode.Invalid },
             origin := some m.id, dest := cmd.origin }] } := by
  obtain ⟨_, _, hidx, _⟩ := winner_has_head m w hw
  have hw2 : m.rdis_arb.tournament.1.winner_ = some w := hw
  have hd : (m.rdis_mq.getD w default).dequeue =
      (some cmd, { (m.rdis_mq.getD w default) with msgs := rest }) := by
    simp only [MemMessageQueue.dequeue, hq]
  simp only [RequestDispatcherProcess.eval, Tournament.has_requester, Tournament.winner, hw2,
    Option.isSome_some, Bool.not_true, Bool.false_eq_true, if_false, hc, hd,
    RequestDispatcherProcess.issue_emit_to_noc, Tournament.advance, if_true, hidx]
  cases cmd.opcode <;> simp [rdis_arb, Arbiter.n]

end MemCntrlAgent

/-- C31. Response of the memory controller: when `eval()` finds a nominated
queue `w` and the port has a credit, it dequeues the command at the head of that
queue and issues exactly one envelope to the ingress queue of the port. The
envelope holds one MemRsp carrying the transaction of the command, with opcode
ReadOkay for a Read and WriteOkay for a Write; its destination is the origin of
the command and its origin is the memory controller. The command is gone from
its queue, the other queues are as before, and the arbiter has advanced to the
slot after `w`. -/
theorem mem_cntrl_response (render : MemCmdMsg → String) (m : MemCntrlAgent) (w : Nat)
    (hw : m.rdis_arb.tournament.1.winner = some w) (hc : m.ingress_cc.empty = false) :
    ∃ cmd rest, (m.rdis_mq.getD w default).msgs = cmd :: rest ∧
      (MemCntrlAgent.RequestDispatcherProcess.eval render m).1.ingress =
        m.ingress ++
          [{ payload :=
               { t := cmd.t, origin := none,
                 opcode :=
                   match cmd.opcode with
                   | MemCmdOpcode.Read => MemRspOpcode.ReadOkay
                   | MemCmdOpcode.Write => MemRspOpcode.WriteOkay
                   | MemCmdOpcode.Invalid => MemRspOpcode.Invalid },
             origin := some m.id, dest := cmd.origin }] ∧
      (MemCntrlAgent.RequestDispatcherProcess.eval render m).1.rdis_mq =
        m.rdis_mq.set w { (m.rdis_mq.getD w default) with msgs := rest } ∧
      (MemCntrlAgent.RequestDispatcherProcess.eval render m).1.rdis_arb_idx =
        (w + 1) % m.rdis_mq.length := by
  obtain ⟨_, ⟨cmd, rest, hq⟩, _, _⟩ := MemCntrlAgent.winner_has_head m w hw
  refine ⟨cmd, rest, hq, ?_, ?_, ?_⟩ <;>
    rw [MemCntrlAgent.eval_of_winner render m w cmd rest hw hc hq]

/-- C31, on a controller with one queue holding a Read of transaction 1 from
agent 3 and two credits: the envelope goes from the controller 50 to agent 3 and
holds a ReadOkay of transaction 1. -/
theorem mem_cntrl_response_witness :
    (MemCntrlAgent.mk 50 [⟨[⟨some 1, some 3, MemCmdOpcode.Read⟩], false⟩] 0 ⟨2⟩
        []).rdis_arb.tournament.1.winner = some 0 ∧
      ∃ cmd rest,
        ((MemCntrlAgent.mk 50 [⟨[⟨some 1, some 3, MemCmdOpcode.Read⟩], false⟩] 0 ⟨2⟩
          []).rdis_mq.getD 0 default).msgs = cmd :: rest ∧
        (MemCntrlAgent.RequestDispatcherProcess.eval (fun _ => "")
          (MemCntrlAgent.mk 50 [⟨[⟨some 1, some 3, MemCmdOpcode.Read⟩], false⟩] 0 ⟨2⟩
            [])).1.ingress =
          (MemCntrlAgent.mk 50 [⟨[⟨some 1, some 3, MemCmdOpcode.Read⟩], false⟩] 0 ⟨2⟩
            []).ingress ++
          [{ payload :=
               { t := cmd.t, origin := none,
                 opcode :=
                   match cmd.opcode with
                   | MemCmdOpcode.Read => MemRspOpcode.ReadOkay
                   | MemCmdOpcode.Write => MemRspOpcode.WriteOkay
                   | MemCmdOpcode.Invalid => MemRspOpcode.Invalid },
             origin := some 50, dest := cmd.origin }] :=
  ⟨by decide,
   by
    obtain ⟨cmd, rest, h1, h2, _, _⟩ := mem_cntrl_response (fun _ => "")
      (MemCntrlAgent.mk 50 [⟨[⟨some 1, some 3, MemCmdOpcode.Read⟩], false⟩] 0 ⟨2⟩ []) 0
      (by decide) (by decide)
    exact ⟨cmd, rest, h1, h2⟩⟩

/-- C32. Backpressure on credits: when a command waits at the head of a queue
that is not blocked and the ingress credit counter of the port is empty,
`eval()` leaves the controller as it is (no command dequeued, no message
issued, no credit taken), logs nothing and waits on the credit event. When the
counter is not empty a command is processed: exactly one credit is taken and
exactly one message is issued to the port. -/
theorem mem_cntrl_credit_backpressure (render : MemCmdMsg → String) (m : MemCntrlAgent)
    (p : Nat) (hp : p < m.rdis_mq.length) (hq : (m.rdis_mq.getD p default).msgs ≠ [])
    (hb : (m.rdis_mq.getD p default).blocked = false) :
    (m.ingress_cc.empty = true →
        MemCntrlAgent.RequestDispatcherProcess.eval render m =
          (m, [], MemWait.credit_event)) ∧
      (m.ingress_cc.empty = false →
        (MemCntrlAgent.RequestDispatcherProcess.eval render m).1.ingress_cc.i_ + 1 =
            m.ingress_cc.i_ ∧
          (MemCntrlAgent.RequestDispatcherProcess.eval render m).1.ingress.length =
            m.ingress.length + 1) := by
  have hreq := MemCntrlAgent.has_requester_of_pending m p hp hq hb
  have hsome : ∃ w, m.rdis_arb.tournament.1.winner = some w := by
    simp only [Tournament.has_requester] at hreq
    exact Option.isSome_iff_exists.mp hreq
  obtain ⟨w, hw⟩ := hsome
  obtain ⟨_, ⟨cmd, rest, hcmd⟩, _, hlog⟩ := MemCntrlAgent.winner_has_head m w hw
  refine ⟨?_, ?_⟩
  · intro hc
    simp [MemCntrlAgent.RequestDispatcherProcess.eval, hreq, hc, hlog]
  · intro hc
    rw [MemCntrlAgent.eval_of_winner render m w cmd rest hw hc hcmd]
    have hne : m.ingress_cc.i_ ≠ 0 := by
      simpa [CreditCounter.empty] using hc
    simp only [CreditCounter.debit, List.length_append, List.length_singleton]
    exact ⟨by omega, trivial⟩

/-- C32, on a controller with one queue holding a Read and no credit: `eval()`
changes nothing and waits on the credit event. -/
theorem mem_cntrl_credit_backpressure_witness :
    (MemCntrlAgent.mk 50 [⟨[⟨some 1, some 3, MemCmdOpcode.Read⟩], false⟩] 0 ⟨0⟩
        []).ingress_cc.empty = true ∧
      MemCntrlAgent.RequestDispatcherProcess.eval (fun _ => "")
          (MemCntrlAgent.mk 50 [⟨[⟨some 1, some 3, MemCmdOpcode.Read⟩], false⟩] 0 ⟨0⟩ []) =
        (MemCntrlAgent.mk 50 [⟨[⟨some 1, some 3, MemCmdOpcode.Read⟩], false⟩] 0 ⟨0⟩ [], [],
          MemWait.credit_event) :=
  ⟨by decide,
   (mem_cntrl_credit_backpressure (fun _ => "")
      (MemCntrlAgent.mk 50 [⟨[⟨some 1, some 3, MemCmdOpcode.Read⟩], false⟩] 0 ⟨0⟩ []) 0
      (by decide) (by decide) (by decide)).1 (by decide)⟩

/-! ## Protocol registry and configuration builder -/

namespace ProtocolBuilderRegistry

variable {F B : Type}

/-- The factory held under a name after a sequence of registrations is the one
of the last registration under that name. -/
theorem m_foldl (regs : List (String × F)) (name : String) :
    ∀ r : ProtocolBuilderRegistry F,
      (regs.foldl (fun r e => r.register_protocol e.1 e.2) r).m_ name =
        regs.foldl (fun acc e => if e.1 = name then some e.2 else acc) (r.m_ name) := by
  induction regs with
  | nil => intro r; rfl
  | cons e es ih =>
    intro r
    rw [List.foldl_cons, List.foldl_cons, ih]
    congr 1
    by_cases h : e.1 = name
    · simp [register_protocol, h]
    · have h2 : ¬ name = e.1 := fun h3 => h h3.symm
      simp [register_protocol, h, h2]

/-- Registrations under other names leave the factory of a name as it is. -/
theorem foldl_other (post : List (String × F)) (name : String)
    (h : ∀ e, e ∈ post → e.1 ≠ name) :
    ∀ acc : Option F,
      post.foldl (fun acc e => if e.1 = name then some e.2 else acc) acc = acc := by
  induction post with
  | nil => intro acc; rfl
  | cons e es ih =>
    intro acc
    rw [List.foldl_cons, if_neg (h e (List.mem_cons_self e es))]
    exact ih (fun x hx => h x (List.mem_cons_of_mem e hx)) acc

/-- A registration under a name leaves a factory under that name. -/
theorem foldl_isSome (regs : List (String × F)) (name : String) :
    ∀ acc : Option F, (acc.isSome = true ∨ ∃ e, e ∈ regs ∧ e.1 = name) →
      (regs.foldl (fun acc e => if e.1 = name then some e.2 else acc) acc).isSome = true := by
  induction regs with
  | nil =>
    intro acc h
    rcases h with h | ⟨e, he, _⟩
    · exact h
    · exact absurd he (List.not_mem_nil e)
  | cons e es ih =>
    intro acc h
    rw [List.foldl_cons]
    apply ih
    by_cases hk : e.1 = name
    · left; simp [hk]
    · rcases h with h | ⟨x, hx, hxn⟩
      · left; simpa [hk] using h
      · rcases List.mem_cons.mp hx with rfl | hx2
        · exact absurd hxn hk
        · right; exact ⟨x, hx2, hxn⟩

end ProtocolBuilderRegistry

/-- C33. Lookup in the protocol registry. After any sequence of registrations,
`build(name)` yields the builder constructed by the factory of the last
registration under `name`; it yields no builder when nothing was registered
under `name`; so it yields a builder exactly when some factory is registered
under `name`. The MOESI builder is registered under "moesi", and
`construct_protocol_builder` yields no builder for any other name. When the
registry yields no builder for the protocol named in a configuration holding
the members `name`, `protocol`, `enable_verif` and `enable_stats`, the
configuration builder throws `BuilderException("Invalid protocol: " + name)` and
has by then written those three members only: no cluster, directory or memory
configuration has been built. -/
theorem protocol_registry_lookup {F B : Type} (construct : F → B) (regs : List (String × F))
    (name : String) :
    (∀ pre f post, regs = pre ++ (name, f) :: post → (∀ e, e ∈ post → e.1 ≠ name) →
        (ProtocolBuilderRegistry.registered regs).build construct name = some (construct f)) ∧
      ((∀ e, e ∈ regs → e.1 ≠ name) →
        (ProtocolBuilderRegistry.registered regs).build construct name = none) ∧
      (((ProtocolBuilderRegistry.registered regs).build construct name).isSome = true ↔
        ∃ f, (name, f) ∈ regs) ∧
      construct_protocol_builder "moesi" = some ProtocolBuilder.MOESIProtocolBuilder ∧
      (∀ other, other ≠ "moesi" → construct_protocol_builder other = none) ∧
      (∀ (CCL DCFG MCFG SCFG NOC : Type) (sub : SocConfigBuilders CCL DCFG MCFG SCFG NOC)
          (c : SocConfig CCL DCFG MCFG SCFG NOC) (j : Json) (nm : String) (ev es : Bool),
        j.contains "name" = true → (j.get "name").as_string = some nm →
        j.contains "protocol" = true → (j.get "protocol").as_string = some name →
        j.contains "enable_verif" = true → (j.get "enable_verif").as_bool = some ev →
        j.contains "enable_stats" = true → (j.get "enable_stats").as_bool = some es →
        construct_protocol_builder name = none →
        SocConfigBuilderJson.build sub c j =
          ({ c with name := nm, enable_verif := ev, enable_stats := es }, none,
           some (BuildError.BuilderException ("Invalid protocol: " ++ name)))) := by
  have hm : (ProtocolBuilderRegistry.registered regs).m_ name =
      regs.foldl (fun acc e => if e.1 = name then some e.2 else acc) none :=
    ProtocolBuilderRegistry.m_foldl regs name ProtocolBuilderRegistry.empty
  have hnone : (∀ e, e ∈ regs → e.1 ≠ name) →
      (ProtocolBuilderRegistry.registered regs).build construct name = none := by
    intro h
    simp only [ProtocolBuilderRegistry.build, hm,
      ProtocolBuilderRegistry.foldl_other regs name h none]
  have hsome : ∀ pre f post, regs = pre ++ (name, f) :: post →
      (∀ e, e ∈ post → e.1 ≠ name) →
      (ProtocolBuilderRegistry.registered regs).build construct name = some (construct f) := by
    intro pre f post hregs hpost
    subst hregs
    simp only [ProtocolBuilderRegistry.build, hm, List.foldl_append, List.foldl_cons,
      if_true, ProtocolBuilderRegistry.foldl_other post name hpost]
  refine ⟨hsome, hnone, ?_, ?_, ?_, ?_⟩
  · constructor
    · intro h
      by_contra hne
      have hall : ∀ e, e ∈ regs → e.1 ≠ name := by
        intro e he heq
        exact hne ⟨e.2, by rw [← heq]; exact he⟩
      rw [hnone hall] at h
      simp at h
    · rintro ⟨f, hf⟩
      have := ProtocolBuilderRegistry.foldl_isSome regs name none (Or.inr ⟨(name, f), hf, rfl⟩)
      simp only [ProtocolBuilderRegistry.build, hm]
      cases hres : regs.foldl (fun acc e => if e.1 = name then some e.2 else acc) none with
      | none => rw [hres] at this; simp at this
      | some x => rfl
  · simp [construct_protocol_builder, static_registry, ProtocolBuilderRegistry.build,
      ProtocolBuilderRegistry.register_protocol, ProtocolBuilderRegistry.empty,
      ProtocolBuilderFactory.construct]
  · intro other h
    simp [construct_protocol_builder, static_registry, ProtocolBuilderRegistry.build,
      ProtocolBuilderRegistry.register_protocol, ProtocolBuilderRegistry.empty, h]
  · intro CCL DCFG MCFG SCFG NOC sub c j nm ev es h1 h2 h3 h4 h5 h6 h7 h8 h9
    simp [SocConfigBuilderJson.build, h1, h2, h3, h4, h5, h6, h7, h8, h9]

/-- C33, on the registry holding the MOESI factory under "moesi": a request for
"mesi" yields no builder. -/
theorem protocol_registry_lookup_witness :
    (∀ e, e ∈ [("moesi", ProtocolBuilderFactory.MOESIProtocolBuilderFactory)] → e.1 ≠ "mesi") ∧
      (ProtocolBuilderRegistry.registered
          [("moesi", ProtocolBuilderFactory.MOESIProtocolBuilderFactory)]).build
        ProtocolBuilderFactory.construct "mesi" = none :=
  ⟨by decide,
   (protocol_registry_lookup ProtocolBuilderFactory.construct
      [("moesi", ProtocolBuilderFactory.MOESIProtocolBuilderFactory)] "mesi").2.1 (by decide)⟩

/-! ## Programmatic stimulus -/

/-- C35. A bad CPU id is rejected: for every programmatic stimulus of a
configured SoC and every `cpu_id` that does not name a configured CPU,
`push_stimulus(cpu_id, opcode, addr)` raises a `StimulusException` and leaves
the stimulus as it was, so nothing is issued; for a `cpu_id` that names a
configured CPU it raises nothing and appends the command at the time of the
cursor. -/
theorem push_stimulus_bad_cpu_id (s : ProgrammaticStimulus) (cpu_id : Nat)
    (opcode : CpuOpcode) (addr : addr_t) :
    (¬ cpu_id < s.cpu_n →
        (s.push_stimulus cpu_id opcode addr).2 = some StimulusException.raised ∧
        (s.push_stimulus cpu_id opcode addr).1 = s) ∧
      (cpu_id < s.cpu_n →
        (s.push_stimulus cpu_id opcode addr).2 = none ∧
        (s.push_stimulus cpu_id opcode addr).1.stream =
          s.stream ++ [(s.cursor, cpu_id, opcode, addr)]) := by
  refine ⟨?_, ?_⟩
  · intro h
    simp [ProgrammaticStimulus.push_stimulus, h]
  · intro h
    simp [ProgrammaticStimulus.push_stimulus, h]

/-- C35, in the configuration of one cluster with one CPU, after
`advance_cursor(200)`: `push_stimulus(1000, Load, 0)` raises the exception and
the stream stays empty. -/
theorem push_stimulus_bad_cpu_id_witness :
    ¬ 1000 < ((ProgrammaticStimulus.new [1]).advance_cursor 200).cpu_n ∧
      ((((ProgrammaticStimulus.new [1]).advance_cursor 200).push_stimulus 1000
          CpuOpcode.Load 0).2 = some StimulusException.raised ∧
        (((ProgrammaticStimulus.new [1]).advance_cursor 200).push_stimulus 1000
          CpuOpcode.Load 0).1 = (ProgrammaticStimulus.new [1]).advance_cursor 200) :=
  ⟨by decide,
   (push_stimulus_bad_cpu_id ((ProgrammaticStimulus.new [1]).advance_cursor 200) 1000
      CpuOpcode.Load 0).1 (by decide)⟩

/-! ## L1 protocol -/

namespace moesi_l1

end moesi_l1

end cc
